import Mathlib

/-!
Verification of the project-import engine
(`ami/main/management/commands/import_project.py`).

The store (Django ORM over a relational database) is embedded as an explicit
record of tables (`Db`), one list of rows per entity kind, together with a
single `nextPk` counter from which every created row receives its persistent
identity.  The identity remapper `self.id_maps` is embedded as a record of
association lists (`IdMaps`), newest entry first, so that assignment
overwrites and lookup returns the latest binding, as for a Python dict.

Each `import_*` method of the command becomes a function
`ImportState → Except ImportError ImportState`; Python `for` loops become
structural recursion over the document lists (via the `importLoop`
combinator), `continue` becomes returning the state unchanged, and every
store mutation goes through `ImportState.write`.  To reason about
`transaction.atomic` (line 125 of the source), `ImportState` carries an
optional countdown `writesLeft` injecting a store failure after a chosen
number of successful writes: this models the "any unexpected failure during
the write sequence" of the specification's error taxonomy.

Opaque payloads that the importer merely copies (timestamps, scores,
geo-coordinates, JSON blobs such as `bbox`, `kwargs`, `default_filters`,
category-map data) are embedded as `Option String` / `Option Int` values;
no claim depends on their internal structure.  `datetime.fromisoformat` is
embedded as the identity on the carried string (its failure mode is covered
by the generic write-failure injection).  Python truthiness of optional
integers (`if not deployment_id`) is embedded by `truthy`.
-/

set_option autoImplicit false
set_option linter.unusedVariables false

namespace AntennaImport

/-- Persistent identity assigned by the store. -/
abbrev Pk := Nat

/-- Document-local external identity. -/
abbrev DocId := Nat

/-! ### Document records

One structure per entity kind, holding exactly the JSON fields the importer
reads.  Fields read with `.get(...)` (absent or null in the document) are
`Option`s; the importer applies the source's defaults at creation time. -/

structure ProjectData where
  id : DocId
  name : String
  description : Option String
  is_draft : Option Bool
  priority : Option Int
  image_base_url : Option String
  default_event_method : Option String
  default_event_time_threshold : Option Int
  summary : Option String
  details : Option String
  default_filters : Option String
deriving DecidableEq

structure SiteData where
  id : DocId
  name : String
  description : Option String
  latitude : Option Int
  longitude : Option Int
  elevation : Option Int
deriving DecidableEq

structure DeviceData where
  id : DocId
  name : String
  description : Option String
  hardware_version : Option String
  software_version : Option String
deriving DecidableEq

structure StorageSourceData where
  id : DocId
  name : String
  endpoint_url : Option String
  bucket : Option String
  prefix_val : Option String
  access_key : Option String
  secret_key : Option String
  public_base_url : Option String
deriving DecidableEq

structure DeploymentData where
  id : DocId
  name : String
  description : Option String
  research_site_id : Option DocId
  device_id : Option DocId
  data_source_id : Option DocId
  data_source_subdir : Option String
  data_source_regex : Option String
  latitude : Option Int
  longitude : Option Int
deriving DecidableEq

structure EventData where
  id : DocId
  deployment_id : Option DocId
  group_by : String
  start : Option String
  end_ : Option String
deriving DecidableEq

structure TaxonData where
  id : DocId
  name : String
  rank : Option String
  description : Option String
  ordering : Option Int
  parent_id : Option DocId
  synonym_of_id : Option DocId
deriving DecidableEq

structure TaxaListData where
  id : DocId
  name : String
  description : Option String
  taxa_ids : List DocId
deriving DecidableEq

structure TagData where
  id : DocId
  name : String
  description : Option String
  color : Option String
  taxa_ids : List DocId
deriving DecidableEq

structure SourceImageData where
  id : DocId
  deployment_id : Option DocId
  event_id : Option DocId
  path : String
  timestamp : Option String
  width : Option Int
  height : Option Int
  size : Option Int
  checksum : Option String
deriving DecidableEq

structure CollectionData where
  id : DocId
  name : String
  description : Option String
  method : Option String
  kwargs : Option String
  image_ids : List DocId
deriving DecidableEq

structure AlgorithmData where
  id : DocId
  name : String
  key : String
  version : Int
  task_type : Option String
  category_map_data : Option String
  category_map_labels : List String
deriving DecidableEq

structure OccurrenceData where
  id : DocId
  event_id : Option DocId
  deployment_id : Option DocId
  determination_id : Option DocId
  determination_score : Option Int
deriving DecidableEq

structure DetectionData where
  id : DocId
  source_image_id : Option DocId
  occurrence_id : Option DocId
  detection_algorithm_id : Option DocId
  bbox : Option String
  path : Option String
  timestamp : Option String
  frame_num : Option Int
  detection_score : Option Int
deriving DecidableEq

structure ClassificationData where
  id : DocId
  detection_id : Option DocId
  taxon_id : Option DocId
  algorithm_id : Option DocId
  score : Option Int
  timestamp : Option String
deriving DecidableEq

structure IdentificationData where
  id : DocId
  occurrence_id : Option DocId
  taxon_id : Option DocId
  agreed_with_identification_id : Option DocId
  agreed_with_prediction_id : Option DocId
  withdrawn : Option Bool
  remarks : Option String
  created_at : Option String
deriving DecidableEq

structure ProcessingServiceData where
  id : DocId
  name : String
  endpoint_url : String
deriving DecidableEq

structure PipelineData where
  id : DocId
  name : String
  slug : Option String
  version : Int
  default_config : Option String
  algorithm_ids : List DocId
deriving DecidableEq

structure PipelineConfigData where
  id : DocId
  pipeline_id : Option DocId
  enabled : Option Bool
  config : Option String
deriving DecidableEq

/-- The export document (the `export_data` JSON object). -/
structure Document where
  project : ProjectData
  sites : List SiteData
  devices : List DeviceData
  storage_sources : List StorageSourceData
  deployments : List DeploymentData
  events : List EventData
  taxa : List TaxonData
  taxa_lists : List TaxaListData
  tags : List TagData
  source_images : List SourceImageData
  collections : List CollectionData
  algorithms : List AlgorithmData
  occurrences : List OccurrenceData
  detections : List DetectionData
  classifications : List ClassificationData
  identifications : List IdentificationData
  processing_services : List ProcessingServiceData
  pipelines : List PipelineData
  pipeline_configs : List PipelineConfigData
deriving DecidableEq

/-! ### Store rows

One structure per entity kind, holding exactly the fields the importer's
`objects.create(...)` calls set (plus the store-assigned `pk`); many-to-many
relations are lists of pks on the owning row.  Not-null enforcement by the
store schema is outside the verified core (spec section 1), so foreign keys
are stored as the `Option` value the create call passes. -/

structure ProjectRow where
  pk : Pk
  name : String
  description : String
  owner : Pk
  is_draft : Bool
  priority : Int
  image_base_url : String
  default_event_method : Option String
  default_event_time_threshold : Option Int
  summary : String
  details : String
  default_filters : Option String
  members : List Pk
deriving DecidableEq

structure SiteRow where
  pk : Pk
  project : Pk
  name : String
  description : String
  latitude : Option Int
  longitude : Option Int
  elevation : Option Int
deriving DecidableEq

structure DeviceRow where
  pk : Pk
  project : Pk
  name : String
  description : String
  hardware_version : String
  software_version : String
deriving DecidableEq

structure StorageSourceRow where
  pk : Pk
  project : Pk
  name : String
  endpoint_url : String
  bucket : String
  prefix_val : String
  access_key : String
  secret_key : String
  public_base_url : String
deriving DecidableEq

structure DeploymentRow where
  pk : Pk
  project : Pk
  name : String
  description : String
  research_site_id : Option Pk
  device_id : Option Pk
  data_source_id : Option Pk
  data_source_subdir : String
  data_source_regex : String
  latitude : Option Int
  longitude : Option Int
deriving DecidableEq

structure EventRow where
  pk : Pk
  project : Pk
  deployment_id : Option Pk
  group_by : String
  start : Option String
  end_ : Option String
deriving DecidableEq

structure TaxonRow where
  pk : Pk
  name : String
  rank : String
  description : String
  ordering : Int
  parent_id : Option Pk
  synonym_of_id : Option Pk
  projects : List Pk
deriving DecidableEq

structure TaxaListRow where
  pk : Pk
  name : String
  description : String
  projects : List Pk
  taxa : List Pk
deriving DecidableEq

structure TagRow where
  pk : Pk
  project : Pk
  name : String
  description : String
  color : String
  taxa : List Pk
deriving DecidableEq

structure SourceImageRow where
  pk : Pk
  project : Pk
  deployment_id : Option Pk
  event_id : Option Pk
  path : String
  timestamp : Option String
  width : Option Int
  height : Option Int
  size : Option Int
  checksum : Option String
deriving DecidableEq

structure CollectionRow where
  pk : Pk
  project : Pk
  name : String
  description : String
  method : Option String
  kwargs : Option String
  images : List Pk
deriving DecidableEq

structure CategoryMapRow where
  pk : Pk
  data : String
  labels : List String
deriving DecidableEq

structure AlgorithmRow where
  pk : Pk
  name : String
  key : String
  version : Int
  task_type : String
  category_map : Option Pk
deriving DecidableEq

structure OccurrenceRow where
  pk : Pk
  project : Pk
  event_id : Option Pk
  deployment_id : Option Pk
  determination_id : Option Pk
  determination_score : Option Int
deriving DecidableEq

structure DetectionRow where
  pk : Pk
  source_image_id : Option Pk
  occurrence_id : Option Pk
  detection_algorithm_id : Option Pk
  bbox : Option String
  path : String
  timestamp : Option String
  frame_num : Option Int
  detection_score : Option Int
deriving DecidableEq

structure ClassificationRow where
  pk : Pk
  detection_id : Option Pk
  taxon_id : Option Pk
  algorithm_id : Option Pk
  score : Option Int
  timestamp : Option String
deriving DecidableEq

structure IdentificationRow where
  pk : Pk
  user : Pk
  occurrence_id : Option Pk
  taxon_id : Option Pk
  agreed_with_identification_id : Option Pk
  agreed_with_prediction_id : Option Pk
  withdrawn : Bool
  remarks : String
  created_at : Option String
deriving DecidableEq

structure ProcessingServiceRow where
  pk : Pk
  name : String
  endpoint_url : String
  projects : List Pk
deriving DecidableEq

structure PipelineRow where
  pk : Pk
  name : String
  slug : String
  version : Int
  default_config : Option String
  algorithms : List Pk
deriving DecidableEq

structure PipelineConfigRow where
  pk : Pk
  project : Pk
  pipeline_id : Option Pk
  enabled : Bool
  config : Option String
deriving DecidableEq

/-- The store: one table per entity kind plus the pk counter.  A single
shared counter stands for the per-table sequences of the real store; all
freshness arguments only use that assigned pks are new to their table. -/
structure Db where
  nextPk : Pk
  projects : List ProjectRow
  sites : List SiteRow
  devices : List DeviceRow
  storage_sources : List StorageSourceRow
  deployments : List DeploymentRow
  events : List EventRow
  taxa : List TaxonRow
  taxa_lists : List TaxaListRow
  tags : List TagRow
  source_images : List SourceImageRow
  collections : List CollectionRow
  category_maps : List CategoryMapRow
  algorithms : List AlgorithmRow
  occurrences : List OccurrenceRow
  detections : List DetectionRow
  classifications : List ClassificationRow
  identifications : List IdentificationRow
  processing_services : List ProcessingServiceRow
  pipelines : List PipelineRow
  pipeline_configs : List PipelineConfigRow
deriving DecidableEq

/-- The identity remapper `self.id_maps`: one dict per entity kind mapping
document-local ids to new pks.  Association lists, newest binding first. -/
structure IdMaps where
  project : List (DocId × Pk)
  site : List (DocId × Pk)
  device : List (DocId × Pk)
  storage_source : List (DocId × Pk)
  deployment : List (DocId × Pk)
  event : List (DocId × Pk)
  source_image : List (DocId × Pk)
  collection : List (DocId × Pk)
  taxon : List (DocId × Pk)
  taxa_list : List (DocId × Pk)
  tag : List (DocId × Pk)
  detection : List (DocId × Pk)
  classification : List (DocId × Pk)
  occurrence : List (DocId × Pk)
  identification : List (DocId × Pk)
  algorithm : List (DocId × Pk)
  category_map : List (DocId × Pk)
  pipeline : List (DocId × Pk)
  processing_service : List (DocId × Pk)
  pipeline_config : List (DocId × Pk)
deriving DecidableEq

/-- The fresh id_maps built in `Command.__init__`. -/
def emptyMaps : IdMaps :=
  ⟨[], [], [], [], [], [], [], [], [], [], [], [], [], [], [], [], [], [], [], []⟩

/-- Errors that abort the wrapped write sequence. -/
inductive ImportError where
  /-- An unexpected store failure (database error) on some write. -/
  | storeFailure
  /-- A lookup of a missing dict key (Python `KeyError`). -/
  | keyError
deriving DecidableEq

/-- Process state threaded through one import invocation: the store, the
identity remapper, and the fault-injection countdown (`none` = no failure is
injected; `some n` = the store fails on the (n+1)-th write from now). -/
structure ImportState where
  db : Db
  maps : IdMaps
  writesLeft : Option Nat
deriving DecidableEq

/-- One store write.  Fails when the injected failure countdown is exhausted. -/
def ImportState.write (s : ImportState) (f : Db → Db) :
    Except ImportError ImportState :=
  match s.writesLeft with
  | none => .ok { s with db := f s.db }
  | some 0 => .error .storeFailure
  | some (n + 1) => .ok { s with db := f s.db, writesLeft := some n }

/-- One `objects.create(...)` call: a write that adds a row keyed by the
fresh pk and bumps the counter, returning the new pk. -/
def ImportState.create (s : ImportState) (f : Db → Pk → Db) :
    Except ImportError (Pk × ImportState) :=
  match s.write (fun db => { f db db.nextPk with nextPk := db.nextPk + 1 }) with
  | .error e => .error e
  | .ok s1 => .ok (s.db.nextPk, s1)

/-- Dict lookup `id_maps[kind].get(key)`; a `none` key (JSON null) is never
present, as in Python. -/
def lookupId (m : List (DocId × Pk)) : Option DocId → Option Pk
  | none => none
  | some k => (m.find? (fun kv => kv.1 == k)).map (fun kv => kv.2)

/-- Python truthiness of an optional integer: `None` and `0` are falsy. -/
def truthy : Option Nat → Bool
  | none => false
  | some n => n != 0

/-- Python truthiness of an optional payload (string-embedded): `None` and
empty are falsy. -/
def truthyStr : Option String → Bool
  | none => false
  | some x => x != ""

/-- The list comprehension pattern
`[m.get(i) for i in ids]` followed by `[x for x in xs if x]`. -/
def resolveIds (m : List (DocId × Pk)) (ids : List DocId) : List Pk :=
  ((ids.map (fun i => lookupId m (some i))).filter truthy).filterMap id

/-- The pattern `datetime.fromisoformat(x) if data.get(k) else None`; parsing
is embedded as the identity on the carried string. -/
def parseTimestamp (x : Option String) : Option String :=
  match x with
  | none => none
  | some v => if v == "" then none else some v

/-- Size of an embedded dict (`len(id_maps[kind])`): distinct keys. -/
def dictSize (m : List (DocId × Pk)) : Nat :=
  (m.map Prod.fst).dedup.length

/-! ### The import steps -/

/-- The shape of every `for record in data:` loop of the command: run the
body on each record in order, stopping at the first raised error. -/
def importLoop {α : Type} (body : α → ImportState → Except ImportError ImportState) :
    List α → ImportState → Except ImportError ImportState
  | [], s => .ok s
  | x :: rest, s =>
    match body x s with
    | .error e => .error e
    | .ok s1 => importLoop body rest s1

/-- Command-line options of the import command. -/
structure Options where
  project_name : Option String
  skip_images : Bool
  skip_ml_data : Bool
deriving DecidableEq

/-- The check `Project.objects.filter(name=name).exists()`. -/
def projectNameExists (db : Db) (name : String) : Bool :=
  db.projects.any (fun p => p.name == name)

/-- The candidate built by the collision loop: the base name followed by a
space and the counter in parentheses (decimal). -/
def candidateName (base_name : String) (counter : Nat) : String :=
  base_name ++ " (" ++ Nat.repr counter ++ ")"

/-- The `while` loop of `import_project` (source lines 196-198), written with
explicit fuel; `uniqueNameLoop_spec` below proves that the fuel passed by
`resolveProjectName` always suffices to reach a free name, so the
fuel-exhausted branch is never taken. -/
def uniqueNameLoop (db : Db) (base_name : String) : Nat → Nat → String
  | counter, 0 => candidateName base_name counter
  | counter, fuel + 1 =>
    let name := candidateName base_name counter
    if projectNameExists db name then uniqueNameLoop db base_name (counter + 1) fuel
    else name

/-- Name resolution of `import_project` (lines 189-199). -/
def resolveProjectName (db : Db) (requested : String) : String :=
  if projectNameExists db requested then
    uniqueNameLoop db requested 1 (db.projects.length + 1)
  else requested

/-- The expression `options.get("project_name") or project_data["name"]` of
`import_project` (line 189): the `or` follows Python truthiness, so an empty
override falls back to the document name. -/
def requestedName (options : Options) (project_data : ProjectData) : String :=
  match options.project_name with
  | some n => if n == "" then project_data.name else n
  | none => project_data.name

/-- `Command.import_project` (lines 184-220): resolve the name, create the
Project owned by the importing user, add the user as a member, register the
external identity. -/
def import_project (project_data : ProjectData) (user : Pk) (options : Options)
    (s : ImportState) : Except ImportError (Pk × ImportState) :=
  let name := resolveProjectName s.db (requestedName options project_data)
  match s.create (fun db pk =>
      { db with projects := db.projects ++ [{
          pk := pk,
          name := name,
          description := project_data.description.getD "",
          owner := user,
          is_draft := project_data.is_draft.getD true,
          priority := project_data.priority.getD 0,
          image_base_url := project_data.image_base_url.getD "",
          default_event_method := project_data.default_event_method,
          default_event_time_threshold := project_data.default_event_time_threshold,
          summary := project_data.summary.getD "",
          details := project_data.details.getD "",
          default_filters := project_data.default_filters,
          members := [] }] }) with
  | .error e => .error e
  | .ok (pk, s1) =>
    match s1.write (fun db =>
        { db with projects := db.projects.map (fun p =>
            if p.pk == pk then
              { p with members :=
                  if p.members.contains user then p.members else p.members ++ [user] }
            else p) }) with
    | .error e => .error e
    | .ok s2 =>
      .ok (pk, { s2 with maps :=
        { s2.maps with project := (project_data.id, pk) :: s2.maps.project } })

/-- Loop body of `Command.import_sites` (lines 222-234). -/
def import_site1 (project : Pk) (site_data : SiteData) (s : ImportState) :
    Except ImportError ImportState :=
  match s.create (fun db pk =>
      { db with sites := db.sites ++ [{
          pk := pk, project := project, name := site_data.name,
          description := site_data.description.getD "",
          latitude := site_data.latitude, longitude := site_data.longitude,
          elevation := site_data.elevation }] }) with
  | .error e => .error e
  | .ok (pk, s1) =>
    .ok { s1 with maps := { s1.maps with site := (site_data.id, pk) :: s1.maps.site } }

def import_sites (sites_data : List SiteData) (project : Pk) :
    ImportState → Except ImportError ImportState :=
  importLoop (import_site1 project) sites_data

/-- Loop body of `Command.import_devices` (lines 236-247). -/
def import_device1 (project : Pk) (device_data : DeviceData) (s : ImportState) :
    Except ImportError ImportState :=
  match s.create (fun db pk =>
      { db with devices := db.devices ++ [{
          pk := pk, project := project, name := device_data.name,
          description := device_data.description.getD "",
          hardware_version := device_data.hardware_version.getD "",
          software_version := device_data.software_version.getD "" }] }) with
  | .error e => .error e
  | .ok (pk, s1) =>
    .ok { s1 with maps := { s1.maps with device := (device_data.id, pk) :: s1.maps.device } }

def import_devices (devices_data : List DeviceData) (project : Pk) :
    ImportState → Except ImportError ImportState :=
  importLoop (import_device1 project) devices_data

/-- Loop body of `Command.import_storage_sources` (lines 249-263). -/
def import_storage_source1 (project : Pk) (source_data : StorageSourceData)
    (s : ImportState) : Except ImportError ImportState :=
  match s.create (fun db pk =>
      { db with storage_sources := db.storage_sources ++ [{
          pk := pk, project := project, name := source_data.name,
          endpoint_url := source_data.endpoint_url.getD "",
          bucket := source_data.bucket.getD "",
          prefix_val := source_data.prefix_val.getD "",
          access_key := source_data.access_key.getD "",
          secret_key := source_data.secret_key.getD "",
          public_base_url := source_data.public_base_url.getD "" }] }) with
  | .error e => .error e
  | .ok (pk, s1) =>
    .ok { s1 with maps :=
      { s1.maps with storage_source := (source_data.id, pk) :: s1.maps.storage_source } }

def import_storage_sources (sources_data : List StorageSourceData) (project : Pk) :
    ImportState → Except ImportError ImportState :=
  importLoop (import_storage_source1 project) sources_data

/-- Loop body of `Command.import_deployments` (lines 265-286): the three
infrastructure references are optional, resolved without a mandatory check. -/
def import_deployment1 (project : Pk) (deployment_data : DeploymentData)
    (s : ImportState) : Except ImportError ImportState :=
  let research_site_id := lookupId s.maps.site deployment_data.research_site_id
  let device_id := lookupId s.maps.device deployment_data.device_id
  let data_source_id := lookupId s.maps.storage_source deployment_data.data_source_id
  match s.create (fun db pk =>
      { db with deployments := db.deployments ++ [{
          pk := pk, project := project, name := deployment_data.name,
          description := deployment_data.description.getD "",
          research_site_id := research_site_id,
          device_id := device_id,
          data_source_id := data_source_id,
          data_source_subdir := deployment_data.data_source_subdir.getD "",
          data_source_regex := deployment_data.data_source_regex.getD "",
          latitude := deployment_data.latitude,
          longitude := deployment_data.longitude }] }) with
  | .error e => .error e
  | .ok (pk, s1) =>
    .ok { s1 with maps :=
      { s1.maps with deployment := (deployment_data.id, pk) :: s1.maps.deployment } }

def import_deployments (deployments_data : List DeploymentData) (project : Pk) :
    ImportState → Except ImportError ImportState :=
  importLoop (import_deployment1 project) deployments_data

/-- Loop body of `Command.import_events` (lines 288-307): the deployment
reference is mandatory (`if not deployment_id: continue`). -/
def import_event1 (project : Pk) (event_data : EventData) (s : ImportState) :
    Except ImportError ImportState :=
  let deployment_id := lookupId s.maps.deployment event_data.deployment_id
  if truthy deployment_id then
    match s.create (fun db pk =>
        { db with events := db.events ++ [{
            pk := pk, project := project, deployment_id := deployment_id,
            group_by := event_data.group_by,
            start := parseTimestamp event_data.start,
            end_ := parseTimestamp event_data.end_ }] }) with
    | .error e => .error e
    | .ok (pk, s1) =>
      .ok { s1 with maps := { s1.maps with event := (event_data.id, pk) :: s1.maps.event } }
  else .ok s

def import_events (events_data : List EventData) (project : Pk) :
    ImportState → Except ImportError ImportState :=
  importLoop (import_event1 project) events_data

/-- One record of the first pass of `Command.import_taxa` (lines 313-330):
reuse an existing Taxon by name or create one with no parent/synonym,
register the row's pk under the document id in the id map, and add the
destination project to the row's project memberships.  The returned pair is
the `taxa_by_old_id` entry for the record. -/
def import_taxa_pass1_body (project : Pk) (taxon_data : TaxonData) (s : ImportState) :
    Except ImportError ((DocId × Pk) × ImportState) :=
  match s.db.taxa.find? (fun t => t.name == taxon_data.name) with
  | some taxon =>
    let s1 := { s with maps :=
      { s.maps with taxon := (taxon_data.id, taxon.pk) :: s.maps.taxon } }
    match s1.write (fun db =>
        { db with taxa := db.taxa.map (fun t =>
            if t.pk == taxon.pk then
              { t with projects :=
                  if t.projects.contains project then t.projects
                  else t.projects ++ [project] }
            else t) }) with
    | .error e => .error e
    | .ok s2 => .ok ((taxon_data.id, taxon.pk), s2)
  | none =>
    match s.create (fun db pk =>
        { db with taxa := db.taxa ++ [{
            pk := pk, name := taxon_data.name,
            rank := taxon_data.rank.getD "",
            description := taxon_data.description.getD "",
            ordering := taxon_data.ordering.getD 0,
            parent_id := none, synonym_of_id := none, projects := [] }] }) with
    | .error e => .error e
    | .ok (pk, s1) =>
      let s2 := { s1 with maps :=
        { s1.maps with taxon := (taxon_data.id, pk) :: s1.maps.taxon } }
      match s2.write (fun db =>
          { db with taxa := db.taxa.map (fun t =>
              if t.pk == pk then
                { t with projects :=
                    if t.projects.contains project then t.projects
                    else t.projects ++ [project] }
              else t) }) with
      | .error e => .error e
      | .ok s3 => .ok ((taxon_data.id, pk), s3)

/-- First pass of `Command.import_taxa` (lines 311-330), accumulating
`taxa_by_old_id` (newest binding first, as for a Python dict). -/
def import_taxa_pass1 (project : Pk) :
    List TaxonData → List (DocId × Pk) → ImportState →
    Except ImportError (List (DocId × Pk) × ImportState)
  | [], acc, s => .ok (acc, s)
  | taxon_data :: rest, acc, s =>
    match import_taxa_pass1_body project taxon_data s with
    | .error e => .error e
    | .ok (kv, s2) => import_taxa_pass1 project rest (kv :: acc) s2

/-- Loop body of the second pass of `Command.import_taxa` (lines 332-348):
resolve and assign the parent and synonym edges when the document declares
them and they resolve; each `save` persists the assigned field on the stored
row. -/
def import_taxa_pass2_body (taxa_by_old_id : List (DocId × Pk))
    (taxon_data : TaxonData) (s : ImportState) : Except ImportError ImportState :=
  match lookupId taxa_by_old_id (some taxon_data.id) with
  | none => .error .keyError
  | some taxonPk =>
    let afterParent : Except ImportError ImportState :=
      if truthy taxon_data.parent_id then
        let parent_id := lookupId s.maps.taxon taxon_data.parent_id
        if truthy parent_id then
          s.write (fun db => { db with taxa := db.taxa.map (fun t =>
            if t.pk == taxonPk then { t with parent_id := parent_id } else t) })
        else .ok s
      else .ok s
    match afterParent with
    | .error e => .error e
    | .ok s1 =>
      if truthy taxon_data.synonym_of_id then
        let synonym_id := lookupId s1.maps.taxon taxon_data.synonym_of_id
        if truthy synonym_id then
          s1.write (fun db => { db with taxa := db.taxa.map (fun t =>
            if t.pk == taxonPk then { t with synonym_of_id := synonym_id } else t) })
        else .ok s1
      else .ok s1

/-- `Command.import_taxa` (lines 309-350): two passes. -/
def import_taxa (taxa_data : List TaxonData) (project : Pk) (s : ImportState) :
    Except ImportError ImportState :=
  match import_taxa_pass1 project taxa_data [] s with
  | .error e => .error e
  | .ok (taxa_by_old_id, s1) =>
    importLoop (import_taxa_pass2_body taxa_by_old_id) taxa_data s1

/-- Loop body of `Command.import_taxa_lists` (lines 352-368). -/
def import_taxa_list1 (project : Pk) (taxa_list_data : TaxaListData)
    (s : ImportState) : Except ImportError ImportState :=
  match s.create (fun db pk =>
      { db with taxa_lists := db.taxa_lists ++ [{
          pk := pk, name := taxa_list_data.name,
          description := taxa_list_data.description.getD "",
          projects := [], taxa := [] }] }) with
  | .error e => .error e
  | .ok (pk, s1) =>
    match s1.write (fun db =>
        { db with taxa_lists := db.taxa_lists.map (fun tl =>
            if tl.pk == pk then
              { tl with projects :=
                  if tl.projects.contains project then tl.projects
                  else tl.projects ++ [project] }
            else tl) }) with
    | .error e => .error e
    | .ok s2 =>
      let taxon_ids := resolveIds s2.maps.taxon taxa_list_data.taxa_ids
      let afterSet : Except ImportError ImportState :=
        if taxon_ids.isEmpty then .ok s2
        else s2.write (fun db =>
          { db with taxa_lists := db.taxa_lists.map (fun tl =>
              if tl.pk == pk then { tl with taxa := taxon_ids } else tl) })
      match afterSet with
      | .error e => .error e
      | .ok s3 =>
        .ok { s3 with maps :=
          { s3.maps with taxa_list := (taxa_list_data.id, pk) :: s3.maps.taxa_list } }

def import_taxa_lists (taxa_lists_data : List TaxaListData) (project : Pk) :
    ImportState → Except ImportError ImportState :=
  importLoop (import_taxa_list1 project) taxa_lists_data

/-- Loop body of `Command.import_tags` (lines 370-387). -/
def import_tag1 (project : Pk) (tag_data : TagData) (s : ImportState) :
    Except ImportError ImportState :=
  match s.create (fun db pk =>
      { db with tags := db.tags ++ [{
          pk := pk, project := project, name := tag_data.name,
          description := tag_data.description.getD "",
          color := tag_data.color.getD "", taxa := [] }] }) with
  | .error e => .error e
  | .ok (pk, s1) =>
    let taxon_ids := resolveIds s1.maps.taxon tag_data.taxa_ids
    let afterSet : Except ImportError ImportState :=
      if taxon_ids.isEmpty then .ok s1
      else s1.write (fun db =>
        { db with tags := db.tags.map (fun tg =>
            if tg.pk == pk then { tg with taxa := taxon_ids } else tg) })
    match afterSet with
    | .error e => .error e
    | .ok s2 =>
      .ok { s2 with maps := { s2.maps with tag := (tag_data.id, pk) :: s2.maps.tag } }

def import_tags (tags_data : List TagData) (project : Pk) :
    ImportState → Except ImportError ImportState :=
  importLoop (import_tag1 project) tags_data

/-- Loop body of `Command.import_source_images` (lines 389-413): the
deployment reference is mandatory, the event reference is optional. -/
def import_source_image1 (project : Pk) (img_data : SourceImageData)
    (s : ImportState) : Except ImportError ImportState :=
  let deployment_id := lookupId s.maps.deployment img_data.deployment_id
  let event_id := lookupId s.maps.event img_data.event_id
  if truthy deployment_id then
    match s.create (fun db pk =>
        { db with source_images := db.source_images ++ [{
            pk := pk, project := project, deployment_id := deployment_id,
            event_id := event_id, path := img_data.path,
            timestamp := parseTimestamp img_data.timestamp,
            width := img_data.width, height := img_data.height,
            size := img_data.size, checksum := img_data.checksum }] }) with
    | .error e => .error e
    | .ok (pk, s1) =>
      .ok { s1 with maps :=
        { s1.maps with source_image := (img_data.id, pk) :: s1.maps.source_image } }
  else .ok s

def import_source_images (images_data : List SourceImageData) (project : Pk) :
    ImportState → Except ImportError ImportState :=
  importLoop (import_source_image1 project) images_data

/-- Loop body of `Command.import_collections` (lines 415-433). -/
def import_collection1 (project : Pk) (collection_data : CollectionData)
    (s : ImportState) : Except ImportError ImportState :=
  match s.create (fun db pk =>
      { db with collections := db.collections ++ [{
          pk := pk, project := project, name := collection_data.name,
          description := collection_data.description.getD "",
          method := collection_data.method, kwargs := collection_data.kwargs,
          images := [] }] }) with
  | .error e => .error e
  | .ok (pk, s1) =>
    let image_ids := resolveIds s1.maps.source_image collection_data.image_ids
    let afterSet : Except ImportError ImportState :=
      if image_ids.isEmpty then .ok s1
      else s1.write (fun db =>
        { db with collections := db.collections.map (fun c =>
            if c.pk == pk then { c with images := image_ids } else c) })
    match afterSet with
    | .error e => .error e
    | .ok s2 =>
      .ok { s2 with maps :=
        { s2.maps with collection := (collection_data.id, pk) :: s2.maps.collection } }

def import_collections (collections_data : List CollectionData) (project : Pk) :
    ImportState → Except ImportError ImportState :=
  importLoop (import_collection1 project) collections_data

/-- Loop body of `Command.import_algorithms` (lines 435-467): reuse by
key+version; otherwise reuse or create the category map by payload equality,
then create the algorithm. -/
def import_algorithm1 (algo_data : AlgorithmData) (s : ImportState) :
    Except ImportError ImportState :=
  match s.db.algorithms.find? (fun a =>
      a.key == algo_data.key && a.version == algo_data.version) with
  | some algorithm =>
    .ok { s with maps :=
      { s.maps with algorithm := (algo_data.id, algorithm.pk) :: s.maps.algorithm } }
  | none =>
    let categoryStep : Except ImportError (Option Pk × ImportState) :=
      if truthyStr algo_data.category_map_data then
        match s.db.category_maps.find? (fun m =>
            m.data == algo_data.category_map_data.getD "") with
        | some category_map => .ok (some category_map.pk, s)
        | none =>
          match s.create (fun db pk =>
              { db with category_maps := db.category_maps ++ [{
                  pk := pk, data := algo_data.category_map_data.getD "",
                  labels := algo_data.category_map_labels }] }) with
          | .error e => .error e
          | .ok (pk, s1) => .ok (some pk, s1)
      else .ok (none, s)
    match categoryStep with
    | .error e => .error e
    | .ok (category_map, s1) =>
      match s1.create (fun db pk =>
          { db with algorithms := db.algorithms ++ [{
              pk := pk, name := algo_data.name, key := algo_data.key,
              version := algo_data.version,
              task_type := algo_data.task_type.getD "",
              category_map := category_map }] }) with
      | .error e => .error e
      | .ok (pk, s2) =>
        .ok { s2 with maps :=
          { s2.maps with algorithm := (algo_data.id, pk) :: s2.maps.algorithm } }

def import_algorithms (algorithms_data : List AlgorithmData) (project : Pk) :
    ImportState → Except ImportError ImportState :=
  importLoop import_algorithm1 algorithms_data

/-- Loop body of `Command.import_occurrences` (lines 469-487): event and
deployment references are both mandatory; the determination is optional. -/
def import_occurrence1 (project : Pk) (occ_data : OccurrenceData)
    (s : ImportState) : Except ImportError ImportState :=
  let event_id := lookupId s.maps.event occ_data.event_id
  let deployment_id := lookupId s.maps.deployment occ_data.deployment_id
  let determination_id := lookupId s.maps.taxon occ_data.determination_id
  if truthy event_id && truthy deployment_id then
    match s.create (fun db pk =>
        { db with occurrences := db.occurrences ++ [{
            pk := pk, project := project, event_id := event_id,
            deployment_id := deployment_id, determination_id := determination_id,
            determination_score := occ_data.determination_score }] }) with
    | .error e => .error e
    | .ok (pk, s1) =>
      .ok { s1 with maps :=
        { s1.maps with occurrence := (occ_data.id, pk) :: s1.maps.occurrence } }
  else .ok s

def import_occurrences (occurrences_data : List OccurrenceData) (project : Pk) :
    ImportState → Except ImportError ImportState :=
  importLoop (import_occurrence1 project) occurrences_data

/-- Loop body of `Command.import_detections` (lines 489-513): the source
image reference is mandatory. -/
def import_detection1 (det_data : DetectionData) (s : ImportState) :
    Except ImportError ImportState :=
  let source_image_id := lookupId s.maps.source_image det_data.source_image_id
  let occurrence_id := lookupId s.maps.occurrence det_data.occurrence_id
  let algorithm_id := lookupId s.maps.algorithm det_data.detection_algorithm_id
  if truthy source_image_id then
    match s.create (fun db pk =>
        { db with detections := db.detections ++ [{
            pk := pk, source_image_id := source_image_id,
            occurrence_id := occurrence_id,
            detection_algorithm_id := algorithm_id,
            bbox := det_data.bbox, path := det_data.path.getD "",
            timestamp := parseTimestamp det_data.timestamp,
            frame_num := det_data.frame_num,
            detection_score := det_data.detection_score }] }) with
    | .error e => .error e
    | .ok (pk, s1) =>
      .ok { s1 with maps :=
        { s1.maps with detection := (det_data.id, pk) :: s1.maps.detection } }
  else .ok s

def import_detections (detections_data : List DetectionData) (project : Pk) :
    ImportState → Except ImportError ImportState :=
  importLoop import_detection1 detections_data

/-- Loop body of `Command.import_classifications` (lines 515-536): the
detection reference is mandatory. -/
def import_classification1 (cls_data : ClassificationData) (s : ImportState) :
    Except ImportError ImportState :=
  let detection_id := lookupId s.maps.detection cls_data.detection_id
  let taxon_id := lookupId s.maps.taxon cls_data.taxon_id
  let algorithm_id := lookupId s.maps.algorithm cls_data.algorithm_id
  if truthy detection_id then
    match s.create (fun db pk =>
        { db with classifications := db.classifications ++ [{
            pk := pk, detection_id := detection_id, taxon_id := taxon_id,
            algorithm_id := algorithm_id, score := cls_data.score,
            timestamp := parseTimestamp cls_data.timestamp }] }) with
    | .error e => .error e
    | .ok (pk, s1) =>
      .ok { s1 with maps :=
        { s1.maps with classification := (cls_data.id, pk) :: s1.maps.classification } }
  else .ok s

def import_classifications (classifications_data : List ClassificationData) (project : Pk) :
    ImportState → Except ImportError ImportState :=
  importLoop import_classification1 classifications_data

/-- Loop body of `Command.import_identifications` (lines 538-567): the
occurrence reference is mandatory; the user field is always the importing
user. -/
def import_identification1 (user : Pk) (id_data : IdentificationData)
    (s : ImportState) : Except ImportError ImportState :=
  let occurrence_id := lookupId s.maps.occurrence id_data.occurrence_id
  let taxon_id := lookupId s.maps.taxon id_data.taxon_id
  let agreed_with_identification_id :=
    lookupId s.maps.identification id_data.agreed_with_identification_id
  let agreed_with_prediction_id :=
    lookupId s.maps.classification id_data.agreed_with_prediction_id
  if truthy occurrence_id then
    match s.create (fun db pk =>
        { db with identifications := db.identifications ++ [{
            pk := pk, user := user, occurrence_id := occurrence_id,
            taxon_id := taxon_id,
            agreed_with_identification_id := agreed_with_identification_id,
            agreed_with_prediction_id := agreed_with_prediction_id,
            withdrawn := id_data.withdrawn.getD false,
            remarks := id_data.remarks.getD "",
            created_at := parseTimestamp id_data.created_at }] }) with
    | .error e => .error e
    | .ok (pk, s1) =>
      .ok { s1 with maps :=
        { s1.maps with identification := (id_data.id, pk) :: s1.maps.identification } }
  else .ok s

def import_identifications (identifications_data : List IdentificationData)
    (project : Pk) (user : Pk) : ImportState → Except ImportError ImportState :=
  importLoop (import_identification1 user) identifications_data

/-- Loop body of `Command.import_processing_services` (lines 569-584): reuse
by endpoint URL or create, then add the destination project in either case. -/
def import_processing_service1 (project : Pk) (service_data : ProcessingServiceData)
    (s : ImportState) : Except ImportError ImportState :=
  let foundStep : Except ImportError (Pk × ImportState) :=
    match s.db.processing_services.find? (fun sv =>
        sv.endpoint_url == service_data.endpoint_url) with
    | some service => .ok (service.pk, s)
    | none =>
      s.create (fun db pk =>
        { db with processing_services := db.processing_services ++ [{
            pk := pk, name := service_data.name,
            endpoint_url := service_data.endpoint_url, projects := [] }] })
  match foundStep with
  | .error e => .error e
  | .ok (servicePk, s1) =>
    match s1.write (fun db =>
        { db with processing_services := db.processing_services.map (fun sv =>
            if sv.pk == servicePk then
              { sv with projects :=
                  if sv.projects.contains project then sv.projects
                  else sv.projects ++ [project] }
            else sv) }) with
    | .error e => .error e
    | .ok s2 =>
      .ok { s2 with maps :=
        { s2.maps with processing_service :=
            (service_data.id, servicePk) :: s2.maps.processing_service } }

def import_processing_services (services_data : List ProcessingServiceData) (project : Pk) :
    ImportState → Except ImportError ImportState :=
  importLoop (import_processing_service1 project) services_data

/-- Loop body of `Command.import_pipelines` (lines 586-611): reuse by
name+version; a newly created pipeline gets its algorithm links resolved
through the id map (only the non-empty result is set). -/
def import_pipeline1 (pipeline_data : PipelineData) (s : ImportState) :
    Except ImportError ImportState :=
  match s.db.pipelines.find? (fun p =>
      p.name == pipeline_data.name && p.version == pipeline_data.version) with
  | some pipeline =>
    .ok { s with maps :=
      { s.maps with pipeline := (pipeline_data.id, pipeline.pk) :: s.maps.pipeline } }
  | none =>
    match s.create (fun db pk =>
        { db with pipelines := db.pipelines ++ [{
            pk := pk, name := pipeline_data.name,
            slug := pipeline_data.slug.getD "",
            version := pipeline_data.version,
            default_config := pipeline_data.default_config,
            algorithms := [] }] }) with
    | .error e => .error e
    | .ok (pk, s1) =>
      let algorithm_ids := resolveIds s1.maps.algorithm pipeline_data.algorithm_ids
      let afterSet : Except ImportError ImportState :=
        if algorithm_ids.isEmpty then .ok s1
        else s1.write (fun db =>
          { db with pipelines := db.pipelines.map (fun p =>
              if p.pk == pk then { p with algorithms := algorithm_ids } else p) })
      match afterSet with
      | .error e => .error e
      | .ok s2 =>
        .ok { s2 with maps :=
          { s2.maps with pipeline := (pipeline_data.id, pk) :: s2.maps.pipeline } }

def import_pipelines (pipelines_data : List PipelineData) (project : Pk) :
    ImportState → Except ImportError ImportState :=
  importLoop import_pipeline1 pipelines_data

/-- Loop body of `Command.import_pipeline_configs` (lines 613-633): the
pipeline reference is mandatory; within the destination project an existing
config for the same pipeline is reused. -/
def import_pipeline_config1 (project : Pk) (config_data : PipelineConfigData)
    (s : ImportState) : Except ImportError ImportState :=
  let pipeline_id := lookupId s.maps.pipeline config_data.pipeline_id
  if truthy pipeline_id then
    match s.db.pipeline_configs.find? (fun c =>
        c.project == project && c.pipeline_id == pipeline_id) with
    | some config =>
      .ok { s with maps :=
        { s.maps with pipeline_config :=
            (config_data.id, config.pk) :: s.maps.pipeline_config } }
    | none =>
      match s.create (fun db pk =>
          { db with pipeline_configs := db.pipeline_configs ++ [{
              pk := pk, project := project, pipeline_id := pipeline_id,
              enabled := config_data.enabled.getD false,
              config := config_data.config }] }) with
      | .error e => .error e
      | .ok (pk, s1) =>
        .ok { s1 with maps :=
          { s1.maps with pipeline_config :=
              (config_data.id, pk) :: s1.maps.pipeline_config } }
  else .ok s

def import_pipeline_configs (configs_data : List PipelineConfigData) (project : Pk) :
    ImportState → Except ImportError ImportState :=
  importLoop (import_pipeline_config1 project) configs_data

/-- Modelled from the spec: the determination recalculation performed inside
`Occurrence.save()` (the `ami.main.models` module is not part of the source
under review).  Spec section 4.5: recompute the occurrence's derived
determination, the best taxon and score, from its associated classification
rows; here the determination becomes the taxon and score of the
highest-scoring classification attached to the occurrence's detections, and
is left unchanged when none exists. -/
def recomputeDetermination (db : Db) (o : OccurrenceRow) : OccurrenceRow :=
  let cands := db.classifications.filter (fun c =>
    db.detections.any (fun d => some d.pk == c.detection_id && d.occurrence_id == some o.pk))
  match cands.foldl (fun best c =>
      match best with
      | none => some c
      | some b => if b.score.getD 0 < c.score.getD 0 then some c else some b) none with
  | none => o
  | some c => { o with determination_id := c.taxon_id, determination_score := c.score }

/-- One `occurrence.save()` of `Command.update_occurrences`. -/
def update_occurrence1 (pk : Pk) (s : ImportState) : Except ImportError ImportState :=
  s.write (fun db => { db with occurrences := db.occurrences.map (fun o =>
    if o.pk == pk then recomputeDetermination db o else o) })

/-- `Command.update_occurrences` (lines 635-642): re-save every Occurrence of
the destination project so the store recomputes its derived determination. -/
def update_occurrences (project : Pk) (s : ImportState) :
    Except ImportError ImportState :=
  importLoop update_occurrence1
    ((s.db.occurrences.filter (fun o => o.project == project)).map (fun o => o.pk)) s

/-- `Command.import_data` (lines 131-182): the full dependency-ordered write
sequence, including the skip-flag branches and the reconciliation pass. -/
def import_data (export_data : Document) (user : Pk) (options : Options)
    (s : ImportState) : Except ImportError ImportState :=
  Except.bind (import_project export_data.project user options s) (fun ps =>
  Except.bind (import_sites export_data.sites ps.1 ps.2) (fun s =>
  Except.bind (import_devices export_data.devices ps.1 s) (fun s =>
  Except.bind (import_storage_sources export_data.storage_sources ps.1 s) (fun s =>
  Except.bind (import_deployments export_data.deployments ps.1 s) (fun s =>
  Except.bind (import_events export_data.events ps.1 s) (fun s =>
  Except.bind (import_taxa export_data.taxa ps.1 s) (fun s =>
  Except.bind (import_taxa_lists export_data.taxa_lists ps.1 s) (fun s =>
  Except.bind (import_tags export_data.tags ps.1 s) (fun s =>
  Except.bind (if options.skip_images then .ok s
    else
      Except.bind (import_source_images export_data.source_images ps.1 s) (fun s =>
      import_collections export_data.collections ps.1 s)) (fun s =>
  Except.bind (if !options.skip_ml_data && !options.skip_images then
      Except.bind (import_algorithms export_data.algorithms ps.1 s) (fun s =>
      Except.bind (import_occurrences export_data.occurrences ps.1 s) (fun s =>
      Except.bind (import_detections export_data.detections ps.1 s) (fun s =>
      Except.bind (import_classifications export_data.classifications ps.1 s) (fun s =>
      Except.bind (import_identifications export_data.identifications ps.1 user s) (fun s =>
      update_occurrences ps.1 s)))))
    else .ok s) (fun s =>
  Except.bind (import_processing_services export_data.processing_services ps.1 s) (fun s =>
  Except.bind (import_pipelines export_data.pipelines ps.1 s) (fun s =>
  import_pipeline_configs export_data.pipeline_configs ps.1 s)))))))))))))

/-- One import invocation: fresh id maps (built in `Command.__init__`), the
given store, and the chosen failure injection. -/
def runImport (export_data : Document) (user : Pk) (options : Options)
    (writesLeft : Option Nat) (db : Db) : Except ImportError ImportState :=
  import_data export_data user options { db := db, maps := emptyMaps, writesLeft := writesLeft }

/-- `Command.handle` around the write sequence (line 125): the whole of
`import_data` runs inside `transaction.atomic()`, so an error anywhere in it
rolls the store back to its pre-import state and surfaces the error. -/
def runImportCommand (export_data : Document) (user : Pk) (options : Options)
    (writesLeft : Option Nat) (db : Db) : Db × Option ImportError :=
  match runImport export_data user options writesLeft db with
  | .ok s => (s.db, none)
  | .error e => (db, some e)

/-- The per-kind counts printed by `Command.print_summary` (lines 644-666). -/
structure Summary where
  sites : Nat
  devices : Nat
  storage_sources : Nat
  deployments : Nat
  events : Nat
  source_images : Nat
  collections : Nat
  taxa : Nat
  taxa_lists : Nat
  tags : Nat
  detections : Nat
  classifications : Nat
  occurrences : Nat
  identifications : Nat
  algorithms : Nat
  pipelines : Nat
  processing_services : Nat
  pipeline_configs : Nat
deriving DecidableEq

/-- `Command.print_summary`: each reported figure is the size of the
corresponding id map (`len(self.id_maps[kind])`). -/
def print_summary (s : ImportState) : Summary :=
  { sites := dictSize s.maps.site
    devices := dictSize s.maps.device
    storage_sources := dictSize s.maps.storage_source
    deployments := dictSize s.maps.deployment
    events := dictSize s.maps.event
    source_images := dictSize s.maps.source_image
    collections := dictSize s.maps.collection
    taxa := dictSize s.maps.taxon
    taxa_lists := dictSize s.maps.taxa_list
    tags := dictSize s.maps.tag
    detections := dictSize s.maps.detection
    classifications := dictSize s.maps.classification
    occurrences := dictSize s.maps.occurrence
    identifications := dictSize s.maps.identification
    algorithms := dictSize s.maps.algorithm
    pipelines := dictSize s.maps.pipeline
    processing_services := dictSize s.maps.processing_service
    pipeline_configs := dictSize s.maps.pipeline_config }

/-- All figures appearing in the printed summary. -/
def Summary.values (sm : Summary) : List Nat :=
  [sm.sites, sm.devices, sm.storage_sources, sm.deployments, sm.events,
   sm.source_images, sm.collections, sm.taxa, sm.taxa_lists, sm.tags,
   sm.detections, sm.classifications, sm.occurrences, sm.identifications,
   sm.algorithms, sm.pipelines, sm.processing_services, sm.pipeline_configs]

/-! ### Basic lemmas about the store primitives and the loop combinator -/

theorem write_ok {s : ImportState} {f : Db → Db} {s' : ImportState}
    (h : s.write f = .ok s') : s'.db = f s.db ∧ s'.maps = s.maps := by
  unfold ImportState.write at h
  rcases hw : s.writesLeft with _ | (_ | n) <;> simp [hw] at h <;>
    exact ⟨by rw [← h], by rw [← h]⟩

theorem create_ok {s : ImportState} {f : Db → Pk → Db} {pk : Pk} {s' : ImportState}
    (h : s.create f = .ok (pk, s')) :
    pk = s.db.nextPk ∧
    s'.db = { f s.db s.db.nextPk with nextPk := s.db.nextPk + 1 } ∧
    s'.maps = s.maps := by
  unfold ImportState.create at h
  split at h
  · simp at h
  · rename_i s1 heq
    obtain ⟨h1, h2⟩ : s.db.nextPk = pk ∧ s1 = s' := by
      simpa using h
    subst h1; subst h2
    obtain ⟨hdb, hmaps⟩ := write_ok heq
    refine ⟨rfl, ?_, hmaps⟩
    rw [hdb]

theorem importLoop_nil {α : Type} (body : α → ImportState → Except ImportError ImportState)
    (s : ImportState) : importLoop body [] s = .ok s := rfl

theorem importLoop_cons_ok {α : Type}
    {body : α → ImportState → Except ImportError ImportState}
    {x : α} {l : List α} {s s' : ImportState}
    (h : importLoop body (x :: l) s = .ok s') :
    ∃ s1, body x s = .ok s1 ∧ importLoop body l s1 = .ok s' := by
  unfold importLoop at h
  split at h
  · simp at h
  · rename_i s1 heq
    exact ⟨s1, heq, h⟩

/-- Invariant plus transitive-relation preservation along an import loop. -/
theorem importLoop_inv_rel {α : Type}
    {body : α → ImportState → Except ImportError ImportState}
    (I : ImportState → Prop) (R : ImportState → ImportState → Prop)
    (hrefl : ∀ s, R s s)
    (htrans : ∀ a b c, R a b → R b c → R a c) :
    ∀ (l : List α), (∀ x ∈ l, ∀ s s', I s → body x s = .ok s' → R s s' ∧ I s') →
      ∀ s s', I s → importLoop body l s = .ok s' → R s s' ∧ I s'
  | [], _, s, s', hI, h => by
    have : s = s' := by simpa [importLoop] using h
    exact this ▸ ⟨hrefl s, hI⟩
  | x :: l, hbody, s, s', hI, h => by
    obtain ⟨s1, hb, hrest⟩ := importLoop_cons_ok h
    obtain ⟨hR1, hI1⟩ := hbody x (by simp) s s1 hI hb
    obtain ⟨hR2, hI2⟩ :=
      importLoop_inv_rel I R hrefl htrans l
        (fun y hy => hbody y (by simp [hy])) s1 s' hI1 hrest
    exact ⟨htrans _ _ _ hR1 hR2, hI2⟩

/-- Special case: plain transitive-relation preservation. -/
theorem importLoop_rel {α : Type}
    {body : α → ImportState → Except ImportError ImportState}
    {R : ImportState → ImportState → Prop}
    (hrefl : ∀ s, R s s)
    (htrans : ∀ a b c, R a b → R b c → R a c)
    (l : List α) (hbody : ∀ x ∈ l, ∀ s s', body x s = .ok s' → R s s')
    {s s' : ImportState} (h : importLoop body l s = .ok s') : R s s' :=
  (importLoop_inv_rel (fun _ => True) R hrefl htrans l
    (fun x hx s s' _ hb => ⟨hbody x hx s s' hb, trivial⟩) s s' trivial h).1

/-- A property of single records that every loop body establishes for its own
record and preserves for all others holds of every record after the loop. -/
theorem importLoop_establishes {α : Type}
    {body : α → ImportState → Except ImportError ImportState}
    {R : α → ImportState → Prop}
    (hmono : ∀ x y s s', body x s = .ok s' → R y s → R y s')
    (hest : ∀ x s s', body x s = .ok s' → R x s') :
    ∀ (l : List α) (s s' : ImportState), importLoop body l s = .ok s' →
      ∀ x ∈ l, R x s'
  | [], s, s', h, x, hx => by simp at hx
  | y :: l, s, s', h, x, hx => by
    obtain ⟨s1, hb, hrest⟩ := importLoop_cons_ok h
    rcases List.mem_cons.mp hx with rfl | hx
    · have h1 : R x s1 := hest x s s1 hb
      exact (importLoop_inv_rel (R x) (fun _ _ => True)
        (fun _ => trivial) (fun _ _ _ _ _ => trivial) l
        (fun z hz t t' hI hb2 => ⟨trivial, hmono z x t t' hb2 hI⟩)
        s1 s' h1 hrest).2
    · exact importLoop_establishes hmono hest l s1 s' hrest x hx

/-- Complete description of a skip-or-append-one import loop: each record
either leaves the state unchanged or appends exactly one row to the table
`g` and pushes its external id onto the key list `keys`; the invariant `I`
(typically pk-freshness of the touched table) is threaded through. -/
theorem importLoop_spec {α ρ : Type}
    {body : α → ImportState → Except ImportError ImportState}
    (g : Db → List ρ) (keys : ImportState → List (DocId × Pk)) (idOf : α → DocId)
    (pred : α → ImportState → Bool) (Q : α → ρ → Prop) (I : ImportState → Prop)
    (hpred : ∀ x y s s', I s → body x s = .ok s' → pred y s' = pred y s)
    (hskip : ∀ x s s', I s → body x s = .ok s' → pred x s = false → s' = s)
    (hstep : ∀ x s s', I s → body x s = .ok s' → pred x s = true →
      ∃ row, g s'.db = g s.db ++ [row] ∧ Q x row ∧
        (keys s').map Prod.fst = idOf x :: (keys s).map Prod.fst)
    (hinv : ∀ x s s', I s → body x s = .ok s' → I s') :
    ∀ (l : List α) (s s' : ImportState), I s → importLoop body l s = .ok s' →
      (∃ rows, g s'.db = g s.db ++ rows ∧
        rows.length = l.countP (fun x => pred x s) ∧
        (∀ r ∈ rows, ∃ x ∈ l, Q x r) ∧
        (keys s').map Prod.fst =
          ((l.filter (fun x => pred x s)).map idOf).reverse ++ (keys s).map Prod.fst) ∧
      I s'
  | [], s, s', hI, h => by
    have : s = s' := by simpa [importLoop] using h
    subst this
    exact ⟨⟨[], by simp, by simp, by simp, by simp⟩, hI⟩
  | x :: l, s, s', hI, h => by
    obtain ⟨s1, hb, hrest⟩ := importLoop_cons_ok h
    have hI1 : I s1 := hinv x s s1 hI hb
    obtain ⟨⟨rows, hg, hlen, hQ, hkeys⟩, hI'⟩ :=
      importLoop_spec g keys idOf pred Q I hpred hskip hstep hinv l s1 s' hI1 hrest
    have hpredeq : ∀ y, pred y s1 = pred y s := fun y => hpred x y s s1 hI hb
    have hcnt : l.countP (fun y => pred y s1) = l.countP (fun y => pred y s) :=
      List.countP_congr (fun y _ => by rw [hpredeq y])
    have hfil : l.filter (fun y => pred y s1) = l.filter (fun y => pred y s) :=
      List.filter_congr (fun y _ => by rw [hpredeq y])
    refine ⟨?_, hI'⟩
    cases hp : pred x s with
    | false =>
      have hs1 : s1 = s := hskip x s s1 hI hb hp
      subst hs1
      refine ⟨rows, hg, ?_, fun r hr => ?_, ?_⟩
      · rw [hlen, List.countP_cons, hp]; simp
      · obtain ⟨y, hy, hQy⟩ := hQ r hr
        exact ⟨y, by simp [hy], hQy⟩
      · rw [hkeys, List.filter_cons, hp]
        simp
    | true =>
      obtain ⟨row, hg1, hQ1, hkeys1⟩ := hstep x s s1 hI hb hp
      refine ⟨row :: rows, ?_, ?_, fun r hr => ?_, ?_⟩
      · rw [hg, hg1, List.append_assoc]; rfl
      · rw [List.countP_cons, hp]
        simp [hlen, hcnt, Nat.add_comm]
      · rcases List.mem_cons.mp hr with rfl | hr
        · exact ⟨x, by simp, hQ1⟩
        · obtain ⟨y, hy, hQy⟩ := hQ r hr
          exact ⟨y, by simp [hy], hQy⟩
      · rw [hkeys, hfil, hkeys1, List.filter_cons, hp]
        simp

/-! ### Exact effect of each loop body -/

/-- The Site row created for one document record. -/
def siteRowOf (project : Pk) (x : SiteData) (pk : Pk) : SiteRow :=
  { pk := pk, project := project, name := x.name,
    description := x.description.getD "",
    latitude := x.latitude, longitude := x.longitude, elevation := x.elevation }

theorem import_site1_ok {project : Pk} {x : SiteData} {s s' : ImportState}
    (h : import_site1 project x s = .ok s') :
    s'.db = { s.db with
              nextPk := s.db.nextPk + 1,
              sites := s.db.sites ++ [siteRowOf project x s.db.nextPk] } ∧
    s'.maps = { s.maps with site := (x.id, s.db.nextPk) :: s.maps.site } := by
  unfold import_site1 at h
  split at h
  · simp at h
  · rename_i pk s1 heq
    obtain ⟨rfl, hdb, hmaps⟩ := create_ok heq
    obtain rfl :
        { s1 with maps := { s1.maps with site := (x.id, s.db.nextPk) :: s1.maps.site } } = s' := by
      simpa using h
    exact ⟨hdb, by rw [hmaps]⟩

/-- The Device row created for one document record. -/
def deviceRowOf (project : Pk) (x : DeviceData) (pk : Pk) : DeviceRow :=
  { pk := pk, project := project, name := x.name,
    description := x.description.getD "",
    hardware_version := x.hardware_version.getD "",
    software_version := x.software_version.getD "" }

theorem import_device1_ok {project : Pk} {x : DeviceData} {s s' : ImportState}
    (h : import_device1 project x s = .ok s') :
    s'.db = { s.db with
              nextPk := s.db.nextPk + 1,
              devices := s.db.devices ++ [deviceRowOf project x s.db.nextPk] } ∧
    s'.maps = { s.maps with device := (x.id, s.db.nextPk) :: s.maps.device } := by
  unfold import_device1 at h
  split at h
  · simp at h
  · rename_i pk s1 heq
    obtain ⟨rfl, hdb, hmaps⟩ := create_ok heq
    obtain rfl :
        { s1 with maps := { s1.maps with device := (x.id, s.db.nextPk) :: s1.maps.device } } = s' := by
      simpa using h
    exact ⟨hdb, by rw [hmaps]⟩

/-- The S3 storage source row created for one document record. -/
def storageSourceRowOf (project : Pk) (x : StorageSourceData) (pk : Pk) : StorageSourceRow :=
  { pk := pk, project := project, name := x.name,
    endpoint_url := x.endpoint_url.getD "", bucket := x.bucket.getD "",
    prefix_val := x.prefix_val.getD "", access_key := x.access_key.getD "",
    secret_key := x.secret_key.getD "", public_base_url := x.public_base_url.getD "" }

theorem import_storage_source1_ok {project : Pk} {x : StorageSourceData} {s s' : ImportState}
    (h : import_storage_source1 project x s = .ok s') :
    s'.db = { s.db with
              nextPk := s.db.nextPk + 1,
              storage_sources := s.db.storage_sources ++
                [storageSourceRowOf project x s.db.nextPk] } ∧
    s'.maps = { s.maps with storage_source := (x.id, s.db.nextPk) :: s.maps.storage_source } := by
  unfold import_storage_source1 at h
  split at h
  · simp at h
  · rename_i pk s1 heq
    obtain ⟨rfl, hdb, hmaps⟩ := create_ok heq
    obtain rfl :
        { s1 with maps :=
          { s1.maps with storage_source := (x.id, s.db.nextPk) :: s1.maps.storage_source } } = s' := by
      simpa using h
    exact ⟨hdb, by rw [hmaps]⟩

/-- The Deployment row created for one document record, given the three
already-resolved optional infrastructure references. -/
def deploymentRowOf (project : Pk) (x : DeploymentData)
    (research_site_id device_id data_source_id : Option Pk) (pk : Pk) : DeploymentRow :=
  { pk := pk, project := project, name := x.name,
    description := x.description.getD "",
    research_site_id := research_site_id, device_id := device_id,
    data_source_id := data_source_id,
    data_source_subdir := x.data_source_subdir.getD "",
    data_source_regex := x.data_source_regex.getD "",
    latitude := x.latitude, longitude := x.longitude }

theorem import_deployment1_ok {project : Pk} {x : DeploymentData} {s s' : ImportState}
    (h : import_deployment1 project x s = .ok s') :
    s'.db = { s.db with
              nextPk := s.db.nextPk + 1,
              deployments := s.db.deployments ++
                [deploymentRowOf project x
                  (lookupId s.maps.site x.research_site_id)
                  (lookupId s.maps.device x.device_id)
                  (lookupId s.maps.storage_source x.data_source_id) s.db.nextPk] } ∧
    s'.maps = { s.maps with deployment := (x.id, s.db.nextPk) :: s.maps.deployment } := by
  unfold import_deployment1 at h
  simp only at h
  split at h
  · simp at h
  · rename_i pk s1 heq
    obtain ⟨rfl, hdb, hmaps⟩ := create_ok heq
    obtain rfl :
        { s1 with maps :=
          { s1.maps with deployment := (x.id, s.db.nextPk) :: s1.maps.deployment } } = s' := by
      simpa using h
    exact ⟨hdb, by rw [hmaps]⟩

/-- The Event row created for one document record, given the resolved
mandatory deployment reference. -/
def eventRowOf (project : Pk) (x : EventData) (deployment_id : Option Pk) (pk : Pk) : EventRow :=
  { pk := pk, project := project, deployment_id := deployment_id,
    group_by := x.group_by, start := parseTimestamp x.start,
    end_ := parseTimestamp x.end_ }

theorem import_event1_ok {project : Pk} {x : EventData} {s s' : ImportState}
    (h : import_event1 project x s = .ok s') :
    (truthy (lookupId s.maps.deployment x.deployment_id) = false ∧ s' = s) ∨
    (truthy (lookupId s.maps.deployment x.deployment_id) = true ∧
      s'.db = { s.db with
                nextPk := s.db.nextPk + 1,
                events := s.db.events ++
                  [eventRowOf project x (lookupId s.maps.deployment x.deployment_id)
                    s.db.nextPk] } ∧
      s'.maps = { s.maps with event := (x.id, s.db.nextPk) :: s.maps.event }) := by
  unfold import_event1 at h
  simp only at h
  split at h
  · rename_i hp
    split at h
    · simp at h
    · rename_i pk s1 heq
      obtain ⟨rfl, hdb, hmaps⟩ := create_ok heq
      obtain rfl :
          { s1 with maps :=
            { s1.maps with event := (x.id, s.db.nextPk) :: s1.maps.event } } = s' := by
        simpa using h
      exact Or.inr ⟨hp, hdb, by rw [hmaps]⟩
  · rename_i hp
    obtain rfl : s = s' := by simpa using h
    exact Or.inl ⟨by simpa using hp, rfl⟩

/-- The SourceImage row created for one document record, given the resolved
references. -/
def sourceImageRowOf (project : Pk) (x : SourceImageData)
    (deployment_id event_id : Option Pk) (pk : Pk) : SourceImageRow :=
  { pk := pk, project := project, deployment_id := deployment_id,
    event_id := event_id, path := x.path,
    timestamp := parseTimestamp x.timestamp,
    width := x.width, height := x.height, size := x.size, checksum := x.checksum }

theorem import_source_image1_ok {project : Pk} {x : SourceImageData} {s s' : ImportState}
    (h : import_source_image1 project x s = .ok s') :
    (truthy (lookupId s.maps.deployment x.deployment_id) = false ∧ s' = s) ∨
    (truthy (lookupId s.maps.deployment x.deployment_id) = true ∧
      s'.db = { s.db with
                nextPk := s.db.nextPk + 1,
                source_images := s.db.source_images ++
                  [sourceImageRowOf project x
                    (lookupId s.maps.deployment x.deployment_id)
                    (lookupId s.maps.event x.event_id) s.db.nextPk] } ∧
      s'.maps = { s.maps with source_image := (x.id, s.db.nextPk) :: s.maps.source_image }) := by
  unfold import_source_image1 at h
  simp only at h
  split at h
  · rename_i hp
    split at h
    · simp at h
    · rename_i pk s1 heq
      obtain ⟨rfl, hdb, hmaps⟩ := create_ok heq
      obtain rfl :
          { s1 with maps :=
            { s1.maps with source_image := (x.id, s.db.nextPk) :: s1.maps.source_image } } = s' := by
        simpa using h
      exact Or.inr ⟨hp, hdb, by rw [hmaps]⟩
  · rename_i hp
    obtain rfl : s = s' := by simpa using h
    exact Or.inl ⟨by simpa using hp, rfl⟩

/-- The Occurrence row created for one document record. -/
def occurrenceRowOf (project : Pk) (x : OccurrenceData)
    (event_id deployment_id determination_id : Option Pk) (pk : Pk) : OccurrenceRow :=
  { pk := pk, project := project, event_id := event_id,
    deployment_id := deployment_id, determination_id := determination_id,
    determination_score := x.determination_score }

theorem import_occurrence1_ok {project : Pk} {x : OccurrenceData} {s s' : ImportState}
    (h : import_occurrence1 project x s = .ok s') :
    ((truthy (lookupId s.maps.event x.event_id) &&
        truthy (lookupId s.maps.deployment x.deployment_id)) = false ∧ s' = s) ∨
    ((truthy (lookupId s.maps.event x.event_id) &&
        truthy (lookupId s.maps.deployment x.deployment_id)) = true ∧
      s'.db = { s.db with
                nextPk := s.db.nextPk + 1,
                occurrences := s.db.occurrences ++
                  [occurrenceRowOf project x
                    (lookupId s.maps.event x.event_id)
                    (lookupId s.maps.deployment x.deployment_id)
                    (lookupId s.maps.taxon x.determination_id) s.db.nextPk] } ∧
      s'.maps = { s.maps with occurrence := (x.id, s.db.nextPk) :: s.maps.occurrence }) := by
  unfold import_occurrence1 at h
  simp only at h
  split at h
  · rename_i hp
    split at h
    · simp at h
    · rename_i pk s1 heq
      obtain ⟨rfl, hdb, hmaps⟩ := create_ok heq
      obtain rfl :
          { s1 with maps :=
            { s1.maps with occurrence := (x.id, s.db.nextPk) :: s1.maps.occurrence } } = s' := by
        simpa using h
      exact Or.inr ⟨hp, hdb, by rw [hmaps]⟩
  · rename_i hp
    obtain rfl : s = s' := by simpa using h
    exact Or.inl ⟨by simpa using hp, rfl⟩

/-- The Detection row created for one document record. -/
def detectionRowOf (x : DetectionData)
    (source_image_id occurrence_id algorithm_id : Option Pk) (pk : Pk) : DetectionRow :=
  { pk := pk, source_image_id := source_image_id, occurrence_id := occurrence_id,
    detection_algorithm_id := algorithm_id, bbox := x.bbox,
    path := x.path.getD "", timestamp := parseTimestamp x.timestamp,
    frame_num := x.frame_num, detection_score := x.detection_score }

theorem import_detection1_ok {x : DetectionData} {s s' : ImportState}
    (h : import_detection1 x s = .ok s') :
    (truthy (lookupId s.maps.source_image x.source_image_id) = false ∧ s' = s) ∨
    (truthy (lookupId s.maps.source_image x.source_image_id) = true ∧
      s'.db = { s.db with
                nextPk := s.db.nextPk + 1,
                detections := s.db.detections ++
                  [detectionRowOf x
                    (lookupId s.maps.source_image x.source_image_id)
                    (lookupId s.maps.occurrence x.occurrence_id)
                    (lookupId s.maps.algorithm x.detection_algorithm_id) s.db.nextPk] } ∧
      s'.maps = { s.maps with detection := (x.id, s.db.nextPk) :: s.maps.detection }) := by
  unfold import_detection1 at h
  simp only at h
  split at h
  · rename_i hp
    split at h
    · simp at h
    · rename_i pk s1 heq
      obtain ⟨rfl, hdb, hmaps⟩ := create_ok heq
      obtain rfl :
          { s1 with maps :=
            { s1.maps with detection := (x.id, s.db.nextPk) :: s1.maps.detection } } = s' := by
        simpa using h
      exact Or.inr ⟨hp, hdb, by rw [hmaps]⟩
  · rename_i hp
    obtain rfl : s = s' := by simpa using h
    exact Or.inl ⟨by simpa using hp, rfl⟩

/-- The Classification row created for one document record. -/
def classificationRowOf (x : ClassificationData)
    (detection_id taxon_id algorithm_id : Option Pk) (pk : Pk) : ClassificationRow :=
  { pk := pk, detection_id := detection_id, taxon_id := taxon_id,
    algorithm_id := algorithm_id, score := x.score,
    timestamp := parseTimestamp x.timestamp }

theorem import_classification1_ok {x : ClassificationData} {s s' : ImportState}
    (h : import_classification1 x s = .ok s') :
    (truthy (lookupId s.maps.detection x.detection_id) = false ∧ s' = s) ∨
    (truthy (lookupId s.maps.detection x.detection_id) = true ∧
      s'.db = { s.db with
                nextPk := s.db.nextPk + 1,
                classifications := s.db.classifications ++
                  [classificationRowOf x
                    (lookupId s.maps.detection x.detection_id)
                    (lookupId s.maps.taxon x.taxon_id)
                    (lookupId s.maps.algorithm x.algorithm_id) s.db.nextPk] } ∧
      s'.maps = { s.maps with classification := (x.id, s.db.nextPk) :: s.maps.classification }) := by
  unfold import_classification1 at h
  simp only at h
  split at h
  · rename_i hp
    split at h
    · simp at h
    · rename_i pk s1 heq
      obtain ⟨rfl, hdb, hmaps⟩ := create_ok heq
      obtain rfl :
          { s1 with maps :=
            { s1.maps with classification := (x.id, s.db.nextPk) :: s1.maps.classification } } = s' := by
        simpa using h
      exact Or.inr ⟨hp, hdb, by rw [hmaps]⟩
  · rename_i hp
    obtain rfl : s = s' := by simpa using h
    exact Or.inl ⟨by simpa using hp, rfl⟩

/-- The Identification row created for one document record: the user field is
always the importing user. -/
def identificationRowOf (user : Pk) (x : IdentificationData)
    (occurrence_id taxon_id agreed_id agreed_pred : Option Pk) (pk : Pk) : IdentificationRow :=
  { pk := pk, user := user, occurrence_id := occurrence_id, taxon_id := taxon_id,
    agreed_with_identification_id := agreed_id,
    agreed_with_prediction_id := agreed_pred,
    withdrawn := x.withdrawn.getD false, remarks := x.remarks.getD "",
    created_at := parseTimestamp x.created_at }

theorem import_identification1_ok {user : Pk} {x : IdentificationData} {s s' : ImportState}
    (h : import_identification1 user x s = .ok s') :
    (truthy (lookupId s.maps.occurrence x.occurrence_id) = false ∧ s' = s) ∨
    (truthy (lookupId s.maps.occurrence x.occurrence_id) = true ∧
      s'.db = { s.db with
                nextPk := s.db.nextPk + 1,
                identifications := s.db.identifications ++
                  [identificationRowOf user x
                    (lookupId s.maps.occurrence x.occurrence_id)
                    (lookupId s.maps.taxon x.taxon_id)
                    (lookupId s.maps.identification x.agreed_with_identification_id)
                    (lookupId s.maps.classification x.agreed_with_prediction_id) s.db.nextPk] } ∧
      s'.maps =
        { s.maps with identification := (x.id, s.db.nextPk) :: s.maps.identification }) := by
  unfold import_identification1 at h
  simp only at h
  split at h
  · rename_i hp
    split at h
    · simp at h
    · rename_i pk s1 heq
      obtain ⟨rfl, hdb, hmaps⟩ := create_ok heq
      obtain rfl :
          { s1 with maps :=
            { s1.maps with identification := (x.id, s.db.nextPk) :: s1.maps.identification } } = s' := by
        simpa using h
      exact Or.inr ⟨hp, hdb, by rw [hmaps]⟩
  · rename_i hp
    obtain rfl : s = s' := by simpa using h
    exact Or.inl ⟨by simpa using hp, rfl⟩

/-- Updating the rows matching a pk that only the last, appended row carries
rewrites just that row. -/
theorem updateRows_append {ρ : Type} (pkOf : ρ → Pk) (u : ρ → ρ) (pk : Pk)
    (l : List ρ) (r0 : ρ) (hl : ∀ r ∈ l, pkOf r ≠ pk) (hr0 : pkOf r0 = pk) :
    (l ++ [r0]).map (fun r => if pkOf r == pk then u r else r) = l ++ [u r0] := by
  rw [List.map_append]
  congr 1
  · conv_rhs => rw [← List.map_id l]
    exact List.map_congr_left (fun r hr => by simp [hl r hr])
  · simp [hr0]

/-- The TaxaList row present after one loop body: created, linked to the
destination project, holding the resolved taxa set (empty when the resolved
list is empty, since `.set` is then skipped). -/
def taxaListRowOf (project : Pk) (x : TaxaListData) (taxa : List Pk) (pk : Pk) : TaxaListRow :=
  { pk := pk, name := x.name, description := x.description.getD "",
    projects := [project], taxa := taxa }

theorem import_taxa_list1_ok {project : Pk} {x : TaxaListData} {s s' : ImportState}
    (hfresh : ∀ r ∈ s.db.taxa_lists, r.pk ≠ s.db.nextPk)
    (h : import_taxa_list1 project x s = .ok s') :
    s'.db = { s.db with
              nextPk := s.db.nextPk + 1,
              taxa_lists := s.db.taxa_lists ++
                [taxaListRowOf project x (resolveIds s.maps.taxon x.taxa_ids) s.db.nextPk] } ∧
    s'.maps = { s.maps with taxa_list := (x.id, s.db.nextPk) :: s.maps.taxa_list } := by
  unfold import_taxa_list1 at h
  split at h
  · simp at h
  · rename_i pk s1 heq
    obtain ⟨rfl, hdb1, hmaps1⟩ := create_ok heq
    simp only at h
    split at h
    · simp at h
    · rename_i s2 heq2
      obtain ⟨hdb2, hmaps2⟩ := write_ok heq2
      rw [hmaps2, hmaps1] at h
      have hdb2' : s2.db = { s.db with
          nextPk := s.db.nextPk + 1,
          taxa_lists := s.db.taxa_lists ++
            [{ pk := s.db.nextPk, name := x.name,
               description := x.description.getD "",
               projects := [project], taxa := [] }] } := by
        rw [hdb2, hdb1]
        simp only
        congr 1
        exact updateRows_append (fun r => r.pk)
          (fun tl => { tl with projects :=
            if tl.projects.contains project then tl.projects
            else tl.projects ++ [project] })
          s.db.nextPk s.db.taxa_lists
          { pk := s.db.nextPk, name := x.name,
            description := x.description.getD "",
            projects := [], taxa := [] } hfresh rfl
      split at h
      · simp at h
      · rename_i s3 heq3
        obtain rfl :
            { s3 with maps :=
              { s3.maps with taxa_list := (x.id, s.db.nextPk) :: s3.maps.taxa_list } } = s' := by
          simpa using h
        split at heq3
        · rename_i hni
          obtain rfl : s2 = s3 := by simpa using heq3
          have hids : resolveIds s.maps.taxon x.taxa_ids = [] :=
            List.isEmpty_iff.mp hni
          refine ⟨?_, by rw [hmaps2, hmaps1]⟩
          rw [hdb2']
          simp only [taxaListRowOf, hids]
        · rename_i hni
          obtain ⟨hdb3, hmaps3⟩ := write_ok heq3
          refine ⟨?_, by rw [hmaps3, hmaps2, hmaps1]⟩
          rw [hdb3, hdb2']
          simp only
          congr 1
          exact updateRows_append (fun r => r.pk)
            (fun tl => { tl with taxa := resolveIds s.maps.taxon x.taxa_ids })
            s.db.nextPk s.db.taxa_lists
            { pk := s.db.nextPk, name := x.name,
              description := x.description.getD "",
              projects := [project], taxa := [] } hfresh rfl

/-- The Tag row present after one loop body. -/
def tagRowOf (project : Pk) (x : TagData) (taxa : List Pk) (pk : Pk) : TagRow :=
  { pk := pk, project := project, name := x.name,
    description := x.description.getD "", color := x.color.getD "", taxa := taxa }

theorem import_tag1_ok {project : Pk} {x : TagData} {s s' : ImportState}
    (hfresh : ∀ r ∈ s.db.tags, r.pk ≠ s.db.nextPk)
    (h : import_tag1 project x s = .ok s') :
    s'.db = { s.db with
              nextPk := s.db.nextPk + 1,
              tags := s.db.tags ++
                [tagRowOf project x (resolveIds s.maps.taxon x.taxa_ids) s.db.nextPk] } ∧
    s'.maps = { s.maps with tag := (x.id, s.db.nextPk) :: s.maps.tag } := by
  unfold import_tag1 at h
  split at h
  · simp at h
  · rename_i pk s1 heq
    obtain ⟨rfl, hdb1, hmaps1⟩ := create_ok heq
    simp only at h
    rw [hmaps1] at h
    split at h
    · simp at h
    · rename_i s2 heq2
      obtain rfl :
          { s2 with maps := { s2.maps with tag := (x.id, s.db.nextPk) :: s2.maps.tag } } = s' := by
        simpa using h
      split at heq2
      · rename_i hni
        obtain rfl : s1 = s2 := by simpa using heq2
        have hids : resolveIds s.maps.taxon x.taxa_ids = [] :=
          List.isEmpty_iff.mp hni
        refine ⟨?_, by rw [hmaps1]⟩
        rw [hdb1]
        simp only [tagRowOf, hids]
      · rename_i hni
        obtain ⟨hdb2, hmaps2⟩ := write_ok heq2
        refine ⟨?_, by rw [hmaps2, hmaps1]⟩
        rw [hdb2, hdb1]
        simp only
        congr 1
        exact updateRows_append (fun r => r.pk)
          (fun tg => { tg with taxa := resolveIds s.maps.taxon x.taxa_ids })
          s.db.nextPk s.db.tags
          { pk := s.db.nextPk, project := project, name := x.name,
            description := x.description.getD "",
            color := x.color.getD "", taxa := [] } hfresh rfl

/-- The SourceImageCollection row present after one loop body. -/
def collectionRowOf (project : Pk) (x : CollectionData) (images : List Pk) (pk : Pk) :
    CollectionRow :=
  { pk := pk, project := project, name := x.name,
    description := x.description.getD "", method := x.method,
    kwargs := x.kwargs, images := images }

theorem import_collection1_ok {project : Pk} {x : CollectionData} {s s' : ImportState}
    (hfresh : ∀ r ∈ s.db.collections, r.pk ≠ s.db.nextPk)
    (h : import_collection1 project x s = .ok s') :
    s'.db = { s.db with
              nextPk := s.db.nextPk + 1,
              collections := s.db.collections ++
                [collectionRowOf project x
                  (resolveIds s.maps.source_image x.image_ids) s.db.nextPk] } ∧
    s'.maps = { s.maps with collection := (x.id, s.db.nextPk) :: s.maps.collection } := by
  unfold import_collection1 at h
  split at h
  · simp at h
  · rename_i pk s1 heq
    obtain ⟨rfl, hdb1, hmaps1⟩ := create_ok heq
    simp only at h
    rw [hmaps1] at h
    split at h
    · simp at h
    · rename_i s2 heq2
      obtain rfl :
          { s2 with maps :=
            { s2.maps with collection := (x.id, s.db.nextPk) :: s2.maps.collection } } = s' := by
        simpa using h
      split at heq2
      · rename_i hni
        obtain rfl : s1 = s2 := by simpa using heq2
        have hids : resolveIds s.maps.source_image x.image_ids = [] :=
          List.isEmpty_iff.mp hni
        refine ⟨?_, by rw [hmaps1]⟩
        rw [hdb1]
        simp only [collectionRowOf, hids]
      · rename_i hni
        obtain ⟨hdb2, hmaps2⟩ := write_ok heq2
        refine ⟨?_, by rw [hmaps2, hmaps1]⟩
        rw [hdb2, hdb1]
        simp only
        congr 1
        exact updateRows_append (fun r => r.pk)
          (fun c => { c with images := resolveIds s.maps.source_image x.image_ids })
          s.db.nextPk s.db.collections
          { pk := s.db.nextPk, project := project, name := x.name,
            description := x.description.getD "", method := x.method,
            kwargs := x.kwargs, images := [] } hfresh rfl

/-- The Pipeline row created for one document record (reused rows are not
rebuilt). -/
def pipelineRowOf (x : PipelineData) (algorithms : List Pk) (pk : Pk) : PipelineRow :=
  { pk := pk, name := x.name, slug := x.slug.getD "", version := x.version,
    default_config := x.default_config, algorithms := algorithms }

theorem import_pipeline1_ok {x : PipelineData} {s s' : ImportState}
    (hfresh : ∀ r ∈ s.db.pipelines, r.pk ≠ s.db.nextPk)
    (h : import_pipeline1 x s = .ok s') :
    (∃ p, s.db.pipelines.find? (fun r => r.name == x.name && r.version == x.version) = some p ∧
      s'.db = s.db ∧
      s'.maps = { s.maps with pipeline := (x.id, p.pk) :: s.maps.pipeline }) ∨
    (s.db.pipelines.find? (fun r => r.name == x.name && r.version == x.version) = none ∧
      s'.db = { s.db with
                nextPk := s.db.nextPk + 1,
                pipelines := s.db.pipelines ++
                  [pipelineRowOf x (resolveIds s.maps.algorithm x.algorithm_ids)
                    s.db.nextPk] } ∧
      s'.maps = { s.maps with pipeline := (x.id, s.db.nextPk) :: s.maps.pipeline }) := by
  unfold import_pipeline1 at h
  rcases hfind : s.db.pipelines.find? (fun r => r.name == x.name && r.version == x.version)
    with _ | p <;> rw [hfind] at h <;> simp only at h
  · right
    refine ⟨hfind, ?_⟩
    split at h
    · simp at h
    · rename_i pk s1 heq
      obtain ⟨rfl, hdb1, hmaps1⟩ := create_ok heq
      rw [hmaps1] at h
      split at h
      · simp at h
      · rename_i s2 heq2
        obtain rfl :
            { s2 with maps :=
              { s2.maps with pipeline := (x.id, s.db.nextPk) :: s2.maps.pipeline } } = s' := by
          simpa using h
        split at heq2
        · rename_i hni
          obtain rfl : s1 = s2 := by simpa using heq2
          have hids : resolveIds s.maps.algorithm x.algorithm_ids = [] :=
            List.isEmpty_iff.mp hni
          refine ⟨?_, by rw [hmaps1]⟩
          rw [hdb1]
          simp only [pipelineRowOf, hids]
        · rename_i hni
          obtain ⟨hdb2, hmaps2⟩ := write_ok heq2
          refine ⟨?_, by rw [hmaps2, hmaps1]⟩
          rw [hdb2, hdb1]
          simp only
          congr 1
          exact updateRows_append (fun r => r.pk)
            (fun p => { p with algorithms := resolveIds s.maps.algorithm x.algorithm_ids })
            s.db.nextPk s.db.pipelines
            { pk := s.db.nextPk, name := x.name, slug := x.slug.getD "",
              version := x.version, default_config := x.default_config,
              algorithms := [] } hfresh rfl
  · left
    refine ⟨p, hfind, ?_⟩
    obtain rfl :
        { s with maps := { s.maps with pipeline := (x.id, p.pk) :: s.maps.pipeline } } = s' := by
      simpa using h
    exact ⟨rfl, rfl⟩

/-- The ProcessingService row present after one loop body that created it
(the destination project is added right after creation). -/
def serviceRowOf (project : Pk) (x : ProcessingServiceData) (pk : Pk) : ProcessingServiceRow :=
  { pk := pk, name := x.name, endpoint_url := x.endpoint_url, projects := [project] }

theorem import_processing_service1_ok {project : Pk} {x : ProcessingServiceData}
    {s s' : ImportState}
    (hfresh : ∀ r ∈ s.db.processing_services, r.pk ≠ s.db.nextPk)
    (h : import_processing_service1 project x s = .ok s') :
    (∃ sv, s.db.processing_services.find? (fun r => r.endpoint_url == x.endpoint_url) = some sv ∧
      s'.db = { s.db with processing_services := s.db.processing_services.map (fun r =>
        if r.pk == sv.pk then
          { r with projects :=
              if r.projects.contains project then r.projects else r.projects ++ [project] }
        else r) } ∧
      s'.maps =
        { s.maps with processing_service := (x.id, sv.pk) :: s.maps.processing_service }) ∨
    (s.db.processing_services.find? (fun r => r.endpoint_url == x.endpoint_url) = none ∧
      s'.db = { s.db with
                nextPk := s.db.nextPk + 1,
                processing_services := s.db.processing_services ++
                  [serviceRowOf project x s.db.nextPk] } ∧
      s'.maps =
        { s.maps with processing_service := (x.id, s.db.nextPk) :: s.maps.processing_service }) := by
  unfold import_processing_service1 at h
  rcases hfind : s.db.processing_services.find? (fun r => r.endpoint_url == x.endpoint_url)
    with _ | sv <;> rw [hfind] at h <;> simp only at h
  · right
    refine ⟨hfind, ?_⟩
    split at h
    · simp at h
    · rename_i pk s1 heq
      obtain ⟨rfl, hdb1, hmaps1⟩ := create_ok heq
      split at h
      · simp at h
      · rename_i s2 heq2
        obtain ⟨hdb2, hmaps2⟩ := write_ok heq2
        obtain rfl :
            { s2 with maps :=
              { s2.maps with processing_service :=
                  (x.id, s.db.nextPk) :: s2.maps.processing_service } } = s' := by
          simpa using h
        refine ⟨?_, by rw [hmaps2, hmaps1]⟩
        rw [hdb2, hdb1]
        simp only
        congr 1
        exact updateRows_append (fun r => r.pk)
          (fun r => { r with projects :=
            if r.projects.contains project then r.projects else r.projects ++ [project] })
          s.db.nextPk s.db.processing_services
          { pk := s.db.nextPk, name := x.name, endpoint_url := x.endpoint_url,
            projects := [] } hfresh rfl
  · left
    refine ⟨sv, hfind, ?_⟩
    split at h
    · simp at h
    · rename_i s2 heq2
      obtain ⟨hdb2, hmaps2⟩ := write_ok heq2
      obtain rfl :
          { s2 with maps :=
            { s2.maps with processing_service :=
                (x.id, sv.pk) :: s2.maps.processing_service } } = s' := by
        simpa using h
      exact ⟨hdb2, by rw [hmaps2]⟩

/-- The ProjectPipelineConfig row created for one document record. -/
def configRowOf (project : Pk) (x : PipelineConfigData) (pipeline_id : Option Pk) (pk : Pk) :
    PipelineConfigRow :=
  { pk := pk, project := project, pipeline_id := pipeline_id,
    enabled := x.enabled.getD false, config := x.config }

theorem import_pipeline_config1_ok {project : Pk} {x : PipelineConfigData} {s s' : ImportState}
    (h : import_pipeline_config1 project x s = .ok s') :
    (truthy (lookupId s.maps.pipeline x.pipeline_id) = false ∧ s' = s) ∨
    (truthy (lookupId s.maps.pipeline x.pipeline_id) = true ∧
      ((∃ c, s.db.pipeline_configs.find? (fun c =>
          c.project == project &&
          c.pipeline_id == lookupId s.maps.pipeline x.pipeline_id) = some c ∧
        s'.db = s.db ∧
        s'.maps =
          { s.maps with pipeline_config := (x.id, c.pk) :: s.maps.pipeline_config }) ∨
      (s.db.pipeline_configs.find? (fun c =>
          c.project == project &&
          c.pipeline_id == lookupId s.maps.pipeline x.pipeline_id) = none ∧
        s'.db = { s.db with
                  nextPk := s.db.nextPk + 1,
                  pipeline_configs := s.db.pipeline_configs ++
                    [configRowOf project x (lookupId s.maps.pipeline x.pipeline_id)
                      s.db.nextPk] } ∧
        s'.maps =
          { s.maps with pipeline_config := (x.id, s.db.nextPk) :: s.maps.pipeline_config }))) := by
  unfold import_pipeline_config1 at h
  simp only at h
  by_cases hp : truthy (lookupId s.maps.pipeline x.pipeline_id)
  · rw [if_pos hp] at h
    refine Or.inr ⟨hp, ?_⟩
    rcases hfind : s.db.pipeline_configs.find? (fun c =>
        c.project == project && c.pipeline_id == lookupId s.maps.pipeline x.pipeline_id)
      with _ | c <;> rw [hfind] at h <;> simp only at h
    · right
      refine ⟨hfind, ?_⟩
      split at h
      · simp at h
      · rename_i pk s1 heq
        obtain ⟨rfl, hdb1, hmaps1⟩ := create_ok heq
        obtain rfl :
            { s1 with maps :=
              { s1.maps with pipeline_config :=
                  (x.id, s.db.nextPk) :: s1.maps.pipeline_config } } = s' := by
          simpa using h
        exact ⟨hdb1, by rw [hmaps1]⟩
    · left
      refine ⟨c, hfind, ?_⟩
      obtain rfl :
          { s with maps :=
            { s.maps with pipeline_config := (x.id, c.pk) :: s.maps.pipeline_config } } = s' := by
        simpa using h
      exact ⟨rfl, rfl⟩
  · rw [if_neg hp] at h
    obtain rfl : s = s' := by simpa using h
    exact Or.inl ⟨by simpa using hp, rfl⟩

/-- The AlgorithmCategoryMap row created when the payload is new. -/
def categoryMapRowOf (x : AlgorithmData) (pk : Pk) : CategoryMapRow :=
  { pk := pk, data := x.category_map_data.getD "", labels := x.category_map_labels }

theorem import_algorithm1_ok {x : AlgorithmData} {s s' : ImportState}
    (h : import_algorithm1 x s = .ok s') :
    (∃ a, s.db.algorithms.find? (fun r => r.key == x.key && r.version == x.version) = some a ∧
      s'.db = s.db ∧
      s'.maps = { s.maps with algorithm := (x.id, a.pk) :: s.maps.algorithm }) ∨
    (s.db.algorithms.find? (fun r => r.key == x.key && r.version == x.version) = none ∧
      ∃ (newCms : List CategoryMapRow) (row : AlgorithmRow) (n2 : Pk),
        s'.db = { s.db with
                  nextPk := n2,
                  category_maps := s.db.category_maps ++ newCms,
                  algorithms := s.db.algorithms ++ [row] } ∧
        row.key = x.key ∧ row.version = x.version ∧
        s.db.nextPk ≤ row.pk ∧ row.pk < n2 ∧
        s'.maps = { s.maps with algorithm := (x.id, row.pk) :: s.maps.algorithm }) := by
  unfold import_algorithm1 at h
  rcases hfind : s.db.algorithms.find? (fun r => r.key == x.key && r.version == x.version)
    with _ | a <;> rw [hfind] at h <;> simp only at h
  · right
    refine ⟨hfind, ?_⟩
    split at h
    · simp at h
    · rename_i cmres cm s1 heq1
      split at h
      · simp at h
      · rename_i pk s2 heq2
        obtain ⟨rfl, hdb2, hmaps2⟩ := create_ok heq2
        obtain rfl :
            { s2 with maps :=
              { s2.maps with algorithm := (x.id, s1.db.nextPk) :: s2.maps.algorithm } } = s' := by
          simpa using h
        -- analyse the category-map step
        split at heq1
        · -- payload truthy
          rename_i htr
          split at heq1
          · -- existing category map
            rename_i cmrow hcm
            obtain ⟨h1, h2⟩ : some cmrow.pk = cm ∧ s = s1 := by
              constructor <;> [skip; skip] <;> simp at heq1 <;> tauto
            subst h1; subst h2
            refine ⟨[],
              { pk := s.db.nextPk, name := x.name, key := x.key,
                version := x.version, task_type := x.task_type.getD "",
                category_map := some cmrow.pk },
              s.db.nextPk + 1, ?_, rfl, rfl, le_refl _, Nat.lt_succ_self _, ?_⟩
            · rw [hdb2]; simp
            · rw [hmaps2]
          · rename_i hcm
            split at heq1
            · simp at heq1
            · rename_i cpk s0 heqc
              obtain ⟨rfl, hdbc, hmapsc⟩ := create_ok heqc
              obtain ⟨h1, h2⟩ : some s.db.nextPk = cm ∧ s0 = s1 := by
                constructor <;> [skip; skip] <;> simp at heq1 <;> tauto
              subst h1; subst h2
              have hnext1 : s0.db.nextPk = s.db.nextPk + 1 := by rw [hdbc]
              refine ⟨[categoryMapRowOf x s.db.nextPk],
                { pk := s.db.nextPk + 1, name := x.name, key := x.key,
                  version := x.version, task_type := x.task_type.getD "",
                  category_map := some s.db.nextPk }, s.db.nextPk + 2,
                ?_, rfl, rfl, Nat.le_succ _, Nat.lt_succ_self _, ?_⟩
              · rw [hdb2, hnext1, hdbc]
                simp [categoryMapRowOf]
              · rw [hmaps2, hmapsc, hnext1]
        · -- payload falsy
          rename_i htr
          obtain ⟨h1, h2⟩ : none = cm ∧ s = s1 := by
            constructor <;> [skip; skip] <;> simp at heq1 <;> tauto
          subst h1; subst h2
          refine ⟨[],
            { pk := s.db.nextPk, name := x.name, key := x.key,
              version := x.version, task_type := x.task_type.getD "",
              category_map := none },
            s.db.nextPk + 1, ?_, rfl, rfl, le_refl _, Nat.lt_succ_self _, ?_⟩
          · rw [hdb2]; simp
          · rw [hmaps2]
  · left
    refine ⟨a, hfind, ?_⟩
    obtain rfl :
        { s with maps := { s.maps with algorithm := (x.id, a.pk) :: s.maps.algorithm } } = s' := by
      simpa using h
    exact ⟨rfl, rfl⟩

/-- The Project row present after `import_project` (created, then the user
added to the members). -/
def projectRowOf (name : String) (x : ProjectData) (user : Pk) (pk : Pk) : ProjectRow :=
  { pk := pk, name := name, description := x.description.getD "", owner := user,
    is_draft := x.is_draft.getD true, priority := x.priority.getD 0,
    image_base_url := x.image_base_url.getD "",
    default_event_method := x.default_event_method,
    default_event_time_threshold := x.default_event_time_threshold,
    summary := x.summary.getD "", details := x.details.getD "",
    default_filters := x.default_filters, members := [user] }

theorem import_project_ok {x : ProjectData} {user : Pk} {options : Options}
    {s : ImportState} {pk : Pk} {s' : ImportState}
    (hfresh : ∀ r ∈ s.db.projects, r.pk ≠ s.db.nextPk)
    (h : import_project x user options s = .ok (pk, s')) :
    pk = s.db.nextPk ∧
    s'.db = { s.db with
              nextPk := s.db.nextPk + 1,
              projects := s.db.projects ++
                [projectRowOf (resolveProjectName s.db (requestedName options x))
                  x user s.db.nextPk] } ∧
    s'.maps = { s.maps with project := (x.id, s.db.nextPk) :: s.maps.project } := by
  unfold import_project at h
  simp only at h
  split at h
  · simp at h
  · rename_i pk1 s1 heq
    obtain ⟨rfl, hdb1, hmaps1⟩ := create_ok heq
    split at h
    · simp at h
    · rename_i s2 heq2
      obtain ⟨hdb2, hmaps2⟩ := write_ok heq2
      obtain ⟨rfl, rfl⟩ : s.db.nextPk = pk ∧
          { s2 with maps :=
            { s2.maps with project := (x.id, s.db.nextPk) :: s2.maps.project } } = s' := by
        simpa using h
      refine ⟨rfl, ?_, by rw [hmaps2, hmaps1]⟩
      rw [hdb2, hdb1]
      simp only
      congr 1
      exact updateRows_append (fun r => r.pk)
        (fun p => { p with members :=
          if p.members.contains user then p.members else p.members ++ [user] })
        s.db.nextPk s.db.projects
        { pk := s.db.nextPk,
          name := resolveProjectName s.db (requestedName options x),
          description := x.description.getD "", owner := user,
          is_draft := x.is_draft.getD true, priority := x.priority.getD 0,
          image_base_url := x.image_base_url.getD "",
          default_event_method := x.default_event_method,
          default_event_time_threshold := x.default_event_time_threshold,
          summary := x.summary.getD "", details := x.details.getD "",
          default_filters := x.default_filters, members := [] } hfresh rfl

theorem update_occurrence1_ok {pk : Pk} {s s' : ImportState}
    (h : update_occurrence1 pk s = .ok s') :
    s'.db = { s.db with occurrences := s.db.occurrences.map (fun o =>
      if o.pk == pk then recomputeDetermination s.db o else o) } ∧
    s'.maps = s.maps := by
  unfold update_occurrence1 at h
  exact write_ok h

/-- The net effect of one second-pass taxa body on the taxa table. -/
def pass2Apply (taxonMap : List (DocId × Pk)) (x : TaxonData) (taxonPk : Pk)
    (taxa : List TaxonRow) : List TaxonRow :=
  let afterParent :=
    if truthy x.parent_id then
      if truthy (lookupId taxonMap x.parent_id) then
        taxa.map (fun t => if t.pk == taxonPk then
          { t with parent_id := lookupId taxonMap x.parent_id } else t)
      else taxa
    else taxa
  if truthy x.synonym_of_id then
    if truthy (lookupId taxonMap x.synonym_of_id) then
      afterParent.map (fun t => if t.pk == taxonPk then
        { t with synonym_of_id := lookupId taxonMap x.synonym_of_id } else t)
    else afterParent
  else afterParent

theorem import_taxa_pass2_body_ok {tb : List (DocId × Pk)} {x : TaxonData} {s s' : ImportState}
    (h : import_taxa_pass2_body tb x s = .ok s') :
    ∃ taxonPk, lookupId tb (some x.id) = some taxonPk ∧
      s'.db = { s.db with taxa := pass2Apply s.maps.taxon x taxonPk s.db.taxa } ∧
      s'.maps = s.maps := by
  unfold import_taxa_pass2_body at h
  rcases hlk : lookupId tb (some x.id) with _ | taxonPk <;> rw [hlk] at h <;> simp only at h
  · simp at h
  refine ⟨taxonPk, rfl, ?_⟩
  unfold pass2Apply
  simp only
  split at h
  · simp at h
  · rename_i s1 heq1
    -- first the parent stage
    by_cases hp : truthy x.parent_id
    · rw [if_pos hp] at heq1 ⊢
      by_cases hq : truthy (lookupId s.maps.taxon x.parent_id)
      · rw [if_pos hq] at heq1 ⊢
        obtain ⟨hdb1, hmaps1⟩ := write_ok heq1
        rw [hmaps1] at h
        by_cases hsy : truthy x.synonym_of_id
        · rw [if_pos hsy] at h ⊢
          by_cases hq2 : truthy (lookupId s.maps.taxon x.synonym_of_id)
          · rw [if_pos hq2] at h ⊢
            obtain ⟨hdb2, hmaps2⟩ := write_ok h
            refine ⟨?_, by rw [hmaps2, hmaps1]⟩
            rw [hdb2, hdb1]
          · rw [if_neg hq2] at h ⊢
            obtain rfl : s1 = s' := by simpa using h
            exact ⟨hdb1, hmaps1⟩
        · rw [if_neg hsy] at h ⊢
          obtain rfl : s1 = s' := by simpa using h
          exact ⟨hdb1, hmaps1⟩
      · rw [if_neg hq] at heq1 ⊢
        obtain rfl : s = s1 := by simpa using heq1
        by_cases hsy : truthy x.synonym_of_id
        · rw [if_pos hsy] at h ⊢
          by_cases hq2 : truthy (lookupId s.maps.taxon x.synonym_of_id)
          · rw [if_pos hq2] at h ⊢
            obtain ⟨hdb2, hmaps2⟩ := write_ok h
            exact ⟨hdb2, hmaps2⟩
          · rw [if_neg hq2] at h ⊢
            obtain rfl : s = s' := by simpa using h
            exact ⟨by simp, rfl⟩
        · rw [if_neg hsy] at h ⊢
          obtain rfl : s = s' := by simpa using h
          exact ⟨by simp, rfl⟩
    · rw [if_neg hp] at heq1 ⊢
      obtain rfl : s = s1 := by simpa using heq1
      by_cases hsy : truthy x.synonym_of_id
      · rw [if_pos hsy] at h ⊢
        by_cases hq2 : truthy (lookupId s.maps.taxon x.synonym_of_id)
        · rw [if_pos hq2] at h ⊢
          obtain ⟨hdb2, hmaps2⟩ := write_ok h
          exact ⟨hdb2, hmaps2⟩
        · rw [if_neg hq2] at h ⊢
          obtain rfl : s = s' := by simpa using h
          exact ⟨by simp, rfl⟩
      · rw [if_neg hsy] at h ⊢
        obtain rfl : s = s' := by simpa using h
        exact ⟨by simp, rfl⟩

/-- The Taxon row created by the first pass for a name that is new. -/
def taxonRowOf (project : Pk) (x : TaxonData) (pk : Pk) : TaxonRow :=
  { pk := pk, name := x.name, rank := x.rank.getD "",
    description := x.description.getD "", ordering := x.ordering.getD 0,
    parent_id := none, synonym_of_id := none, projects := [project] }

theorem import_taxa_pass1_body_ok {project : Pk} {x : TaxonData} {s s' : ImportState}
    {kv : DocId × Pk}
    (hfresh : ∀ r ∈ s.db.taxa, r.pk ≠ s.db.nextPk)
    (h : import_taxa_pass1_body project x s = .ok (kv, s')) :
    kv.1 = x.id ∧
    s'.maps = { s.maps with taxon := (x.id, kv.2) :: s.maps.taxon } ∧
    ((∃ t, s.db.taxa.find? (fun r => r.name == x.name) = some t ∧ kv.2 = t.pk ∧
        s'.db = { s.db with taxa := s.db.taxa.map (fun r =>
          if r.pk == t.pk then
            { r with projects :=
                if r.projects.contains project then r.projects
                else r.projects ++ [project] }
          else r) }) ∨
     (s.db.taxa.find? (fun r => r.name == x.name) = none ∧ kv.2 = s.db.nextPk ∧
        s'.db = { s.db with
                  nextPk := s.db.nextPk + 1,
                  taxa := s.db.taxa ++ [taxonRowOf project x s.db.nextPk] })) := by
  unfold import_taxa_pass1_body at h
  rcases hfind : s.db.taxa.find? (fun r => r.name == x.name) with _ | t <;>
    rw [hfind] at h <;> simp only at h
  · -- created
    split at h
    · simp at h
    · rename_i pk s1 heq
      obtain ⟨rfl, hdb1, hmaps1⟩ := create_ok heq
      split at h
      · simp at h
      · rename_i s3 heq3
        obtain ⟨hdb3, hmaps3⟩ := write_ok heq3
        obtain ⟨rfl, rfl⟩ : (x.id, s.db.nextPk) = kv ∧ s3 = s' := by simpa using h
        refine ⟨rfl, by rw [hmaps3, hmaps1], Or.inr ⟨hfind, rfl, ?_⟩⟩
        rw [hdb3, hdb1]
        simp only
        congr 1
        exact updateRows_append (fun r => r.pk)
          (fun r => { r with projects :=
            if r.projects.contains project then r.projects
            else r.projects ++ [project] })
          s.db.nextPk s.db.taxa
          { pk := s.db.nextPk, name := x.name, rank := x.rank.getD "",
            description := x.description.getD "", ordering := x.ordering.getD 0,
            parent_id := none, synonym_of_id := none, projects := [] } hfresh rfl
  · -- found
    split at h
    · simp at h
    · rename_i s2 heq2
      obtain ⟨hdb2, hmaps2⟩ := write_ok heq2
      obtain ⟨rfl, rfl⟩ : (x.id, t.pk) = kv ∧ s2 = s' := by simpa using h
      exact ⟨rfl, hmaps2, Or.inl ⟨t, hfind, rfl, hdb2⟩⟩

/-- Relation and invariant preservation along the first taxa pass. -/
theorem import_taxa_pass1_inv_rel {project : Pk} (I : ImportState → Prop)
    (R : ImportState → ImportState → Prop)
    (hrefl : ∀ s, R s s) (htrans : ∀ a b c, R a b → R b c → R a c)
    (hbody : ∀ x s s' kv, I s → import_taxa_pass1_body project x s = .ok (kv, s') →
      R s s' ∧ I s') :
    ∀ (l : List TaxonData) (acc : List (DocId × Pk)) {acc' : List (DocId × Pk)}
      {s s' : ImportState}, I s →
      import_taxa_pass1 project l acc s = .ok (acc', s') → R s s' ∧ I s'
  | [], acc, acc', s, s', hI, h => by
    obtain ⟨h1, rfl⟩ : acc = acc' ∧ s = s' := by simpa [import_taxa_pass1] using h
    exact ⟨hrefl s, hI⟩
  | x :: l, acc, acc', s, s', hI, h => by
    unfold import_taxa_pass1 at h
    split at h
    · simp at h
    · rename_i kv s2 heq
      obtain ⟨hR1, hI1⟩ := hbody x s s2 kv hI heq
      obtain ⟨hR2, hI2⟩ := import_taxa_pass1_inv_rel I R hrefl htrans hbody l (kv :: acc) hI1 h
      exact ⟨htrans _ _ _ hR1 hR2, hI2⟩

/-! ### Frame lemmas: each step touches one table and one id map -/

/-- The import-step frame: the store equals the old store with only `nextPk`
and the step's own table replaced, the id maps equal the old maps with only
the step's own dict replaced, and the pk counter never decreases. -/
def FrameRel {τ μ : Type} (upd : Db → Pk → τ → Db) (updM : IdMaps → μ → IdMaps)
    (a b : ImportState) : Prop :=
  ∃ nP tV mV, b.db = upd a.db nP tV ∧ b.maps = updM a.maps mV ∧ a.db.nextPk ≤ nP

theorem FrameRel.rfl {τ μ : Type} (upd : Db → Pk → τ → Db) (updM : IdMaps → μ → IdMaps)
    (gT : Db → τ) (gM : IdMaps → μ)
    (h1 : ∀ db, upd db db.nextPk (gT db) = db)
    (m1 : ∀ m, updM m (gM m) = m) (s : ImportState) : FrameRel upd updM s s :=
  ⟨s.db.nextPk, gT s.db, gM s.maps, (h1 s.db).symm, (m1 s.maps).symm, le_refl _⟩

theorem FrameRel.trans {τ μ : Type} (upd : Db → Pk → τ → Db) (updM : IdMaps → μ → IdMaps)
    (h2 : ∀ db n1 t1 n2 t2, upd (upd db n1 t1) n2 t2 = upd db n2 t2)
    (h3 : ∀ db n t, (upd db n t).nextPk = n)
    (m2 : ∀ m a b, updM (updM m a) b = updM m b)
    (a b c : ImportState) (hab : FrameRel upd updM a b) (hbc : FrameRel upd updM b c) :
    FrameRel upd updM a c := by
  obtain ⟨n1, t1, mv1, hdb1, hm1, hle1⟩ := hab
  obtain ⟨n2, t2, mv2, hdb2, hm2, hle2⟩ := hbc
  refine ⟨n2, t2, mv2, ?_, ?_, ?_⟩
  · rw [hdb2, hdb1, h2]
  · rw [hm2, hm1, m2]
  · rw [hdb1, h3] at hle2
    exact le_trans hle1 hle2

theorem forall_pk_of_map_eq {ρ : Type} {f : ρ → Nat} {l1 l2 : List ρ}
    (h : l1.map f = l2.map f) (P : Nat → Prop) (hP : ∀ r ∈ l2, P (f r)) :
    ∀ r ∈ l1, P (f r) := by
  intro r hr
  have hm : f r ∈ l1.map f := List.mem_map_of_mem f hr
  rw [h] at hm
  obtain ⟨r0, h0, he⟩ := List.mem_map.mp hm
  rw [← he]
  exact hP r0 h0

def updT_sites : Db → Pk → List SiteRow → Db :=
  fun db n t => { db with nextPk := n, sites := t }
def updM_sites : IdMaps → List (DocId × Pk) → IdMaps :=
  fun m v => { m with site := v }

theorem import_sites_frame {sites_data : List SiteData} {project : Pk} {s s' : ImportState}
    (h : import_sites sites_data project s = .ok s') :
    FrameRel updT_sites updM_sites s s' := by
  unfold import_sites at h
  refine importLoop_rel
    (FrameRel.rfl updT_sites updM_sites (fun db => db.sites) (fun m => m.site)
      (fun _ => rfl) (fun _ => rfl))
    (FrameRel.trans updT_sites updM_sites (fun _ _ _ _ _ => rfl) (fun _ _ _ => rfl)
      (fun _ _ _ => rfl))
    sites_data ?_ h
  intro x hx t t' hb
  obtain ⟨hdb, hmaps⟩ := import_site1_ok hb
  exact ⟨_, _, _, hdb, hmaps, Nat.le_succ _⟩

def updT_devices : Db → Pk → List DeviceRow → Db :=
  fun db n t => { db with nextPk := n, devices := t }
def updM_devices : IdMaps → List (DocId × Pk) → IdMaps :=
  fun m v => { m with device := v }

theorem import_devices_frame {devices_data : List DeviceData} {project : Pk} {s s' : ImportState}
    (h : import_devices devices_data project s = .ok s') :
    FrameRel updT_devices updM_devices s s' := by
  unfold import_devices at h
  refine importLoop_rel
    (FrameRel.rfl updT_devices updM_devices (fun db => db.devices) (fun m => m.device)
      (fun _ => rfl) (fun _ => rfl))
    (FrameRel.trans updT_devices updM_devices (fun _ _ _ _ _ => rfl) (fun _ _ _ => rfl)
      (fun _ _ _ => rfl))
    devices_data ?_ h
  intro x hx t t' hb
  obtain ⟨hdb, hmaps⟩ := import_device1_ok hb
  exact ⟨_, _, _, hdb, hmaps, Nat.le_succ _⟩

def updT_storage_sources : Db → Pk → List StorageSourceRow → Db :=
  fun db n t => { db with nextPk := n, storage_sources := t }
def updM_storage_sources : IdMaps → List (DocId × Pk) → IdMaps :=
  fun m v => { m with storage_source := v }

theorem import_storage_sources_frame {sources_data : List StorageSourceData} {project : Pk}
    {s s' : ImportState}
    (h : import_storage_sources sources_data project s = .ok s') :
    FrameRel updT_storage_sources updM_storage_sources s s' := by
  unfold import_storage_sources at h
  refine importLoop_rel
    (FrameRel.rfl updT_storage_sources updM_storage_sources
      (fun db => db.storage_sources) (fun m => m.storage_source)
      (fun _ => rfl) (fun _ => rfl))
    (FrameRel.trans updT_storage_sources updM_storage_sources
      (fun _ _ _ _ _ => rfl) (fun _ _ _ => rfl) (fun _ _ _ => rfl))
    sources_data ?_ h
  intro x hx t t' hb
  obtain ⟨hdb, hmaps⟩ := import_storage_source1_ok hb
  exact ⟨_, _, _, hdb, hmaps, Nat.le_succ _⟩

def updT_deployments : Db → Pk → List DeploymentRow → Db :=
  fun db n t => { db with nextPk := n, deployments := t }
def updM_deployments : IdMaps → List (DocId × Pk) → IdMaps :=
  fun m v => { m with deployment := v }

theorem import_deployments_frame {deployments_data : List DeploymentData} {project : Pk}
    {s s' : ImportState}
    (h : import_deployments deployments_data project s = .ok s') :
    FrameRel updT_deployments updM_deployments s s' := by
  unfold import_deployments at h
  refine importLoop_rel
    (FrameRel.rfl updT_deployments updM_deployments
      (fun db => db.deployments) (fun m => m.deployment) (fun _ => rfl) (fun _ => rfl))
    (FrameRel.trans updT_deployments updM_deployments
      (fun _ _ _ _ _ => rfl) (fun _ _ _ => rfl) (fun _ _ _ => rfl))
    deployments_data ?_ h
  intro x hx t t' hb
  obtain ⟨hdb, hmaps⟩ := import_deployment1_ok hb
  exact ⟨_, _, _, hdb, hmaps, Nat.le_succ _⟩

def updT_events : Db → Pk → List EventRow → Db :=
  fun db n t => { db with nextPk := n, events := t }
def updM_events : IdMaps → List (DocId × Pk) → IdMaps :=
  fun m v => { m with event := v }

theorem import_events_frame {events_data : List EventData} {project : Pk} {s s' : ImportState}
    (h : import_events events_data project s = .ok s') :
    FrameRel updT_events updM_events s s' := by
  unfold import_events at h
  refine importLoop_rel
    (FrameRel.rfl updT_events updM_events (fun db => db.events) (fun m => m.event)
      (fun _ => rfl) (fun _ => rfl))
    (FrameRel.trans updT_events updM_events (fun _ _ _ _ _ => rfl) (fun _ _ _ => rfl)
      (fun _ _ _ => rfl))
    events_data ?_ h
  intro x hx t t' hb
  rcases import_event1_ok hb with ⟨hp, rfl⟩ | ⟨hp, hdb, hmaps⟩
  · exact FrameRel.rfl updT_events updM_events (fun db => db.events) (fun m => m.event)
      (fun _ => rfl) (fun _ => rfl) _
  · exact ⟨_, _, _, hdb, hmaps, Nat.le_succ _⟩

def updT_source_images : Db → Pk → List SourceImageRow → Db :=
  fun db n t => { db with nextPk := n, source_images := t }
def updM_source_images : IdMaps → List (DocId × Pk) → IdMaps :=
  fun m v => { m with source_image := v }

theorem import_source_images_frame {images_data : List SourceImageData} {project : Pk}
    {s s' : ImportState}
    (h : import_source_images images_data project s = .ok s') :
    FrameRel updT_source_images updM_source_images s s' := by
  unfold import_source_images at h
  refine importLoop_rel
    (FrameRel.rfl updT_source_images updM_source_images
      (fun db => db.source_images) (fun m => m.source_image) (fun _ => rfl) (fun _ => rfl))
    (FrameRel.trans updT_source_images updM_source_images
      (fun _ _ _ _ _ => rfl) (fun _ _ _ => rfl) (fun _ _ _ => rfl))
    images_data ?_ h
  intro x hx t t' hb
  rcases import_source_image1_ok hb with ⟨hp, rfl⟩ | ⟨hp, hdb, hmaps⟩
  · exact FrameRel.rfl updT_source_images updM_source_images
      (fun db => db.source_images) (fun m => m.source_image) (fun _ => rfl) (fun _ => rfl) _
  · exact ⟨_, _, _, hdb, hmaps, Nat.le_succ _⟩

def updT_occurrences : Db → Pk → List OccurrenceRow → Db :=
  fun db n t => { db with nextPk := n, occurrences := t }
def updM_occurrences : IdMaps → List (DocId × Pk) → IdMaps :=
  fun m v => { m with occurrence := v }

theorem import_occurrences_frame {occurrences_data : List OccurrenceData} {project : Pk}
    {s s' : ImportState}
    (h : import_occurrences occurrences_data project s = .ok s') :
    FrameRel updT_occurrences updM_occurrences s s' := by
  unfold import_occurrences at h
  refine importLoop_rel
    (FrameRel.rfl updT_occurrences updM_occurrences
      (fun db => db.occurrences) (fun m => m.occurrence) (fun _ => rfl) (fun _ => rfl))
    (FrameRel.trans updT_occurrences updM_occurrences
      (fun _ _ _ _ _ => rfl) (fun _ _ _ => rfl) (fun _ _ _ => rfl))
    occurrences_data ?_ h
  intro x hx t t' hb
  rcases import_occurrence1_ok hb with ⟨hp, rfl⟩ | ⟨hp, hdb, hmaps⟩
  · exact FrameRel.rfl updT_occurrences updM_occurrences
      (fun db => db.occurrences) (fun m => m.occurrence) (fun _ => rfl) (fun _ => rfl) _
  · exact ⟨_, _, _, hdb, hmaps, Nat.le_succ _⟩

theorem update_occurrences_frame {project : Pk} {s s' : ImportState}
    (h : update_occurrences project s = .ok s') :
    FrameRel updT_occurrences updM_occurrences s s' := by
  unfold update_occurrences at h
  refine importLoop_rel
    (FrameRel.rfl updT_occurrences updM_occurrences
      (fun db => db.occurrences) (fun m => m.occurrence) (fun _ => rfl) (fun _ => rfl))
    (FrameRel.trans updT_occurrences updM_occurrences
      (fun _ _ _ _ _ => rfl) (fun _ _ _ => rfl) (fun _ _ _ => rfl))
    _ ?_ h
  intro x hx t t' hb
  obtain ⟨hdb, hmaps⟩ := update_occurrence1_ok hb
  exact ⟨t.db.nextPk, _, t.maps.occurrence, hdb, hmaps.trans rfl, le_refl _⟩

def updT_detections : Db → Pk → List DetectionRow → Db :=
  fun db n t => { db with nextPk := n, detections := t }
def updM_detections : IdMaps → List (DocId × Pk) → IdMaps :=
  fun m v => { m with detection := v }

theorem import_detections_frame {detections_data : List DetectionData} {project : Pk}
    {s s' : ImportState}
    (h : import_detections detections_data project s = .ok s') :
    FrameRel updT_detections updM_detections s s' := by
  unfold import_detections at h
  refine importLoop_rel
    (FrameRel.rfl updT_detections updM_detections
      (fun db => db.detections) (fun m => m.detection) (fun _ => rfl) (fun _ => rfl))
    (FrameRel.trans updT_detections updM_detections
      (fun _ _ _ _ _ => rfl) (fun _ _ _ => rfl) (fun _ _ _ => rfl))
    detections_data ?_ h
  intro x hx t t' hb
  rcases import_detection1_ok hb with ⟨hp, rfl⟩ | ⟨hp, hdb, hmaps⟩
  · exact FrameRel.rfl updT_detections updM_detections
      (fun db => db.detections) (fun m => m.detection) (fun _ => rfl) (fun _ => rfl) _
  · exact ⟨_, _, _, hdb, hmaps, Nat.le_succ _⟩

def updT_classifications : Db → Pk → List ClassificationRow → Db :=
  fun db n t => { db with nextPk := n, classifications := t }
def updM_classifications : IdMaps → List (DocId × Pk) → IdMaps :=
  fun m v => { m with classification := v }

theorem import_classifications_frame {classifications_data : List ClassificationData}
    {project : Pk} {s s' : ImportState}
    (h : import_classifications classifications_data project s = .ok s') :
    FrameRel updT_classifications updM_classifications s s' := by
  unfold import_classifications at h
  refine importLoop_rel
    (FrameRel.rfl updT_classifications updM_classifications
      (fun db => db.classifications) (fun m => m.classification) (fun _ => rfl) (fun _ => rfl))
    (FrameRel.trans updT_classifications updM_classifications
      (fun _ _ _ _ _ => rfl) (fun _ _ _ => rfl) (fun _ _ _ => rfl))
    classifications_data ?_ h
  intro x hx t t' hb
  rcases import_classification1_ok hb with ⟨hp, rfl⟩ | ⟨hp, hdb, hmaps⟩
  · exact FrameRel.rfl updT_classifications updM_classifications
      (fun db => db.classifications) (fun m => m.classification) (fun _ => rfl) (fun _ => rfl) _
  · exact ⟨_, _, _, hdb, hmaps, Nat.le_succ _⟩

def updT_identifications : Db → Pk → List IdentificationRow → Db :=
  fun db n t => { db with nextPk := n, identifications := t }
def updM_identifications : IdMaps → List (DocId × Pk) → IdMaps :=
  fun m v => { m with identification := v }

theorem import_identifications_frame {identifications_data : List IdentificationData}
    {project user : Pk} {s s' : ImportState}
    (h : import_identifications identifications_data project user s = .ok s') :
    FrameRel updT_identifications updM_identifications s s' := by
  unfold import_identifications at h
  refine importLoop_rel
    (FrameRel.rfl updT_identifications updM_identifications
      (fun db => db.identifications) (fun m => m.identification) (fun _ => rfl) (fun _ => rfl))
    (FrameRel.trans updT_identifications updM_identifications
      (fun _ _ _ _ _ => rfl) (fun _ _ _ => rfl) (fun _ _ _ => rfl))
    identifications_data ?_ h
  intro x hx t t' hb
  rcases import_identification1_ok hb with ⟨hp, rfl⟩ | ⟨hp, hdb, hmaps⟩
  · exact FrameRel.rfl updT_identifications updM_identifications
      (fun db => db.identifications) (fun m => m.identification) (fun _ => rfl) (fun _ => rfl) _
  · exact ⟨_, _, _, hdb, hmaps, Nat.le_succ _⟩

def updT_pipeline_configs : Db → Pk → List PipelineConfigRow → Db :=
  fun db n t => { db with nextPk := n, pipeline_configs := t }
def updM_pipeline_configs : IdMaps → List (DocId × Pk) → IdMaps :=
  fun m v => { m with pipeline_config := v }

theorem import_pipeline_configs_frame {configs_data : List PipelineConfigData} {project : Pk}
    {s s' : ImportState}
    (h : import_pipeline_configs configs_data project s = .ok s') :
    FrameRel updT_pipeline_configs updM_pipeline_configs s s' := by
  unfold import_pipeline_configs at h
  refine importLoop_rel
    (FrameRel.rfl updT_pipeline_configs updM_pipeline_configs
      (fun db => db.pipeline_configs) (fun m => m.pipeline_config) (fun _ => rfl) (fun _ => rfl))
    (FrameRel.trans updT_pipeline_configs updM_pipeline_configs
      (fun _ _ _ _ _ => rfl) (fun _ _ _ => rfl) (fun _ _ _ => rfl))
    configs_data ?_ h
  intro x hx t t' hb
  rcases import_pipeline_config1_ok hb with ⟨hp, rfl⟩ | ⟨hp, hcase⟩
  · exact FrameRel.rfl updT_pipeline_configs updM_pipeline_configs
      (fun db => db.pipeline_configs) (fun m => m.pipeline_config) (fun _ => rfl) (fun _ => rfl) _
  · rcases hcase with ⟨c, hfind, hdb, hmaps⟩ | ⟨hfind, hdb, hmaps⟩
    · exact ⟨t.db.nextPk, t.db.pipeline_configs, _, hdb.trans rfl, hmaps, le_refl _⟩
    · exact ⟨_, _, _, hdb, hmaps, Nat.le_succ _⟩

def updT_taxa_lists : Db → Pk → List TaxaListRow → Db :=
  fun db n t => { db with nextPk := n, taxa_lists := t }
def updM_taxa_lists : IdMaps → List (DocId × Pk) → IdMaps :=
  fun m v => { m with taxa_list := v }

theorem import_taxa_lists_frame {taxa_lists_data : List TaxaListData} {project : Pk}
    {s s' : ImportState}
    (hI : ∀ r ∈ s.db.taxa_lists, r.pk < s.db.nextPk)
    (h : import_taxa_lists taxa_lists_data project s = .ok s') :
    FrameRel updT_taxa_lists updM_taxa_lists s s' ∧
    ∀ r ∈ s'.db.taxa_lists, r.pk < s'.db.nextPk := by
  unfold import_taxa_lists at h
  refine importLoop_inv_rel
    (fun t => ∀ r ∈ t.db.taxa_lists, r.pk < t.db.nextPk)
    (FrameRel updT_taxa_lists updM_taxa_lists)
    (FrameRel.rfl updT_taxa_lists updM_taxa_lists
      (fun db => db.taxa_lists) (fun m => m.taxa_list) (fun _ => rfl) (fun _ => rfl))
    (FrameRel.trans updT_taxa_lists updM_taxa_lists
      (fun _ _ _ _ _ => rfl) (fun _ _ _ => rfl) (fun _ _ _ => rfl))
    taxa_lists_data ?_ s s' hI h
  intro x hx t t' hIt hb
  obtain ⟨hdb, hmaps⟩ := import_taxa_list1_ok (fun r hr => Nat.ne_of_lt (hIt r hr)) hb
  refine ⟨⟨_, _, _, hdb, hmaps, Nat.le_succ _⟩, ?_⟩
  intro r hr
  rw [hdb] at hr ⊢
  simp only [List.mem_append, List.mem_singleton] at hr
  rcases hr with hr | rfl
  · exact Nat.lt_succ_of_lt (hIt r hr)
  · exact Nat.lt_succ_self _

def updT_tags : Db → Pk → List TagRow → Db :=
  fun db n t => { db with nextPk := n, tags := t }
def updM_tags : IdMaps → List (DocId × Pk) → IdMaps :=
  fun m v => { m with tag := v }

theorem import_tags_frame {tags_data : List TagData} {project : Pk} {s s' : ImportState}
    (hI : ∀ r ∈ s.db.tags, r.pk < s.db.nextPk)
    (h : import_tags tags_data project s = .ok s') :
    FrameRel updT_tags updM_tags s s' ∧
    ∀ r ∈ s'.db.tags, r.pk < s'.db.nextPk := by
  unfold import_tags at h
  refine importLoop_inv_rel
    (fun t => ∀ r ∈ t.db.tags, r.pk < t.db.nextPk)
    (FrameRel updT_tags updM_tags)
    (FrameRel.rfl updT_tags updM_tags (fun db => db.tags) (fun m => m.tag)
      (fun _ => rfl) (fun _ => rfl))
    (FrameRel.trans updT_tags updM_tags (fun _ _ _ _ _ => rfl) (fun _ _ _ => rfl)
      (fun _ _ _ => rfl))
    tags_data ?_ s s' hI h
  intro x hx t t' hIt hb
  obtain ⟨hdb, hmaps⟩ := import_tag1_ok (fun r hr => Nat.ne_of_lt (hIt r hr)) hb
  refine ⟨⟨_, _, _, hdb, hmaps, Nat.le_succ _⟩, ?_⟩
  intro r hr
  rw [hdb] at hr ⊢
  simp only [List.mem_append, List.mem_singleton] at hr
  rcases hr with hr | rfl
  · exact Nat.lt_succ_of_lt (hIt r hr)
  · exact Nat.lt_succ_self _

def updT_collections : Db → Pk → List CollectionRow → Db :=
  fun db n t => { db with nextPk := n, collections := t }
def updM_collections : IdMaps → List (DocId × Pk) → IdMaps :=
  fun m v => { m with collection := v }

theorem import_collections_frame {collections_data : List CollectionData} {project : Pk}
    {s s' : ImportState}
    (hI : ∀ r ∈ s.db.collections, r.pk < s.db.nextPk)
    (h : import_collections collections_data project s = .ok s') :
    FrameRel updT_collections updM_collections s s' ∧
    ∀ r ∈ s'.db.collections, r.pk < s'.db.nextPk := by
  unfold import_collections at h
  refine importLoop_inv_rel
    (fun t => ∀ r ∈ t.db.collections, r.pk < t.db.nextPk)
    (FrameRel updT_collections updM_collections)
    (FrameRel.rfl updT_collections updM_collections
      (fun db => db.collections) (fun m => m.collection) (fun _ => rfl) (fun _ => rfl))
    (FrameRel.trans updT_collections updM_collections
      (fun _ _ _ _ _ => rfl) (fun _ _ _ => rfl) (fun _ _ _ => rfl))
    collections_data ?_ s s' hI h
  intro x hx t t' hIt hb
  obtain ⟨hdb, hmaps⟩ := import_collection1_ok (fun r hr => Nat.ne_of_lt (hIt r hr)) hb
  refine ⟨⟨_, _, _, hdb, hmaps, Nat.le_succ _⟩, ?_⟩
  intro r hr
  rw [hdb] at hr ⊢
  simp only [List.mem_append, List.mem_singleton] at hr
  rcases hr with hr | rfl
  · exact Nat.lt_succ_of_lt (hIt r hr)
  · exact Nat.lt_succ_self _

def updT_processing_services : Db → Pk → List ProcessingServiceRow → Db :=
  fun db n t => { db with nextPk := n, processing_services := t }
def updM_processing_services : IdMaps → List (DocId × Pk) → IdMaps :=
  fun m v => { m with processing_service := v }

theorem import_processing_services_frame {services_data : List ProcessingServiceData}
    {project : Pk} {s s' : ImportState}
    (hI : ∀ r ∈ s.db.processing_services, r.pk < s.db.nextPk)
    (h : import_processing_services services_data project s = .ok s') :
    FrameRel updT_processing_services updM_processing_services s s' ∧
    ∀ r ∈ s'.db.processing_services, r.pk < s'.db.nextPk := by
  unfold import_processing_services at h
  refine importLoop_inv_rel
    (fun t => ∀ r ∈ t.db.processing_services, r.pk < t.db.nextPk)
    (FrameRel updT_processing_services updM_processing_services)
    (FrameRel.rfl updT_processing_services updM_processing_services
      (fun db => db.processing_services) (fun m => m.processing_service)
      (fun _ => rfl) (fun _ => rfl))
    (FrameRel.trans updT_processing_services updM_processing_services
      (fun _ _ _ _ _ => rfl) (fun _ _ _ => rfl) (fun _ _ _ => rfl))
    services_data ?_ s s' hI h
  intro x hx t t' hIt hb
  rcases import_processing_service1_ok (fun r hr => Nat.ne_of_lt (hIt r hr)) hb with
    ⟨sv, hfind, hdb, hmaps⟩ | ⟨hfind, hdb, hmaps⟩
  · refine ⟨⟨t.db.nextPk, _, _, hdb, hmaps, le_refl _⟩, ?_⟩
    intro r hr
    rw [hdb] at hr ⊢
    simp only [List.mem_map] at hr
    obtain ⟨r0, h0, rfl⟩ := hr
    split
    · exact hIt r0 h0
    · exact hIt r0 h0
  · refine ⟨⟨_, _, _, hdb, hmaps, Nat.le_succ _⟩, ?_⟩
    intro r hr
    rw [hdb] at hr ⊢
    simp only [List.mem_append, List.mem_singleton] at hr
    rcases hr with hr | rfl
    · exact Nat.lt_succ_of_lt (hIt r hr)
    · exact Nat.lt_succ_self _

def updT_pipelines : Db → Pk → List PipelineRow → Db :=
  fun db n t => { db with nextPk := n, pipelines := t }
def updM_pipelines : IdMaps → List (DocId × Pk) → IdMaps :=
  fun m v => { m with pipeline := v }

theorem import_pipelines_frame {pipelines_data : List PipelineData} {project : Pk}
    {s s' : ImportState}
    (hI : ∀ r ∈ s.db.pipelines, r.pk < s.db.nextPk)
    (h : import_pipelines pipelines_data project s = .ok s') :
    FrameRel updT_pipelines updM_pipelines s s' ∧
    ∀ r ∈ s'.db.pipelines, r.pk < s'.db.nextPk := by
  unfold import_pipelines at h
  refine importLoop_inv_rel
    (fun t => ∀ r ∈ t.db.pipelines, r.pk < t.db.nextPk)
    (FrameRel updT_pipelines updM_pipelines)
    (FrameRel.rfl updT_pipelines updM_pipelines
      (fun db => db.pipelines) (fun m => m.pipeline) (fun _ => rfl) (fun _ => rfl))
    (FrameRel.trans updT_pipelines updM_pipelines
      (fun _ _ _ _ _ => rfl) (fun _ _ _ => rfl) (fun _ _ _ => rfl))
    pipelines_data ?_ s s' hI h
  intro x hx t t' hIt hb
  rcases import_pipeline1_ok (fun r hr => Nat.ne_of_lt (hIt r hr)) hb with
    ⟨p, hfind, hdb, hmaps⟩ | ⟨hfind, hdb, hmaps⟩
  · refine ⟨⟨t.db.nextPk, t.db.pipelines, _, hdb.trans rfl, hmaps, le_refl _⟩, ?_⟩
    intro r hr
    rw [hdb] at hr ⊢
    exact hIt r hr
  · refine ⟨⟨_, _, _, hdb, hmaps, Nat.le_succ _⟩, ?_⟩
    intro r hr
    rw [hdb] at hr ⊢
    simp only [List.mem_append, List.mem_singleton] at hr
    rcases hr with hr | rfl
    · exact Nat.lt_succ_of_lt (hIt r hr)
    · exact Nat.lt_succ_self _

def updT_algorithms : Db → Pk → List CategoryMapRow × List AlgorithmRow → Db :=
  fun db n t => { db with nextPk := n, category_maps := t.1, algorithms := t.2 }
def updM_algorithms : IdMaps → List (DocId × Pk) → IdMaps :=
  fun m v => { m with algorithm := v }

theorem import_algorithms_frame {algorithms_data : List AlgorithmData} {project : Pk}
    {s s' : ImportState}
    (h : import_algorithms algorithms_data project s = .ok s') :
    FrameRel updT_algorithms updM_algorithms s s' := by
  unfold import_algorithms at h
  refine importLoop_rel
    (FrameRel.rfl updT_algorithms updM_algorithms
      (fun db => (db.category_maps, db.algorithms)) (fun m => m.algorithm)
      (fun _ => rfl) (fun _ => rfl))
    (FrameRel.trans updT_algorithms updM_algorithms
      (fun _ _ _ _ _ => rfl) (fun _ _ _ => rfl) (fun _ _ _ => rfl))
    algorithms_data ?_ h
  intro x hx t t' hb
  rcases import_algorithm1_ok hb with ⟨a, hfind, hdb, hmaps⟩ |
    ⟨hfind, newCms, row, n2, hdb, hk, hv, hle1, hlt, hmaps⟩
  · exact ⟨t.db.nextPk, (t.db.category_maps, t.db.algorithms), _, hdb.trans rfl, hmaps, le_refl _⟩
  · exact ⟨n2, (t.db.category_maps ++ newCms, t.db.algorithms ++ [row]), _, hdb, hmaps,
      le_trans hle1 (Nat.le_of_lt hlt)⟩

def updT_taxa : Db → Pk → List TaxonRow → Db :=
  fun db n t => { db with nextPk := n, taxa := t }
def updM_taxa : IdMaps → List (DocId × Pk) → IdMaps :=
  fun m v => { m with taxon := v }

/-- Record fields other than the parent and synonym edges are untouched by
the second taxa pass. -/
theorem pass2Apply_map_field {σ : Type} (f : TaxonRow → σ)
    (hf1 : ∀ r v, f { r with parent_id := v } = f r)
    (hf2 : ∀ r v, f { r with synonym_of_id := v } = f r)
    (m : List (DocId × Pk)) (x : TaxonData) (pkT : Pk) (l : List TaxonRow) :
    (pass2Apply m x pkT l).map f = l.map f := by
  have step1 : ∀ (v : Option Pk) (l' : List TaxonRow),
      (l'.map (fun t => if t.pk == pkT then { t with parent_id := v } else t)).map f
        = l'.map f := by
    intro v l'
    rw [List.map_map]
    refine List.map_congr_left (fun r _ => ?_)
    simp only [Function.comp]
    split
    · exact hf1 r v
    · rfl
  have step2 : ∀ (v : Option Pk) (l' : List TaxonRow),
      (l'.map (fun t => if t.pk == pkT then { t with synonym_of_id := v } else t)).map f
        = l'.map f := by
    intro v l'
    rw [List.map_map]
    refine List.map_congr_left (fun r _ => ?_)
    simp only [Function.comp]
    split
    · exact hf2 r v
    · rfl
  unfold pass2Apply
  simp only
  split_ifs <;> (try rw [step2]) <;> (try rw [step1]) <;> rfl

theorem import_taxa_frame {taxa_data : List TaxonData} {project : Pk} {s s' : ImportState}
    (hI : ∀ r ∈ s.db.taxa, r.pk < s.db.nextPk)
    (h : import_taxa taxa_data project s = .ok s') :
    FrameRel updT_taxa updM_taxa s s' ∧
    ∀ r ∈ s'.db.taxa, r.pk < s'.db.nextPk := by
  unfold import_taxa at h
  split at h
  · simp at h
  · rename_i res tb s1 heq
    have pass1 := import_taxa_pass1_inv_rel
      (fun t => ∀ r ∈ t.db.taxa, r.pk < t.db.nextPk)
      (FrameRel updT_taxa updM_taxa)
      (FrameRel.rfl updT_taxa updM_taxa (fun db => db.taxa) (fun m => m.taxon)
        (fun _ => rfl) (fun _ => rfl))
      (FrameRel.trans updT_taxa updM_taxa (fun _ _ _ _ _ => rfl) (fun _ _ _ => rfl)
        (fun _ _ _ => rfl))
      ?_ taxa_data [] hI heq
    · obtain ⟨hR1, hI1⟩ := pass1
      have pass2 := importLoop_inv_rel
        (fun t => ∀ r ∈ t.db.taxa, r.pk < t.db.nextPk)
        (FrameRel updT_taxa updM_taxa)
        (FrameRel.rfl updT_taxa updM_taxa (fun db => db.taxa) (fun m => m.taxon)
          (fun _ => rfl) (fun _ => rfl))
        (FrameRel.trans updT_taxa updM_taxa (fun _ _ _ _ _ => rfl) (fun _ _ _ => rfl)
          (fun _ _ _ => rfl))
        taxa_data ?_ s1 s' hI1 h
      · obtain ⟨hR2, hI2⟩ := pass2
        exact ⟨FrameRel.trans updT_taxa updM_taxa (fun _ _ _ _ _ => rfl) (fun _ _ _ => rfl)
          (fun _ _ _ => rfl) _ _ _ hR1 hR2, hI2⟩
      · intro x hx t t' hIt hb
        obtain ⟨taxonPk, hlk, hdb, hmaps⟩ := import_taxa_pass2_body_ok hb
        refine ⟨⟨t.db.nextPk, _, t.maps.taxon, hdb, hmaps.trans rfl, le_refl _⟩, ?_⟩
        intro r hr
        rw [hdb] at hr ⊢
        have hmapeq := pass2Apply_map_field (fun r => r.pk) (fun _ _ => rfl) (fun _ _ => rfl)
          t.maps.taxon x taxonPk t.db.taxa
        exact forall_pk_of_map_eq hmapeq (fun n => n < t.db.nextPk) hIt r hr
    · intro x t t' kv hIt hb
      obtain ⟨hid, hmaps, hcase⟩ :=
        import_taxa_pass1_body_ok (fun r hr => Nat.ne_of_lt (hIt r hr)) hb
      rcases hcase with ⟨trow, hfind, hpk, hdb⟩ | ⟨hfind, hpk, hdb⟩
      · refine ⟨⟨t.db.nextPk, _, _, hdb, hmaps, le_refl _⟩, ?_⟩
        intro r hr
        rw [hdb] at hr ⊢
        simp only [List.mem_map] at hr
        obtain ⟨r0, h0, rfl⟩ := hr
        split
        · exact hIt r0 h0
        · exact hIt r0 h0
      · refine ⟨⟨_, _, _, hdb, hmaps, Nat.le_succ _⟩, ?_⟩
        intro r hr
        rw [hdb] at hr ⊢
        simp only [List.mem_append, List.mem_singleton] at hr
        rcases hr with hr | rfl
        · exact Nat.lt_succ_of_lt (hIt r hr)
        · exact Nat.lt_succ_self _

def updT_projects : Db → Pk → List ProjectRow → Db :=
  fun db n t => { db with nextPk := n, projects := t }
def updM_projects : IdMaps → List (DocId × Pk) → IdMaps :=
  fun m v => { m with project := v }

theorem import_project_frame {x : ProjectData} {user : Pk} {options : Options}
    {s : ImportState} {pk : Pk} {s' : ImportState}
    (hI : ∀ r ∈ s.db.projects, r.pk < s.db.nextPk)
    (h : import_project x user options s = .ok (pk, s')) :
    FrameRel updT_projects updM_projects s s' ∧
    ∀ r ∈ s'.db.projects, r.pk < s'.db.nextPk := by
  obtain ⟨hpk, hdb, hmaps⟩ := import_project_ok (fun r hr => Nat.ne_of_lt (hI r hr)) h
  refine ⟨⟨_, _, _, hdb, hmaps, Nat.le_succ _⟩, ?_⟩
  intro r hr
  rw [hdb] at hr ⊢
  simp only [List.mem_append, List.mem_singleton] at hr
  rcases hr with hr | rfl
  · exact Nat.lt_succ_of_lt (hI r hr)
  · exact Nat.lt_succ_self _

/-! ### Decomposing a full run into its stages -/

theorem bind_ok {α β : Type} {x : Except ImportError α} {f : α → Except ImportError β} {b : β}
    (h : Except.bind x f = .ok b) : ∃ a, x = .ok a ∧ f a = .ok b := by
  cases x with
  | error e => simp [Except.bind] at h
  | ok a => exact ⟨a, rfl, h⟩

/-- A successful run decomposes into its dependency-ordered stages; the two
skip-flag blocks are kept as their verbatim conditionals. -/
theorem runImport_stages {d : Document} {user : Pk} {options : Options} {w : Option Nat}
    {db : Db} {s' : ImportState}
    (h : runImport d user options w db = .ok s') :
    ∃ (pk : Pk) (s1 s2 s3 s4 s5 s6 s7 s8 s9 s10 s11 s12 s13 : ImportState),
      import_project d.project user options ⟨db, emptyMaps, w⟩ = .ok (pk, s1) ∧
      import_sites d.sites pk s1 = .ok s2 ∧
      import_devices d.devices pk s2 = .ok s3 ∧
      import_storage_sources d.storage_sources pk s3 = .ok s4 ∧
      import_deployments d.deployments pk s4 = .ok s5 ∧
      import_events d.events pk s5 = .ok s6 ∧
      import_taxa d.taxa pk s6 = .ok s7 ∧
      import_taxa_lists d.taxa_lists pk s7 = .ok s8 ∧
      import_tags d.tags pk s8 = .ok s9 ∧
      (if options.skip_images then Except.ok s9
        else Except.bind (import_source_images d.source_images pk s9)
          (fun s => import_collections d.collections pk s)) = .ok s10 ∧
      (if !options.skip_ml_data && !options.skip_images then
          Except.bind (import_algorithms d.algorithms pk s10) (fun s =>
          Except.bind (import_occurrences d.occurrences pk s) (fun s =>
          Except.bind (import_detections d.detections pk s) (fun s =>
          Except.bind (import_classifications d.classifications pk s) (fun s =>
          Except.bind (import_identifications d.identifications pk user s) (fun s =>
          update_occurrences pk s)))))
        else Except.ok s10) = .ok s11 ∧
      import_processing_services d.processing_services pk s11 = .ok s12 ∧
      import_pipelines d.pipelines pk s12 = .ok s13 ∧
      import_pipeline_configs d.pipeline_configs pk s13 = .ok s' := by
  unfold runImport import_data at h
  obtain ⟨⟨pk, s1⟩, hp, h⟩ := bind_ok h
  obtain ⟨s2, h2, h⟩ := bind_ok h
  obtain ⟨s3, h3, h⟩ := bind_ok h
  obtain ⟨s4, h4, h⟩ := bind_ok h
  obtain ⟨s5, h5, h⟩ := bind_ok h
  obtain ⟨s6, h6, h⟩ := bind_ok h
  obtain ⟨s7, h7, h⟩ := bind_ok h
  obtain ⟨s8, h8, h⟩ := bind_ok h
  obtain ⟨s9, h9, h⟩ := bind_ok h
  obtain ⟨s10, h10, h⟩ := bind_ok h
  obtain ⟨s11, h11, h⟩ := bind_ok h
  obtain ⟨s12, h12, h⟩ := bind_ok h
  obtain ⟨s13, h13, h⟩ := bind_ok h
  exact ⟨pk, s1, s2, s3, s4, s5, s6, s7, s8, s9, s10, s11, s12, s13,
    hp, h2, h3, h4, h5, h6, h7, h8, h9, h10, h11, h12, h13, h⟩

theorem FrameRel_proj {τ μ γ : Type} {upd : Db → Pk → τ → Db} {updM : IdMaps → μ → IdMaps}
    {a b : ImportState} (h : FrameRel upd updM a b)
    (g : Db → γ) (hg : ∀ db n t, g (upd db n t) = g db) : g b.db = g a.db := by
  obtain ⟨n, t, m, hdb, _, _⟩ := h
  rw [hdb, hg]

theorem FrameRel_mproj {τ μ γ : Type} {upd : Db → Pk → τ → Db} {updM : IdMaps → μ → IdMaps}
    {a b : ImportState} (h : FrameRel upd updM a b)
    (g : IdMaps → γ) (hg : ∀ m v, g (updM m v) = g m) : g b.maps = g a.maps := by
  obtain ⟨n, t, m, _, hm, _⟩ := h
  rw [hm, hg]

theorem FrameRel_le {τ μ : Type} {upd : Db → Pk → τ → Db} {updM : IdMaps → μ → IdMaps}
    {a b : ImportState} (h3 : ∀ db n t, (upd db n t).nextPk = n)
    (h : FrameRel upd updM a b) : a.db.nextPk ≤ b.db.nextPk := by
  obtain ⟨n, t, m, hdb, _, hle⟩ := h
  rw [hdb, h3]
  exact hle

theorem FrameRel.weaken {τ1 μ1 τ2 μ2 : Type} {upd1 : Db → Pk → τ1 → Db}
    {updM1 : IdMaps → μ1 → IdMaps} {upd2 : Db → Pk → τ2 → Db}
    {updM2 : IdMaps → μ2 → IdMaps} {a b : ImportState}
    (hT : ∀ db n t, ∃ t2, upd1 db n t = upd2 db n t2)
    (hM : ∀ m v, ∃ v2, updM1 m v = updM2 m v2)
    (h : FrameRel upd1 updM1 a b) : FrameRel upd2 updM2 a b := by
  obtain ⟨n, t, m, hdb, hm, hle⟩ := h
  obtain ⟨t2, ht2⟩ := hT a.db n t
  obtain ⟨v2, hv2⟩ := hM a.maps m
  exact ⟨n, t2, v2, by rw [hdb, ht2], by rw [hm, hv2], hle⟩

theorem pks_mono {ρ : Type} {a b : ImportState} (f : ImportState → List ρ) (pkOf : ρ → Nat)
    (heq : f b = f a) (hle : a.db.nextPk ≤ b.db.nextPk)
    (hI : ∀ r ∈ f a, pkOf r < a.db.nextPk) : ∀ r ∈ f b, pkOf r < b.db.nextPk :=
  fun r hr => lt_of_lt_of_le (hI r (heq ▸ hr)) hle

def updT_images : Db → Pk → List SourceImageRow × List CollectionRow → Db :=
  fun db n t => { db with nextPk := n, source_images := t.1, collections := t.2 }
def updM_images : IdMaps → List (DocId × Pk) × List (DocId × Pk) → IdMaps :=
  fun m v => { m with source_image := v.1, collection := v.2 }

/-- The skip-images block only touches the SourceImage and Collection tables
and their id maps. -/
theorem images_block_frame {d : Document} {options : Options} {pk : Pk} {s9 s10 : ImportState}
    (hIc : ∀ r ∈ s9.db.collections, r.pk < s9.db.nextPk)
    (h : (if options.skip_images then Except.ok s9
        else Except.bind (import_source_images d.source_images pk s9)
          (fun s => import_collections d.collections pk s)) = .ok s10) :
    FrameRel updT_images updM_images s9 s10 := by
  split at h
  · obtain rfl : s9 = s10 := by simpa using h
    exact FrameRel.rfl updT_images updM_images
      (fun db => (db.source_images, db.collections))
      (fun m => (m.source_image, m.collection)) (fun _ => rfl) (fun _ => rfl) _
  · obtain ⟨sa, ha, hb⟩ := bind_ok h
    have f1 := import_source_images_frame ha
    have hIc2 : ∀ r ∈ sa.db.collections, r.pk < sa.db.nextPk :=
      pks_mono (fun s => s.db.collections) (fun r => r.pk)
        (FrameRel_proj f1 (fun db => db.collections) (fun _ _ _ => rfl))
        (FrameRel_le (fun _ _ _ => rfl) f1) hIc
    have f2 := (import_collections_frame hIc2 hb).1
    exact FrameRel.trans updT_images updM_images (fun _ _ _ _ _ => rfl) (fun _ _ _ => rfl)
      (fun _ _ _ => rfl) _ _ _
      (FrameRel.weaken (fun db n t => ⟨(t, db.collections), rfl⟩)
        (fun m v => ⟨(v, m.collection), rfl⟩) f1)
      (FrameRel.weaken (fun db n t => ⟨(db.source_images, t), rfl⟩)
        (fun m v => ⟨(m.source_image, v), rfl⟩) f2)

def updT_ml : Db → Pk →
    List CategoryMapRow × List AlgorithmRow × List OccurrenceRow × List DetectionRow ×
      List ClassificationRow × List IdentificationRow → Db :=
  fun db n t => { db with
                  nextPk := n,
                  category_maps := t.1,
                  algorithms := t.2.1,
                  occurrences := t.2.2.1,
                  detections := t.2.2.2.1,
                  classifications := t.2.2.2.2.1,
                  identifications := t.2.2.2.2.2 }
def updM_ml : IdMaps →
    List (DocId × Pk) × List (DocId × Pk) × List (DocId × Pk) × List (DocId × Pk) ×
      List (DocId × Pk) → IdMaps :=
  fun m v => { m with
               algorithm := v.1,
               occurrence := v.2.1,
               detection := v.2.2.1,
               classification := v.2.2.2.1,
               identification := v.2.2.2.2 }

/-- The skip-ML block only touches the ML tables and their id maps. -/
theorem ml_block_frame {d : Document} {options : Options} {pk user : Pk} {s10 s11 : ImportState}
    (h : (if !options.skip_ml_data && !options.skip_images then
          Except.bind (import_algorithms d.algorithms pk s10) (fun s =>
          Except.bind (import_occurrences d.occurrences pk s) (fun s =>
          Except.bind (import_detections d.detections pk s) (fun s =>
          Except.bind (import_classifications d.classifications pk s) (fun s =>
          Except.bind (import_identifications d.identifications pk user s) (fun s =>
          update_occurrences pk s)))))
        else Except.ok s10) = .ok s11) :
    FrameRel updT_ml updM_ml s10 s11 := by
  have mltrans := FrameRel.trans updT_ml updM_ml (fun _ _ _ _ _ => rfl) (fun _ _ _ => rfl)
    (fun _ _ _ => rfl)
  split at h
  · obtain ⟨sa, ha, h⟩ := bind_ok h
    obtain ⟨sb, hb, h⟩ := bind_ok h
    obtain ⟨sc, hc, h⟩ := bind_ok h
    obtain ⟨se, he, h⟩ := bind_ok h
    obtain ⟨sf, hf, h⟩ := bind_ok h
    have f1 : FrameRel updT_ml updM_ml s10 sa := FrameRel.weaken
      (fun db n (t : List CategoryMapRow × List AlgorithmRow) =>
        ⟨(t.1, t.2, db.occurrences, db.detections, db.classifications,
          db.identifications), rfl⟩)
      (fun m v => ⟨(v, m.occurrence, m.detection, m.classification, m.identification), rfl⟩)
      (import_algorithms_frame ha)
    have f2 : FrameRel updT_ml updM_ml sa sb := FrameRel.weaken
      (fun db n t => ⟨(db.category_maps, db.algorithms, t, db.detections, db.classifications,
        db.identifications), rfl⟩)
      (fun m v => ⟨(m.algorithm, v, m.detection, m.classification, m.identification), rfl⟩)
      (import_occurrences_frame hb)
    have f3 : FrameRel updT_ml updM_ml sb sc := FrameRel.weaken
      (fun db n t => ⟨(db.category_maps, db.algorithms, db.occurrences, t, db.classifications,
        db.identifications), rfl⟩)
      (fun m v => ⟨(m.algorithm, m.occurrence, v, m.classification, m.identification), rfl⟩)
      (import_detections_frame hc)
    have f4 : FrameRel updT_ml updM_ml sc se := FrameRel.weaken
      (fun db n t => ⟨(db.category_maps, db.algorithms, db.occurrences, db.detections, t,
        db.identifications), rfl⟩)
      (fun m v => ⟨(m.algorithm, m.occurrence, m.detection, v, m.identification), rfl⟩)
      (import_classifications_frame he)
    have f5 : FrameRel updT_ml updM_ml se sf := FrameRel.weaken
      (fun db n t => ⟨(db.category_maps, db.algorithms, db.occurrences, db.detections,
        db.classifications, t), rfl⟩)
      (fun m v => ⟨(m.algorithm, m.occurrence, m.detection, m.classification, v), rfl⟩)
      (import_identifications_frame hf)
    have f6 : FrameRel updT_ml updM_ml sf s11 := FrameRel.weaken
      (fun db n t => ⟨(db.category_maps, db.algorithms, t, db.detections, db.classifications,
        db.identifications), rfl⟩)
      (fun m v => ⟨(m.algorithm, v, m.detection, m.classification, m.identification), rfl⟩)
      (update_occurrences_frame h)
    exact mltrans _ _ _ f1 (mltrans _ _ _ f2 (mltrans _ _ _ f3
      (mltrans _ _ _ f4 (mltrans _ _ _ f5 f6))))
  · obtain rfl : s10 = s11 := by simpa using h
    exact FrameRel.rfl updT_ml updM_ml
      (fun db => (db.category_maps, db.algorithms, db.occurrences, db.detections,
        db.classifications, db.identifications))
      (fun m => (m.algorithm, m.occurrence, m.detection, m.classification, m.identification))
      (fun _ => rfl) (fun _ => rfl) _

/-- Store sanity: stored pks (and the project references the claims quantify
over) are below the pk counter, as for any store whose pks come from its
sequences; pipeline pks are positive and pairwise distinct. -/
structure Db.WF (db : Db) : Prop where
  nextPk_pos : 0 < db.nextPk
  projects_lt : ∀ r ∈ db.projects, r.pk < db.nextPk
  taxa_lt : ∀ r ∈ db.taxa, r.pk < db.nextPk
  taxa_lists_lt : ∀ r ∈ db.taxa_lists, r.pk < db.nextPk
  tags_lt : ∀ r ∈ db.tags, r.pk < db.nextPk
  collections_lt : ∀ r ∈ db.collections, r.pk < db.nextPk
  processing_services_lt : ∀ r ∈ db.processing_services, r.pk < db.nextPk
  pipelines_lt : ∀ r ∈ db.pipelines, r.pk < db.nextPk
  pipelines_pos : ∀ r ∈ db.pipelines, 0 < r.pk
  pipelines_nodup : db.pipelines.Pairwise (fun a b => a.pk ≠ b.pk)
  source_images_project_lt : ∀ r ∈ db.source_images, r.project < db.nextPk
  occurrences_project_lt : ∀ r ∈ db.occurrences, r.project < db.nextPk
  pipeline_configs_project_lt : ∀ r ∈ db.pipeline_configs, r.project < db.nextPk

theorem pks_mono' {ρ : Type} {l1 l2 : List ρ} {pkOf : ρ → Nat} {n1 n2 : Nat}
    (heq : l2 = l1) (hle : n1 ≤ n2) (hI : ∀ r ∈ l1, pkOf r < n1) :
    ∀ r ∈ l2, pkOf r < n2 :=
  fun r hr => lt_of_lt_of_le (hI r (heq ▸ hr)) hle

/-! ### Concrete stores and documents used by the witnesses -/

def emptyDb : Db :=
  { nextPk := 1, projects := [], sites := [], devices := [], storage_sources := [],
    deployments := [], events := [], taxa := [], taxa_lists := [], tags := [],
    source_images := [], collections := [], category_maps := [], algorithms := [],
    occurrences := [], detections := [], classifications := [], identifications := [],
    processing_services := [], pipelines := [], pipeline_configs := [] }

theorem emptyDb_wf : emptyDb.WF := by
  constructor <;> simp [emptyDb]

def defaultOptions : Options :=
  { project_name := none, skip_images := false, skip_ml_data := false }

def emptyProjectData : ProjectData :=
  { id := 1, name := "P", description := none, is_draft := none, priority := none,
    image_base_url := none, default_event_method := none,
    default_event_time_threshold := none, summary := none, details := none,
    default_filters := none }

def emptyDoc : Document :=
  { project := emptyProjectData, sites := [], devices := [], storage_sources := [],
    deployments := [], events := [], taxa := [], taxa_lists := [], tags := [],
    source_images := [], collections := [], algorithms := [], occurrences := [],
    detections := [], classifications := [], identifications := [],
    processing_services := [], pipelines := [], pipeline_configs := [] }

/-! ### C1 -/

/-- C1: if any error is raised at any point during the write sequence of one
invocation of the command (the whole of `import_data`, reconciliation included, runs
inside `transaction.atomic`), then the persisted store is unchanged from
before the import began — no record of any kind created by the invocation
remains. -/
theorem c1_rollback_on_failure (export_data : Document) (user : Pk) (options : Options)
    (writesLeft : Option Nat) (db : Db) (e : ImportError)
    (h : (runImportCommand export_data user options writesLeft db).2 = some e) :
    (runImportCommand export_data user options writesLeft db).1 = db := by
  unfold runImportCommand at h ⊢
  rcases hres : runImport export_data user options writesLeft db with e2 | s
  · rfl
  · rw [hres] at h
    simp at h

def c1doc : Document :=
  { emptyDoc with sites := [{ id := 3, name := "S", description := none, latitude := none,
                              longitude := none, elevation := none }] }

/-- Witness for C1: a run whose third store write (the Site creation, after
the Project row and its membership write) fails; the command reports the
failure and the observable store equals the original one. -/
theorem c1_rollback_on_failure_witness :
    (runImportCommand c1doc 7 defaultOptions (some 2) emptyDb).2 =
      some ImportError.storeFailure ∧
    (runImportCommand c1doc 7 defaultOptions (some 2) emptyDb).1 = emptyDb :=
  ⟨rfl, c1_rollback_on_failure c1doc 7 defaultOptions (some 2) emptyDb
    ImportError.storeFailure rfl⟩

/-! ### C10 -/

/-- C10: a successful import creates exactly one new Project row, owned by
the importing user, with that user also a member of the project's members
set. -/
theorem c10_owner_and_member (d : Document) (user : Pk) (options : Options)
    (w : Option Nat) (db : Db) (s' : ImportState) (hwf : db.WF)
    (h : runImport d user options w db = .ok s') :
    ∃ row, s'.db.projects = db.projects ++ [row] ∧
      row.owner = user ∧ user ∈ row.members := by
  obtain ⟨pk, s1, s2, s3, s4, s5, s6, s7, s8, s9, s10, s11, s12, s13,
    hp, h2, h3, h4, h5, h6, h7, h8, h9, h10, h11, h12, h13, h14⟩ := runImport_stages h
  obtain ⟨hpk, hdb1, hmaps1⟩ :=
    import_project_ok (fun r hr => Nat.ne_of_lt (hwf.projects_lt r hr)) hp
  have f2 := import_sites_frame h2
  have f3 := import_devices_frame h3
  have f4 := import_storage_sources_frame h4
  have f5 := import_deployments_frame h5
  have f6 := import_events_frame h6
  have le1 : db.nextPk ≤ s1.db.nextPk := by rw [hdb1]; exact Nat.le_succ _
  have le2 := FrameRel_le (fun _ _ _ => rfl) f2
  have le3 := FrameRel_le (fun _ _ _ => rfl) f3
  have le4 := FrameRel_le (fun _ _ _ => rfl) f4
  have le5 := FrameRel_le (fun _ _ _ => rfl) f5
  have le6 := FrameRel_le (fun _ _ _ => rfl) f6
  have le16 : db.nextPk ≤ s6.db.nextPk :=
    le_trans le1 (le_trans le2 (le_trans le3 (le_trans le4 (le_trans le5 le6))))
  have etaxa6 : s6.db.taxa = db.taxa := by
    rw [FrameRel_proj f6 (fun db => db.taxa) (fun _ _ _ => rfl),
      FrameRel_proj f5 (fun db => db.taxa) (fun _ _ _ => rfl),
      FrameRel_proj f4 (fun db => db.taxa) (fun _ _ _ => rfl),
      FrameRel_proj f3 (fun db => db.taxa) (fun _ _ _ => rfl),
      FrameRel_proj f2 (fun db => db.taxa) (fun _ _ _ => rfl), hdb1]
  obtain ⟨f7, taxaInv7⟩ :=
    import_taxa_frame (pks_mono' etaxa6 le16 hwf.taxa_lt) h7
  have le7 := FrameRel_le (fun _ _ _ => rfl) f7
  have le17 : db.nextPk ≤ s7.db.nextPk := le_trans le16 le7
  have etl7 : s7.db.taxa_lists = db.taxa_lists := by
    rw [FrameRel_proj f7 (fun db => db.taxa_lists) (fun _ _ _ => rfl),
      FrameRel_proj f6 (fun db => db.taxa_lists) (fun _ _ _ => rfl),
      FrameRel_proj f5 (fun db => db.taxa_lists) (fun _ _ _ => rfl),
      FrameRel_proj f4 (fun db => db.taxa_lists) (fun _ _ _ => rfl),
      FrameRel_proj f3 (fun db => db.taxa_lists) (fun _ _ _ => rfl),
      FrameRel_proj f2 (fun db => db.taxa_lists) (fun _ _ _ => rfl), hdb1]
  obtain ⟨f8, tlInv8⟩ :=
    import_taxa_lists_frame (pks_mono' etl7 le17 hwf.taxa_lists_lt) h8
  have le8 := FrameRel_le (fun _ _ _ => rfl) f8
  have le18 : db.nextPk ≤ s8.db.nextPk := le_trans le17 le8
  have etag8 : s8.db.tags = db.tags := by
    rw [FrameRel_proj f8 (fun db => db.tags) (fun _ _ _ => rfl),
      FrameRel_proj f7 (fun db => db.tags) (fun _ _ _ => rfl),
      FrameRel_proj f6 (fun db => db.tags) (fun _ _ _ => rfl),
      FrameRel_proj f5 (fun db => db.tags) (fun _ _ _ => rfl),
      FrameRel_proj f4 (fun db => db.tags) (fun _ _ _ => rfl),
      FrameRel_proj f3 (fun db => db.tags) (fun _ _ _ => rfl),
      FrameRel_proj f2 (fun db => db.tags) (fun _ _ _ => rfl), hdb1]
  obtain ⟨f9, tagInv9⟩ :=
    import_tags_frame (pks_mono' etag8 le18 hwf.tags_lt) h9
  have le9 := FrameRel_le (fun _ _ _ => rfl) f9
  have le19 : db.nextPk ≤ s9.db.nextPk := le_trans le18 le9
  have ecol9 : s9.db.collections = db.collections := by
    rw [FrameRel_proj f9 (fun db => db.collections) (fun _ _ _ => rfl),
      FrameRel_proj f8 (fun db => db.collections) (fun _ _ _ => rfl),
      FrameRel_proj f7 (fun db => db.collections) (fun _ _ _ => rfl),
      FrameRel_proj f6 (fun db => db.collections) (fun _ _ _ => rfl),
      FrameRel_proj f5 (fun db => db.collections) (fun _ _ _ => rfl),
      FrameRel_proj f4 (fun db => db.collections) (fun _ _ _ => rfl),
      FrameRel_proj f3 (fun db => db.collections) (fun _ _ _ => rfl),
      FrameRel_proj f2 (fun db => db.collections) (fun _ _ _ => rfl), hdb1]
  have f10 := images_block_frame (pks_mono' ecol9 le19 hwf.collections_lt) h10
  have f11 := ml_block_frame h11
  have le10 := FrameRel_le (fun _ _ _ => rfl) f10
  have le11 := FrameRel_le (fun _ _ _ => rfl) f11
  have le111 : db.nextPk ≤ s11.db.nextPk := le_trans le19 (le_trans le10 le11)
  have esvc11 : s11.db.processing_services = db.processing_services := by
    rw [FrameRel_proj f11 (fun db => db.processing_services) (fun _ _ _ => rfl),
      FrameRel_proj f10 (fun db => db.processing_services) (fun _ _ _ => rfl),
      FrameRel_proj f9 (fun db => db.processing_services) (fun _ _ _ => rfl),
      FrameRel_proj f8 (fun db => db.processing_services) (fun _ _ _ => rfl),
      FrameRel_proj f7 (fun db => db.processing_services) (fun _ _ _ => rfl),
      FrameRel_proj f6 (fun db => db.processing_services) (fun _ _ _ => rfl),
      FrameRel_proj f5 (fun db => db.processing_services) (fun _ _ _ => rfl),
      FrameRel_proj f4 (fun db => db.processing_services) (fun _ _ _ => rfl),
      FrameRel_proj f3 (fun db => db.processing_services) (fun _ _ _ => rfl),
      FrameRel_proj f2 (fun db => db.processing_services) (fun _ _ _ => rfl), hdb1]
  obtain ⟨f12, svcInv12⟩ :=
    import_processing_services_frame (pks_mono' esvc11 le111 hwf.processing_services_lt) h12
  have le12 := FrameRel_le (fun _ _ _ => rfl) f12
  have le112 : db.nextPk ≤ s12.db.nextPk := le_trans le111 le12
  have epl12 : s12.db.pipelines = db.pipelines := by
    rw [FrameRel_proj f12 (fun db => db.pipelines) (fun _ _ _ => rfl),
      FrameRel_proj f11 (fun db => db.pipelines) (fun _ _ _ => rfl),
      FrameRel_proj f10 (fun db => db.pipelines) (fun _ _ _ => rfl),
      FrameRel_proj f9 (fun db => db.pipelines) (fun _ _ _ => rfl),
      FrameRel_proj f8 (fun db => db.pipelines) (fun _ _ _ => rfl),
      FrameRel_proj f7 (fun db => db.pipelines) (fun _ _ _ => rfl),
      FrameRel_proj f6 (fun db => db.pipelines) (fun _ _ _ => rfl),
      FrameRel_proj f5 (fun db => db.pipelines) (fun _ _ _ => rfl),
      FrameRel_proj f4 (fun db => db.pipelines) (fun _ _ _ => rfl),
      FrameRel_proj f3 (fun db => db.pipelines) (fun _ _ _ => rfl),
      FrameRel_proj f2 (fun db => db.pipelines) (fun _ _ _ => rfl), hdb1]
  obtain ⟨f13, plInv13⟩ :=
    import_pipelines_frame (pks_mono' epl12 le112 hwf.pipelines_lt) h13
  have f14 := import_pipeline_configs_frame h14
  refine ⟨projectRowOf (resolveProjectName db (requestedName options d.project))
    d.project user db.nextPk, ?_, rfl, by simp [projectRowOf]⟩
  rw [FrameRel_proj f14 (fun db => db.projects) (fun _ _ _ => rfl),
    FrameRel_proj f13 (fun db => db.projects) (fun _ _ _ => rfl),
    FrameRel_proj f12 (fun db => db.projects) (fun _ _ _ => rfl),
    FrameRel_proj f11 (fun db => db.projects) (fun _ _ _ => rfl),
    FrameRel_proj f10 (fun db => db.projects) (fun _ _ _ => rfl),
    FrameRel_proj f9 (fun db => db.projects) (fun _ _ _ => rfl),
    FrameRel_proj f8 (fun db => db.projects) (fun _ _ _ => rfl),
    FrameRel_proj f7 (fun db => db.projects) (fun _ _ _ => rfl),
    FrameRel_proj f6 (fun db => db.projects) (fun _ _ _ => rfl),
    FrameRel_proj f5 (fun db => db.projects) (fun _ _ _ => rfl),
    FrameRel_proj f4 (fun db => db.projects) (fun _ _ _ => rfl),
    FrameRel_proj f3 (fun db => db.projects) (fun _ _ _ => rfl),
    FrameRel_proj f2 (fun db => db.projects) (fun _ _ _ => rfl), hdb1]

def c10state : ImportState :=
  match runImport emptyDoc 7 defaultOptions none emptyDb with
  | .ok s => s
  | .error _ => ⟨emptyDb, emptyMaps, none⟩

/-- Witness for C10 at a concrete run. -/
theorem c10_owner_and_member_witness :
    emptyDb.WF ∧ ∃ row, c10state.db.projects = emptyDb.projects ++ [row] ∧
      row.owner = 7 ∧ 7 ∈ row.members :=
  ⟨emptyDb_wf, c10_owner_and_member emptyDoc 7 defaultOptions none emptyDb c10state
    emptyDb_wf rfl⟩

/-! ### C6 -/

/-- The identification loop keeps every pre-existing row and only ever appends
rows whose `user` field is the importing user (`user=user` at creation). -/
theorem import_identifications_user_field {l : List IdentificationData} {project user : Pk}
    {s s' : ImportState} (h : import_identifications l project user s = .ok s') :
    ∀ r ∈ s'.db.identifications, r ∈ s.db.identifications ∨ r.user = user := by
  unfold import_identifications at h
  have hbody : ∀ x ∈ l, ∀ t t', import_identification1 user x t = .ok t' →
      ∀ r ∈ t'.db.identifications, r ∈ t.db.identifications ∨ r.user = user := by
    intro x hx t t' hb r hr
    rcases import_identification1_ok hb with ⟨_, rfl⟩ | ⟨_, hdb, _⟩
    · exact Or.inl hr
    · rw [hdb] at hr
      simp only [List.mem_append, List.mem_singleton] at hr
      rcases hr with hr | rfl
      · exact Or.inl hr
      · exact Or.inr rfl
  exact @importLoop_rel IdentificationData (import_identification1 user)
    (fun a b => ∀ r ∈ b.db.identifications, r ∈ a.db.identifications ∨ r.user = user)
    (fun t r hr => Or.inl hr)
    (fun a b c h1 h2 r hr => by
      rcases h2 r hr with hb | hu
      · rcases h1 r hb with ha | hu2
        · exact Or.inl ha
        · exact Or.inr hu2
      · exact Or.inr hu)
    l hbody s s' h

/-- C6: after a successful import every Identification row either already
existed in the store or carries the importing user in its user field; in
particular every Identification the run created has `user = user`. -/
theorem c6_identification_user (d : Document) (user : Pk) (options : Options)
    (w : Option Nat) (db : Db) (s' : ImportState) (hwf : db.WF)
    (h : runImport d user options w db = .ok s') :
    ∀ r ∈ s'.db.identifications, r ∈ db.identifications ∨ r.user = user := by
  obtain ⟨pk, s1, s2, s3, s4, s5, s6, s7, s8, s9, s10, s11, s12, s13,
    hp, h2, h3, h4, h5, h6, h7, h8, h9, h10, h11, h12, h13, h14⟩ := runImport_stages h
  obtain ⟨hpk, hdb1, hmaps1⟩ :=
    import_project_ok (fun r hr => Nat.ne_of_lt (hwf.projects_lt r hr)) hp
  have f2 := import_sites_frame h2
  have f3 := import_devices_frame h3
  have f4 := import_storage_sources_frame h4
  have f5 := import_deployments_frame h5
  have f6 := import_events_frame h6
  have le1 : db.nextPk ≤ s1.db.nextPk := by rw [hdb1]; exact Nat.le_succ _
  have le2 := FrameRel_le (fun _ _ _ => rfl) f2
  have le3 := FrameRel_le (fun _ _ _ => rfl) f3
  have le4 := FrameRel_le (fun _ _ _ => rfl) f4
  have le5 := FrameRel_le (fun _ _ _ => rfl) f5
  have le6 := FrameRel_le (fun _ _ _ => rfl) f6
  have le16 : db.nextPk ≤ s6.db.nextPk :=
    le_trans le1 (le_trans le2 (le_trans le3 (le_trans le4 (le_trans le5 le6))))
  have etaxa6 : s6.db.taxa = db.taxa := by
    rw [FrameRel_proj f6 (fun db => db.taxa) (fun _ _ _ => rfl),
      FrameRel_proj f5 (fun db => db.taxa) (fun _ _ _ => rfl),
      FrameRel_proj f4 (fun db => db.taxa) (fun _ _ _ => rfl),
      FrameRel_proj f3 (fun db => db.taxa) (fun _ _ _ => rfl),
      FrameRel_proj f2 (fun db => db.taxa) (fun _ _ _ => rfl), hdb1]
  obtain ⟨f7, taxaInv7⟩ :=
    import_taxa_frame (pks_mono' etaxa6 le16 hwf.taxa_lt) h7
  have le7 := FrameRel_le (fun _ _ _ => rfl) f7
  have le17 : db.nextPk ≤ s7.db.nextPk := le_trans le16 le7
  have etl7 : s7.db.taxa_lists = db.taxa_lists := by
    rw [FrameRel_proj f7 (fun db => db.taxa_lists) (fun _ _ _ => rfl),
      FrameRel_proj f6 (fun db => db.taxa_lists) (fun _ _ _ => rfl),
      FrameRel_proj f5 (fun db => db.taxa_lists) (fun _ _ _ => rfl),
      FrameRel_proj f4 (fun db => db.taxa_lists) (fun _ _ _ => rfl),
      FrameRel_proj f3 (fun db => db.taxa_lists) (fun _ _ _ => rfl),
      FrameRel_proj f2 (fun db => db.taxa_lists) (fun _ _ _ => rfl), hdb1]
  obtain ⟨f8, tlInv8⟩ :=
    import_taxa_lists_frame (pks_mono' etl7 le17 hwf.taxa_lists_lt) h8
  have le8 := FrameRel_le (fun _ _ _ => rfl) f8
  have le18 : db.nextPk ≤ s8.db.nextPk := le_trans le17 le8
  have etag8 : s8.db.tags = db.tags := by
    rw [FrameRel_proj f8 (fun db => db.tags) (fun _ _ _ => rfl),
      FrameRel_proj f7 (fun db => db.tags) (fun _ _ _ => rfl),
      FrameRel_proj f6 (fun db => db.tags) (fun _ _ _ => rfl),
      FrameRel_proj f5 (fun db => db.tags) (fun _ _ _ => rfl),
      FrameRel_proj f4 (fun db => db.tags) (fun _ _ _ => rfl),
      FrameRel_proj f3 (fun db => db.tags) (fun _ _ _ => rfl),
      FrameRel_proj f2 (fun db => db.tags) (fun _ _ _ => rfl), hdb1]
  obtain ⟨f9, tagInv9⟩ :=
    import_tags_frame (pks_mono' etag8 le18 hwf.tags_lt) h9
  have le9 := FrameRel_le (fun _ _ _ => rfl) f9
  have le19 : db.nextPk ≤ s9.db.nextPk := le_trans le18 le9
  have ecol9 : s9.db.collections = db.collections := by
    rw [FrameRel_proj f9 (fun db => db.collections) (fun _ _ _ => rfl),
      FrameRel_proj f8 (fun db => db.collections) (fun _ _ _ => rfl),
      FrameRel_proj f7 (fun db => db.collections) (fun _ _ _ => rfl),
      FrameRel_proj f6 (fun db => db.collections) (fun _ _ _ => rfl),
      FrameRel_proj f5 (fun db => db.collections) (fun _ _ _ => rfl),
      FrameRel_proj f4 (fun db => db.collections) (fun _ _ _ => rfl),
      FrameRel_proj f3 (fun db => db.collections) (fun _ _ _ => rfl),
      FrameRel_proj f2 (fun db => db.collections) (fun _ _ _ => rfl), hdb1]
  have f10 := images_block_frame (pks_mono' ecol9 le19 hwf.collections_lt) h10
  have eids10 : s10.db.identifications = db.identifications := by
    rw [FrameRel_proj f10 (fun db => db.identifications) (fun _ _ _ => rfl),
      FrameRel_proj f9 (fun db => db.identifications) (fun _ _ _ => rfl),
      FrameRel_proj f8 (fun db => db.identifications) (fun _ _ _ => rfl),
      FrameRel_proj f7 (fun db => db.identifications) (fun _ _ _ => rfl),
      FrameRel_proj f6 (fun db => db.identifications) (fun _ _ _ => rfl),
      FrameRel_proj f5 (fun db => db.identifications) (fun _ _ _ => rfl),
      FrameRel_proj f4 (fun db => db.identifications) (fun _ _ _ => rfl),
      FrameRel_proj f3 (fun db => db.identifications) (fun _ _ _ => rfl),
      FrameRel_proj f2 (fun db => db.identifications) (fun _ _ _ => rfl), hdb1]
  have f11 := ml_block_frame h11
  have hml : ∀ r ∈ s11.db.identifications,
      r ∈ s10.db.identifications ∨ r.user = user := by
    split at h11
    · obtain ⟨sa, ha, hr1⟩ := bind_ok h11
      obtain ⟨sb, hb, hr2⟩ := bind_ok hr1
      obtain ⟨sc, hc, hr3⟩ := bind_ok hr2
      obtain ⟨se, he, hr4⟩ := bind_ok hr3
      obtain ⟨sf, hf, hr5⟩ := bind_ok hr4
      have ea : sa.db.identifications = s10.db.identifications :=
        FrameRel_proj (import_algorithms_frame ha)
          (fun db => db.identifications) (fun _ _ _ => rfl)
      have eb : sb.db.identifications = sa.db.identifications :=
        FrameRel_proj (import_occurrences_frame hb)
          (fun db => db.identifications) (fun _ _ _ => rfl)
      have ec : sc.db.identifications = sb.db.identifications :=
        FrameRel_proj (import_detections_frame hc)
          (fun db => db.identifications) (fun _ _ _ => rfl)
      have ee : se.db.identifications = sc.db.identifications :=
        FrameRel_proj (import_classifications_frame he)
          (fun db => db.identifications) (fun _ _ _ => rfl)
      have hids := import_identifications_user_field hf
      have eupd : s11.db.identifications = sf.db.identifications :=
        FrameRel_proj (update_occurrences_frame hr5)
          (fun db => db.identifications) (fun _ _ _ => rfl)
      intro r hr
      rw [eupd] at hr
      rcases hids r hr with hmem | hu
      · rw [ee, ec, eb, ea] at hmem
        exact Or.inl hmem
      · exact Or.inr hu
    · obtain rfl : s10 = s11 := by simpa using h11
      exact fun r hr => Or.inl hr
  have le10 := FrameRel_le (fun _ _ _ => rfl) f10
  have le11 := FrameRel_le (fun _ _ _ => rfl) f11
  have le111 : db.nextPk ≤ s11.db.nextPk := le_trans le19 (le_trans le10 le11)
  have esvc11 : s11.db.processing_services = db.processing_services := by
    rw [FrameRel_proj f11 (fun db => db.processing_services) (fun _ _ _ => rfl),
      FrameRel_proj f10 (fun db => db.processing_services) (fun _ _ _ => rfl),
      FrameRel_proj f9 (fun db => db.processing_services) (fun _ _ _ => rfl),
      FrameRel_proj f8 (fun db => db.processing_services) (fun _ _ _ => rfl),
      FrameRel_proj f7 (fun db => db.processing_services) (fun _ _ _ => rfl),
      FrameRel_proj f6 (fun db => db.processing_services) (fun _ _ _ => rfl),
      FrameRel_proj f5 (fun db => db.processing_services) (fun _ _ _ => rfl),
      FrameRel_proj f4 (fun db => db.processing_services) (fun _ _ _ => rfl),
      FrameRel_proj f3 (fun db => db.processing_services) (fun _ _ _ => rfl),
      FrameRel_proj f2 (fun db => db.processing_services) (fun _ _ _ => rfl), hdb1]
  obtain ⟨f12, svcInv12⟩ :=
    import_processing_services_frame (pks_mono' esvc11 le111 hwf.processing_services_lt) h12
  have le12 := FrameRel_le (fun _ _ _ => rfl) f12
  have le112 : db.nextPk ≤ s12.db.nextPk := le_trans le111 le12
  have epl12 : s12.db.pipelines = db.pipelines := by
    rw [FrameRel_proj f12 (fun db => db.pipelines) (fun _ _ _ => rfl),
      FrameRel_proj f11 (fun db => db.pipelines) (fun _ _ _ => rfl),
      FrameRel_proj f10 (fun db => db.pipelines) (fun _ _ _ => rfl),
      FrameRel_proj f9 (fun db => db.pipelines) (fun _ _ _ => rfl),
      FrameRel_proj f8 (fun db => db.pipelines) (fun _ _ _ => rfl),
      FrameRel_proj f7 (fun db => db.pipelines) (fun _ _ _ => rfl),
      FrameRel_proj f6 (fun db => db.pipelines) (fun _ _ _ => rfl),
      FrameRel_proj f5 (fun db => db.pipelines) (fun _ _ _ => rfl),
      FrameRel_proj f4 (fun db => db.pipelines) (fun _ _ _ => rfl),
      FrameRel_proj f3 (fun db => db.pipelines) (fun _ _ _ => rfl),
      FrameRel_proj f2 (fun db => db.pipelines) (fun _ _ _ => rfl), hdb1]
  obtain ⟨f13, plInv13⟩ :=
    import_pipelines_frame (pks_mono' epl12 le112 hwf.pipelines_lt) h13
  have f14 := import_pipeline_configs_frame h14
  have efinal : s'.db.identifications = s11.db.identifications := by
    rw [FrameRel_proj f14 (fun db => db.identifications) (fun _ _ _ => rfl),
      FrameRel_proj f13 (fun db => db.identifications) (fun _ _ _ => rfl),
      FrameRel_proj f12 (fun db => db.identifications) (fun _ _ _ => rfl)]
  intro r hr
  rw [efinal] at hr
  rcases hml r hr with hmem | hu
  · rw [eids10] at hmem
    exact Or.inl hmem
  · exact Or.inr hu

def c6doc : Document :=
  { emptyDoc with
    deployments := [{ id := 10, name := "D", description := none,
                      research_site_id := none, device_id := none,
                      data_source_id := none, data_source_subdir := none,
                      data_source_regex := none, latitude := none,
                      longitude := none }],
    events := [{ id := 20, deployment_id := some 10, group_by := "g",
                 start := none, end_ := none }],
    occurrences := [{ id := 30, event_id := some 20, deployment_id := some 10,
                      determination_id := none, determination_score := none }],
    identifications := [{ id := 40, occurrence_id := some 30, taxon_id := none,
                          agreed_with_identification_id := none,
                          agreed_with_prediction_id := none, withdrawn := none,
                          remarks := none, created_at := none }] }

def c6state : ImportState :=
  match runImport c6doc 7 defaultOptions none emptyDb with
  | .ok s => s
  | .error _ => ⟨emptyDb, emptyMaps, none⟩

/-- Witness for C6: a run that creates one Identification; it carries the
importing user. -/
theorem c6_identification_user_witness :
    emptyDb.WF ∧
    c6state.db.identifications.length = 1 ∧
    ∀ r ∈ c6state.db.identifications, r ∈ emptyDb.identifications ∨ r.user = 7 :=
  ⟨emptyDb_wf, rfl, c6_identification_user c6doc 7 defaultOptions none emptyDb c6state
    emptyDb_wf rfl⟩

/-! ### C9 -/

theorem resolveIds_nil (ids : List DocId) : resolveIds [] ids = [] := by
  unfold resolveIds
  induction ids with
  | nil => rfl
  | cons i rest ih => simp [lookupId, truthy]

/-- A resolvable id map key whose registered pks are all positive looks up
truthily. -/
theorem truthy_lookup_of_mem_pos {m : List (DocId × Pk)} {pid : DocId}
    (hmem : pid ∈ m.map Prod.fst) (hpos : ∀ e ∈ m, 0 < e.2) :
    truthy (lookupId m (some pid)) = true := by
  obtain ⟨e, he, heq⟩ := List.mem_map.mp hmem
  have hsome : (m.find? (fun kv => kv.1 == pid)).isSome := by
    rw [List.find?_isSome]
    exact ⟨e, he, by simp [heq]⟩
  obtain ⟨kv, hkv⟩ := Option.isSome_iff_exists.mp hsome
  have hp := hpos kv (List.mem_of_find?_eq_some hkv)
  have hne : kv.2 ≠ 0 := Nat.pos_iff_ne_zero.mp hp
  simp [lookupId, hkv, truthy, hne]

/-- One processing-service body always registers the record's external id
(reuse or create). -/
theorem import_processing_service1_maps {project : Pk} {x : ProcessingServiceData}
    {s s' : ImportState} (h : import_processing_service1 project x s = .ok s') :
    ∃ k, s'.maps =
      { s.maps with processing_service := (x.id, k) :: s.maps.processing_service } := by
  unfold import_processing_service1 at h
  rcases hfind : s.db.processing_services.find? (fun r => r.endpoint_url == x.endpoint_url)
    with _ | sv <;> rw [hfind] at h <;> simp only at h
  · split at h
    · simp at h
    · rename_i pk s1 heq
      obtain ⟨rfl, hdb1, hmaps1⟩ := create_ok heq
      split at h
      · simp at h
      · rename_i s2 heq2
        obtain ⟨hdb2, hmaps2⟩ := write_ok heq2
        obtain rfl :
            { s2 with maps :=
              { s2.maps with processing_service :=
                  (x.id, s.db.nextPk) :: s2.maps.processing_service } } = s' := by
          simpa using h
        exact ⟨s.db.nextPk, by rw [hmaps2, hmaps1]⟩
  · split at h
    · simp at h
    · rename_i s2 heq2
      obtain ⟨hdb2, hmaps2⟩ := write_ok heq2
      obtain rfl :
          { s2 with maps :=
            { s2.maps with processing_service :=
                (x.id, sv.pk) :: s2.maps.processing_service } } = s' := by
        simpa using h
      exact ⟨sv.pk, by rw [hmaps2]⟩

/-- One pipeline body always registers the record's external id (reuse or
create). -/
theorem import_pipeline1_maps {x : PipelineData} {s s' : ImportState}
    (h : import_pipeline1 x s = .ok s') :
    ∃ k, s'.maps = { s.maps with pipeline := (x.id, k) :: s.maps.pipeline } := by
  unfold import_pipeline1 at h
  rcases hfind : s.db.pipelines.find? (fun p => p.name == x.name && p.version == x.version)
    with _ | p <;> rw [hfind] at h <;> simp only at h
  · split at h
    · simp at h
    · rename_i pk s1 heq
      obtain ⟨rfl, hdb1, hmaps1⟩ := create_ok heq
      rw [hmaps1] at h
      split at h
      · simp at h
      · rename_i s2 heq2
        obtain rfl :
            { s2 with maps :=
              { s2.maps with pipeline := (x.id, s.db.nextPk) :: s2.maps.pipeline } } = s' := by
          simpa using h
        split at heq2
        · obtain rfl : s1 = s2 := by simpa using heq2
          exact ⟨s.db.nextPk, by rw [hmaps1]⟩
        · obtain ⟨hdb2, hmaps2⟩ := write_ok heq2
          exact ⟨s.db.nextPk, by rw [hmaps2, hmaps1]⟩
  · obtain rfl :
        { s with maps := { s.maps with pipeline := (x.id, p.pk) :: s.maps.pipeline } } = s' := by
      simpa using h
    exact ⟨p.pk, rfl⟩

/-- Every document processing service's external id is registered by the
(unconditional) services stage. -/
theorem import_processing_services_registers {l : List ProcessingServiceData} {project : Pk}
    {s s' : ImportState} (h : import_processing_services l project s = .ok s') :
    ∀ x ∈ l, x.id ∈ s'.maps.processing_service.map Prod.fst := by
  unfold import_processing_services at h
  exact @importLoop_establishes ProcessingServiceData (import_processing_service1 project)
    (fun x t => x.id ∈ t.maps.processing_service.map Prod.fst)
    (fun x y t t' hb hy => by
      obtain ⟨k, hm⟩ := import_processing_service1_maps hb
      rw [hm]
      exact List.mem_cons_of_mem _ hy)
    (fun x t t' hb => by
      obtain ⟨k, hm⟩ := import_processing_service1_maps hb
      rw [hm]
      exact List.mem_cons_self _ _)
    l s s' h

/-- Every document pipeline's external id is registered by the
(unconditional) pipelines stage. -/
theorem import_pipelines_registers {l : List PipelineData} {project : Pk} {s s' : ImportState}
    (h : import_pipelines l project s = .ok s') :
    ∀ x ∈ l, x.id ∈ s'.maps.pipeline.map Prod.fst := by
  unfold import_pipelines at h
  exact @importLoop_establishes PipelineData import_pipeline1
    (fun x t => x.id ∈ t.maps.pipeline.map Prod.fst)
    (fun x y t t' hb hy => by
      obtain ⟨k, hm⟩ := import_pipeline1_maps hb
      rw [hm]
      exact List.mem_cons_of_mem _ hy)
    (fun x t t' hb => by
      obtain ⟨k, hm⟩ := import_pipeline1_maps hb
      rw [hm]
      exact List.mem_cons_self _ _)
    l s s' h

/-- Pipeline-map positivity is preserved through the pipelines stage: every
registered pipeline pk stays positive. -/
theorem import_pipelines_pos {l : List PipelineData} {project : Pk} {s s' : ImportState}
    (hm : ∀ e ∈ s.maps.pipeline, 0 < e.2)
    (ht : ∀ r ∈ s.db.pipelines, 0 < r.pk ∧ r.pk < s.db.nextPk)
    (hn : 0 < s.db.nextPk)
    (h : import_pipelines l project s = .ok s') :
    ∀ e ∈ s'.maps.pipeline, 0 < e.2 := by
  unfold import_pipelines at h
  refine (importLoop_inv_rel
    (fun t => (∀ e ∈ t.maps.pipeline, 0 < e.2) ∧
      (∀ r ∈ t.db.pipelines, 0 < r.pk ∧ r.pk < t.db.nextPk) ∧ 0 < t.db.nextPk)
    (fun _ _ => True) (fun _ => trivial) (fun _ _ _ _ _ => trivial) l ?_
    s s' ⟨hm, ht, hn⟩ h).2.1
  intro x hx t t' hI hb
  obtain ⟨hm1, ht1, hn1⟩ := hI
  refine ⟨trivial, ?_⟩
  rcases import_pipeline1_ok (fun r hr => Nat.ne_of_lt (ht1 r hr).2) hb with
    ⟨p, hfind, hdb, hmaps⟩ | ⟨hfind, hdb, hmaps⟩
  · have hp := ht1 p (List.mem_of_find?_eq_some hfind)
    refine ⟨?_, ?_, ?_⟩
    · rw [hmaps]
      intro e he
      rcases List.mem_cons.mp he with rfl | he
      · exact hp.1
      · exact hm1 e he
    · rw [hdb]
      exact ht1
    · rw [hdb]
      exact hn1
  · refine ⟨?_, ?_, ?_⟩
    · rw [hmaps]
      intro e he
      rcases List.mem_cons.mp he with rfl | he
      · exact hn1
      · exact hm1 e he
    · rw [hdb]
      intro r hr
      rcases List.mem_append.mp hr with hr | hr
      · exact ⟨(ht1 r hr).1, Nat.lt_succ_of_lt (ht1 r hr).2⟩
      · rw [List.mem_singleton] at hr
        subst hr
        exact ⟨hn1, Nat.lt_succ_self _⟩
    · rw [hdb]
      exact Nat.succ_pos _

/-- Every config whose pipeline reference looks up truthily is registered by
the configs stage. -/
theorem import_pipeline_configs_registers {l : List PipelineConfigData} {project : Pk}
    {s s' : ImportState} (h : import_pipeline_configs l project s = .ok s') :
    ∀ x ∈ l, truthy (lookupId s'.maps.pipeline x.pipeline_id) = true →
      x.id ∈ s'.maps.pipeline_config.map Prod.fst := by
  unfold import_pipeline_configs at h
  exact @importLoop_establishes PipelineConfigData (import_pipeline_config1 project)
    (fun x t => truthy (lookupId t.maps.pipeline x.pipeline_id) = true →
      x.id ∈ t.maps.pipeline_config.map Prod.fst)
    (fun x y t t' hb hy => by
      rcases import_pipeline_config1_ok hb with ⟨htr, rfl⟩ | ⟨htr, hcase⟩
      · exact hy
      · rcases hcase with ⟨c, hfind, hdbEq, hmaps⟩ | ⟨hfind, hdb, hmaps⟩ <;>
          · rw [hmaps]
            intro htr'
            exact List.mem_cons_of_mem _ (hy htr'))
    (fun x t t' hb => by
      rcases import_pipeline_config1_ok hb with ⟨htr, rfl⟩ | ⟨htr, hcase⟩
      · intro htr'
        rw [htr'] at htr
        simp at htr
      · rcases hcase with ⟨c, hfind, hdbEq, hmaps⟩ | ⟨hfind, hdb, hmaps⟩ <;>
          · rw [hmaps]
            intro htr'
            exact List.mem_cons_self _ _)
    l s s' h

/-- When the algorithm id map is empty, a created pipeline row carries no
algorithm links, and the map stays empty. -/
theorem import_pipeline1_empty_algorithm {x : PipelineData} {s s' : ImportState}
    (hm : s.maps.algorithm = []) (h : import_pipeline1 x s = .ok s') :
    s'.maps.algorithm = [] ∧
    (s'.db.pipelines = s.db.pipelines ∨
      s'.db.pipelines = s.db.pipelines ++ [pipelineRowOf x [] s.db.nextPk]) := by
  unfold import_pipeline1 at h
  rcases hfind : s.db.pipelines.find? (fun p => p.name == x.name && p.version == x.version)
    with _ | p <;> rw [hfind] at h <;> simp only at h
  · split at h
    · simp at h
    · rename_i pk s1 heq
      obtain ⟨rfl, hdb1, hmaps1⟩ := create_ok heq
      rw [hmaps1] at h
      split at h
      · simp at h
      · rename_i s2 heq2
        obtain rfl :
            { s2 with maps :=
              { s2.maps with pipeline := (x.id, s.db.nextPk) :: s2.maps.pipeline } } = s' := by
          simpa using h
        split at heq2
        · obtain rfl : s1 = s2 := by simpa using heq2
          constructor
          · show s1.maps.algorithm = []
            rw [hmaps1]
            exact hm
          · refine Or.inr ?_
            show s1.db.pipelines = _
            rw [hdb1]
            simp only [pipelineRowOf]
        · rename_i hni
          rw [hm, resolveIds_nil] at hni
          simp at hni
  · obtain rfl :
        { s with maps := { s.maps with pipeline := (x.id, p.pk) :: s.maps.pipeline } } = s' := by
      simpa using h
    exact ⟨hm, Or.inl rfl⟩

/-- With an empty algorithm id map (ML data skipped), the pipelines stage
only ever creates pipeline rows with empty algorithm sets. -/
theorem import_pipelines_no_algorithms {l : List PipelineData} {project : Pk}
    {s s' : ImportState} (hm : s.maps.algorithm = [])
    (h : import_pipelines l project s = .ok s') :
    ∀ r ∈ s'.db.pipelines, r ∈ s.db.pipelines ∨ r.algorithms = [] := by
  unfold import_pipelines at h
  exact (@importLoop_inv_rel PipelineData import_pipeline1
    (fun t => t.maps.algorithm = [])
    (fun a b => ∀ r ∈ b.db.pipelines, r ∈ a.db.pipelines ∨ r.algorithms = [])
    (fun t r hr => Or.inl hr)
    (fun a b c h1 h2 r hr => by
      rcases h2 r hr with hb | he
      · rcases h1 r hb with ha | he2
        · exact Or.inl ha
        · exact Or.inr he2
      · exact Or.inr he)
    l
    (fun x hx t t' hI hb => by
      obtain ⟨hm', hcase⟩ := import_pipeline1_empty_algorithm hI hb
      refine ⟨?_, hm'⟩
      intro r hr
      rcases hcase with heq | heq
      · rw [heq] at hr
        exact Or.inl hr
      · rw [heq] at hr
        rcases List.mem_append.mp hr with hr | hr
        · exact Or.inl hr
        · rw [List.mem_singleton] at hr
          subst hr
          exact Or.inr rfl)
    s s' hm h).1

/-- C9: the ProcessingService, Pipeline and PipelineConfig stages run on
every import regardless of the skip flags — every document service and pipeline id
is registered, and every config referencing a document pipeline is registered
— and when ML data is skipped every pipeline row the run created has an empty
algorithm set. -/
theorem c9_services_pipelines_configs (d : Document) (user : Pk) (options : Options)
    (w : Option Nat) (db : Db) (s' : ImportState) (hwf : db.WF)
    (h : runImport d user options w db = .ok s') :
    (∀ x ∈ d.processing_services, x.id ∈ s'.maps.processing_service.map Prod.fst) ∧
    (∀ x ∈ d.pipelines, x.id ∈ s'.maps.pipeline.map Prod.fst) ∧
    (∀ x ∈ d.pipeline_configs, ∀ pid, x.pipeline_id = some pid →
      pid ∈ d.pipelines.map PipelineData.id →
      x.id ∈ s'.maps.pipeline_config.map Prod.fst) ∧
    (options.skip_ml_data = true →
      ∀ r ∈ s'.db.pipelines, r ∈ db.pipelines ∨ r.algorithms = []) := by
  obtain ⟨pk, s1, s2, s3, s4, s5, s6, s7, s8, s9, s10, s11, s12, s13,
    hp, h2, h3, h4, h5, h6, h7, h8, h9, h10, h11, h12, h13, h14⟩ := runImport_stages h
  obtain ⟨hpk, hdb1, hmaps1⟩ :=
    import_project_ok (fun r hr => Nat.ne_of_lt (hwf.projects_lt r hr)) hp
  have f2 := import_sites_frame h2
  have f3 := import_devices_frame h3
  have f4 := import_storage_sources_frame h4
  have f5 := import_deployments_frame h5
  have f6 := import_events_frame h6
  have le1 : db.nextPk ≤ s1.db.nextPk := by rw [hdb1]; exact Nat.le_succ _
  have le2 := FrameRel_le (fun _ _ _ => rfl) f2
  have le3 := FrameRel_le (fun _ _ _ => rfl) f3
  have le4 := FrameRel_le (fun _ _ _ => rfl) f4
  have le5 := FrameRel_le (fun _ _ _ => rfl) f5
  have le6 := FrameRel_le (fun _ _ _ => rfl) f6
  have le16 : db.nextPk ≤ s6.db.nextPk :=
    le_trans le1 (le_trans le2 (le_trans le3 (le_trans le4 (le_trans le5 le6))))
  have etaxa6 : s6.db.taxa = db.taxa := by
    rw [FrameRel_proj f6 (fun db => db.taxa) (fun _ _ _ => rfl),
      FrameRel_proj f5 (fun db => db.taxa) (fun _ _ _ => rfl),
      FrameRel_proj f4 (fun db => db.taxa) (fun _ _ _ => rfl),
      FrameRel_proj f3 (fun db => db.taxa) (fun _ _ _ => rfl),
      FrameRel_proj f2 (fun db => db.taxa) (fun _ _ _ => rfl), hdb1]
  obtain ⟨f7, taxaInv7⟩ :=
    import_taxa_frame (pks_mono' etaxa6 le16 hwf.taxa_lt) h7
  have le7 := FrameRel_le (fun _ _ _ => rfl) f7
  have le17 : db.nextPk ≤ s7.db.nextPk := le_trans le16 le7
  have etl7 : s7.db.taxa_lists = db.taxa_lists := by
    rw [FrameRel_proj f7 (fun db => db.taxa_lists) (fun _ _ _ => rfl),
      FrameRel_proj f6 (fun db => db.taxa_lists) (fun _ _ _ => rfl),
      FrameRel_proj f5 (fun db => db.taxa_lists) (fun _ _ _ => rfl),
      FrameRel_proj f4 (fun db => db.taxa_lists) (fun _ _ _ => rfl),
      FrameRel_proj f3 (fun db => db.taxa_lists) (fun _ _ _ => rfl),
      FrameRel_proj f2 (fun db => db.taxa_lists) (fun _ _ _ => rfl), hdb1]
  obtain ⟨f8, tlInv8⟩ :=
    import_taxa_lists_frame (pks_mono' etl7 le17 hwf.taxa_lists_lt) h8
  have le8 := FrameRel_le (fun _ _ _ => rfl) f8
  have le18 : db.nextPk ≤ s8.db.nextPk := le_trans le17 le8
  have etag8 : s8.db.tags = db.tags := by
    rw [FrameRel_proj f8 (fun db => db.tags) (fun _ _ _ => rfl),
      FrameRel_proj f7 (fun db => db.tags) (fun _ _ _ => rfl),
      FrameRel_proj f6 (fun db => db.tags) (fun _ _ _ => rfl),
      FrameRel_proj f5 (fun db => db.tags) (fun _ _ _ => rfl),
      FrameRel_proj f4 (fun db => db.tags) (fun _ _ _ => rfl),
      FrameRel_proj f3 (fun db => db.tags) (fun _ _ _ => rfl),
      FrameRel_proj f2 (fun db => db.tags) (fun _ _ _ => rfl), hdb1]
  obtain ⟨f9, tagInv9⟩ :=
    import_tags_frame (pks_mono' etag8 le18 hwf.tags_lt) h9
  have le9 := FrameRel_le (fun _ _ _ => rfl) f9
  have le19 : db.nextPk ≤ s9.db.nextPk := le_trans le18 le9
  have ecol9 : s9.db.collections = db.collections := by
    rw [FrameRel_proj f9 (fun db => db.collections) (fun _ _ _ => rfl),
      FrameRel_proj f8 (fun db => db.collections) (fun _ _ _ => rfl),
      FrameRel_proj f7 (fun db => db.collections) (fun _ _ _ => rfl),
      FrameRel_proj f6 (fun db => db.collections) (fun _ _ _ => rfl),
      FrameRel_proj f5 (fun db => db.collections) (fun _ _ _ => rfl),
      FrameRel_proj f4 (fun db => db.collections) (fun _ _ _ => rfl),
      FrameRel_proj f3 (fun db => db.collections) (fun _ _ _ => rfl),
      FrameRel_proj f2 (fun db => db.collections) (fun _ _ _ => rfl), hdb1]
  have f10 := images_block_frame (pks_mono' ecol9 le19 hwf.collections_lt) h10
  have f11 := ml_block_frame h11
  have le10 := FrameRel_le (fun _ _ _ => rfl) f10
  have le11 := FrameRel_le (fun _ _ _ => rfl) f11
  have le111 : db.nextPk ≤ s11.db.nextPk := le_trans le19 (le_trans le10 le11)
  have esvc11 : s11.db.processing_services = db.processing_services := by
    rw [FrameRel_proj f11 (fun db => db.processing_services) (fun _ _ _ => rfl),
      FrameRel_proj f10 (fun db => db.processing_services) (fun _ _ _ => rfl),
      FrameRel_proj f9 (fun db => db.processing_services) (fun _ _ _ => rfl),
      FrameRel_proj f8 (fun db => db.processing_services) (fun _ _ _ => rfl),
      FrameRel_proj f7 (fun db => db.processing_services) (fun _ _ _ => rfl),
      FrameRel_proj f6 (fun db => db.processing_services) (fun _ _ _ => rfl),
      FrameRel_proj f5 (fun db => db.processing_services) (fun _ _ _ => rfl),
      FrameRel_proj f4 (fun db => db.processing_services) (fun _ _ _ => rfl),
      FrameRel_proj f3 (fun db => db.processing_services) (fun _ _ _ => rfl),
      FrameRel_proj f2 (fun db => db.processing_services) (fun _ _ _ => rfl), hdb1]
  obtain ⟨f12, svcInv12⟩ :=
    import_processing_services_frame (pks_mono' esvc11 le111 hwf.processing_services_lt) h12
  have le12 := FrameRel_le (fun _ _ _ => rfl) f12
  have le112 : db.nextPk ≤ s12.db.nextPk := le_trans le111 le12
  have epl12 : s12.db.pipelines = db.pipelines := by
    rw [FrameRel_proj f12 (fun db => db.pipelines) (fun _ _ _ => rfl),
      FrameRel_proj f11 (fun db => db.pipelines) (fun _ _ _ => rfl),
      FrameRel_proj f10 (fun db => db.pipelines) (fun _ _ _ => rfl),
      FrameRel_proj f9 (fun db => db.pipelines) (fun _ _ _ => rfl),
      FrameRel_proj f8 (fun db => db.pipelines) (fun _ _ _ => rfl),
      FrameRel_proj f7 (fun db => db.pipelines) (fun _ _ _ => rfl),
      FrameRel_proj f6 (fun db => db.pipelines) (fun _ _ _ => rfl),
      FrameRel_proj f5 (fun db => db.pipelines) (fun _ _ _ => rfl),
      FrameRel_proj f4 (fun db => db.pipelines) (fun _ _ _ => rfl),
      FrameRel_proj f3 (fun db => db.pipelines) (fun _ _ _ => rfl),
      FrameRel_proj f2 (fun db => db.pipelines) (fun _ _ _ => rfl), hdb1]
  obtain ⟨f13, plInv13⟩ :=
    import_pipelines_frame (pks_mono' epl12 le112 hwf.pipelines_lt) h13
  have f14 := import_pipeline_configs_frame h14
  have empipe12 : s12.maps.pipeline = [] := by
    rw [FrameRel_mproj f12 (fun m => m.pipeline) (fun _ _ => rfl),
      FrameRel_mproj f11 (fun m => m.pipeline) (fun _ _ => rfl),
      FrameRel_mproj f10 (fun m => m.pipeline) (fun _ _ => rfl),
      FrameRel_mproj f9 (fun m => m.pipeline) (fun _ _ => rfl),
      FrameRel_mproj f8 (fun m => m.pipeline) (fun _ _ => rfl),
      FrameRel_mproj f7 (fun m => m.pipeline) (fun _ _ => rfl),
      FrameRel_mproj f6 (fun m => m.pipeline) (fun _ _ => rfl),
      FrameRel_mproj f5 (fun m => m.pipeline) (fun _ _ => rfl),
      FrameRel_mproj f4 (fun m => m.pipeline) (fun _ _ => rfl),
      FrameRel_mproj f3 (fun m => m.pipeline) (fun _ _ => rfl),
      FrameRel_mproj f2 (fun m => m.pipeline) (fun _ _ => rfl), hmaps1]
    rfl
  have regs12 := import_processing_services_registers h12
  have regs13 := import_pipelines_registers h13
  have hm13 : ∀ e ∈ s13.maps.pipeline, 0 < e.2 := by
    refine import_pipelines_pos (fun e he => ?_) ?_ ?_ h13
    · rw [empipe12] at he
      cases he
    · intro r hr
      rw [epl12] at hr
      exact ⟨hwf.pipelines_pos r hr, lt_of_lt_of_le (hwf.pipelines_lt r hr) le112⟩
    · exact lt_of_lt_of_le hwf.nextPk_pos le112
  have cregs := import_pipeline_configs_registers h14
  have essvc : s'.maps.processing_service = s12.maps.processing_service := by
    rw [FrameRel_mproj f14 (fun m => m.processing_service) (fun _ _ => rfl),
      FrameRel_mproj f13 (fun m => m.processing_service) (fun _ _ => rfl)]
  have epm : s'.maps.pipeline = s13.maps.pipeline :=
    FrameRel_mproj f14 (fun m => m.pipeline) (fun _ _ => rfl)
  refine ⟨?_, ?_, ?_, ?_⟩
  · intro x hx
    rw [essvc]
    exact regs12 x hx
  · intro x hx
    rw [epm]
    exact regs13 x hx
  · intro x hx pid hpid hpmem
    obtain ⟨p, hpmem2, hpe⟩ := List.mem_map.mp hpmem
    have hmem13 : pid ∈ s13.maps.pipeline.map Prod.fst := hpe ▸ regs13 p hpmem2
    apply cregs x hx
    rw [hpid, epm]
    exact truthy_lookup_of_mem_pos hmem13 hm13
  · intro hml r hr
    have hcond : (!options.skip_ml_data && !options.skip_images) = false := by
      rw [hml]
      rfl
    rw [hcond] at h11
    simp only [Bool.false_eq_true, if_false, Except.ok.injEq] at h11
    subst h11
    have ealg12 : s12.maps.algorithm = [] := by
      rw [FrameRel_mproj f12 (fun m => m.algorithm) (fun _ _ => rfl),
        FrameRel_mproj f10 (fun m => m.algorithm) (fun _ _ => rfl),
        FrameRel_mproj f9 (fun m => m.algorithm) (fun _ _ => rfl),
        FrameRel_mproj f8 (fun m => m.algorithm) (fun _ _ => rfl),
        FrameRel_mproj f7 (fun m => m.algorithm) (fun _ _ => rfl),
        FrameRel_mproj f6 (fun m => m.algorithm) (fun _ _ => rfl),
        FrameRel_mproj f5 (fun m => m.algorithm) (fun _ _ => rfl),
        FrameRel_mproj f4 (fun m => m.algorithm) (fun _ _ => rfl),
        FrameRel_mproj f3 (fun m => m.algorithm) (fun _ _ => rfl),
        FrameRel_mproj f2 (fun m => m.algorithm) (fun _ _ => rfl), hmaps1]
      rfl
    have noalg := import_pipelines_no_algorithms ealg12 h13
    have epipe' : s'.db.pipelines = s13.db.pipelines :=
      FrameRel_proj f14 (fun db => db.pipelines) (fun _ _ _ => rfl)
    rw [epipe'] at hr
    rcases noalg r hr with hmem | halg
    · rw [epl12] at hmem
      exact Or.inl hmem
    · exact Or.inr halg

def c9options : Options :=
  { project_name := none, skip_images := false, skip_ml_data := true }

def c9doc : Document :=
  { emptyDoc with
    processing_services := [{ id := 50, name := "svc", endpoint_url := "http" }],
    pipelines := [{ id := 60, name := "pl", slug := none, version := 1,
                    default_config := none, algorithm_ids := [70] }],
    pipeline_configs := [{ id := 80, pipeline_id := some 60, enabled := none,
                           config := none }] }

def c9state : ImportState :=
  match runImport c9doc 7 c9options none emptyDb with
  | .ok s => s
  | .error _ => ⟨emptyDb, emptyMaps, none⟩

/-- Witness for C9: a skip-ml run over a document with one service, one
pipeline (declaring an algorithm link) and one config; all three are
registered and the created pipeline row has no algorithms. -/
theorem c9_services_pipelines_configs_witness :
    emptyDb.WF ∧
    c9state.db.pipelines.length = 1 ∧
    ((∀ x ∈ c9doc.processing_services, x.id ∈ c9state.maps.processing_service.map Prod.fst) ∧
     (∀ x ∈ c9doc.pipelines, x.id ∈ c9state.maps.pipeline.map Prod.fst) ∧
     (∀ x ∈ c9doc.pipeline_configs, ∀ pid, x.pipeline_id = some pid →
       pid ∈ c9doc.pipelines.map PipelineData.id →
       x.id ∈ c9state.maps.pipeline_config.map Prod.fst) ∧
     (c9options.skip_ml_data = true →
       ∀ r ∈ c9state.db.pipelines, r ∈ emptyDb.pipelines ∨ r.algorithms = [])) :=
  ⟨emptyDb_wf, rfl,
    c9_services_pipelines_configs c9doc 7 c9options none emptyDb c9state emptyDb_wf rfl⟩

/-! ### C2 -/

/-- Distinct keys of an id map whose registered pks are pairwise distinct
resolve to distinct pks. -/
theorem lookupId_ne_of_ne {M : List (DocId × Pk)} {i j : DocId} {p q : Pk}
    (hN : (M.map Prod.snd).Nodup) (hij : i ≠ j)
    (hp : lookupId M (some i) = some p) (hq : lookupId M (some j) = some q) : p ≠ q := by
  unfold lookupId at hp hq
  simp only at hp hq
  rcases hfi : M.find? (fun kv => kv.1 == i) with _ | e <;> rw [hfi] at hp <;> simp at hp
  rcases hfj : M.find? (fun kv => kv.1 == j) with _ | f <;> rw [hfj] at hq <;> simp at hq
  intro hpq
  have hei : e.1 = i := by simpa using List.find?_some hfi
  have hfjj : f.1 = j := by simpa using List.find?_some hfj
  have hef : e = f := List.inj_on_of_nodup_map hN (List.mem_of_find?_eq_some hfi)
    (List.mem_of_find?_eq_some hfj) (by rw [hp, hq]; exact hpq)
  exact hij (by rw [← hei, hef, hfjj])

/-- Setting the parent edge of the rows matching `taxonPk` to a value that is
not `some taxonPk` keeps every row free of self references. -/
theorem selfFree_set_parent {taxa : List TaxonRow} {taxonPk : Pk} {v : Option Pk}
    (hv : ∀ p, v = some p → p ≠ taxonPk)
    (hall : ∀ r ∈ taxa, r.parent_id ≠ some r.pk ∧ r.synonym_of_id ≠ some r.pk) :
    ∀ r ∈ taxa.map (fun t => if t.pk == taxonPk then { t with parent_id := v } else t),
      r.parent_id ≠ some r.pk ∧ r.synonym_of_id ≠ some r.pk := by
  intro r hr
  obtain ⟨t, ht, rfl⟩ := List.mem_map.mp hr
  by_cases hpk : (t.pk == taxonPk) = true
  · rw [if_pos hpk]
    have hpkeq : t.pk = taxonPk := by simpa using hpk
    refine ⟨?_, (hall t ht).2⟩
    intro hvp
    exact hv t.pk hvp hpkeq
  · rw [if_neg hpk]
    exact hall t ht

/-- The synonym analogue of `selfFree_set_parent`. -/
theorem selfFree_set_synonym {taxa : List TaxonRow} {taxonPk : Pk} {v : Option Pk}
    (hv : ∀ p, v = some p → p ≠ taxonPk)
    (hall : ∀ r ∈ taxa, r.parent_id ≠ some r.pk ∧ r.synonym_of_id ≠ some r.pk) :
    ∀ r ∈ taxa.map (fun t => if t.pk == taxonPk then { t with synonym_of_id := v } else t),
      r.parent_id ≠ some r.pk ∧ r.synonym_of_id ≠ some r.pk := by
  intro r hr
  obtain ⟨t, ht, rfl⟩ := List.mem_map.mp hr
  by_cases hpk : (t.pk == taxonPk) = true
  · rw [if_pos hpk]
    have hpkeq : t.pk = taxonPk := by simpa using hpk
    refine ⟨(hall t ht).1, ?_⟩
    intro hvp
    exact hv t.pk hvp hpkeq
  · rw [if_neg hpk]
    exact hall t ht

/-- A pass-2 step whose resolved parent and synonym differ from the record's
own pk keeps the store free of self references. -/
theorem pass2Apply_selfFree {M : List (DocId × Pk)} {x : TaxonData} {taxonPk : Pk}
    {taxa : List TaxonRow}
    (hpar : ∀ p, lookupId M x.parent_id = some p → p ≠ taxonPk)
    (hsyn : ∀ p, lookupId M x.synonym_of_id = some p → p ≠ taxonPk)
    (hall : ∀ r ∈ taxa, r.parent_id ≠ some r.pk ∧ r.synonym_of_id ≠ some r.pk) :
    ∀ r ∈ pass2Apply M x taxonPk taxa,
      r.parent_id ≠ some r.pk ∧ r.synonym_of_id ≠ some r.pk := by
  have hAP : ∀ r ∈ (if truthy x.parent_id then
      if truthy (lookupId M x.parent_id) then
        taxa.map (fun t => if t.pk == taxonPk then
          { t with parent_id := lookupId M x.parent_id } else t)
      else taxa
    else taxa), r.parent_id ≠ some r.pk ∧ r.synonym_of_id ≠ some r.pk := by
    by_cases h1 : truthy x.parent_id
    · rw [if_pos h1]
      by_cases h2 : truthy (lookupId M x.parent_id)
      · rw [if_pos h2]
        exact selfFree_set_parent hpar hall
      · rw [if_neg h2]
        exact hall
    · rw [if_neg h1]
      exact hall
  unfold pass2Apply
  simp only
  by_cases h1 : truthy x.synonym_of_id
  · rw [if_pos h1]
    by_cases h2 : truthy (lookupId M x.synonym_of_id)
    · rw [if_pos h2]
      exact selfFree_set_synonym hsyn hAP
    · rw [if_neg h2]
      exact hAP
  · rw [if_neg h1]
    exact hAP

/-- When all document taxa names are new and pairwise distinct, the first
taxa pass always takes the create branch: one fresh row per record with no
parent or synonym set, one fresh registered pk per record, and the
registered pks pairwise distinct. -/
theorem import_taxa_pass1_new {project : Pk} :
    ∀ (l : List TaxonData) (acc : List (DocId × Pk)) {acc' : List (DocId × Pk)}
      {s s' : ImportState},
      (∀ r ∈ s.db.taxa, r.pk < s.db.nextPk) →
      (l.map TaxonData.name).Nodup →
      (∀ x ∈ l, ∀ r ∈ s.db.taxa, r.name ≠ x.name) →
      import_taxa_pass1 project l acc s = .ok (acc', s') →
      ∃ pairs : List (DocId × Pk),
        acc' = pairs.reverse ++ acc ∧
        s'.maps.taxon = pairs.reverse ++ s.maps.taxon ∧
        (∀ e ∈ pairs, s.db.nextPk ≤ e.2) ∧
        (pairs.map Prod.snd).Nodup ∧
        (∀ r ∈ s'.db.taxa, r ∈ s.db.taxa ∨
          (r.parent_id = none ∧ r.synonym_of_id = none)) ∧
        (∀ r ∈ s'.db.taxa, r.pk < s'.db.nextPk) ∧
        s.db.nextPk ≤ s'.db.nextPk
  | [], acc, acc', s, s', hfresh, hnames, hdisj, h => by
    obtain ⟨rfl, rfl⟩ : acc = acc' ∧ s = s' := by simpa [import_taxa_pass1] using h
    exact ⟨[], by simp, by simp, by simp, by simp,
      fun r hr => Or.inl hr, hfresh, le_refl _⟩
  | x :: l, acc, acc', s, s', hfresh, hnames, hdisj, h => by
    unfold import_taxa_pass1 at h
    split at h
    · simp at h
    · rename_i kv s2 heq
      have hfind : s.db.taxa.find? (fun r => r.name == x.name) = none := by
        rw [List.find?_eq_none]
        intro r hr
        simpa using hdisj x (by simp) r hr
      obtain ⟨hkv1, hmapsB, hcase⟩ :=
        import_taxa_pass1_body_ok (fun r hr => Nat.ne_of_lt (hfresh r hr)) heq
      rcases hcase with ⟨t, hft, _, _⟩ | ⟨_, hkv2, hdbB⟩
      · rw [hft] at hfind
        simp at hfind
      · have hs2n : s2.db.nextPk = s.db.nextPk + 1 := by rw [hdbB]
        have hfresh2 : ∀ r ∈ s2.db.taxa, r.pk < s2.db.nextPk := by
          rw [hdbB]
          intro r hr
          rcases List.mem_append.mp hr with hr | hr
          · exact Nat.lt_succ_of_lt (hfresh r hr)
          · rw [List.mem_singleton] at hr
            subst hr
            exact Nat.lt_succ_self _
        have hnames2 : (l.map TaxonData.name).Nodup := (List.nodup_cons.mp hnames).2
        have hxname : x.name ∉ l.map TaxonData.name := (List.nodup_cons.mp hnames).1
        have hdisj2 : ∀ y ∈ l, ∀ r ∈ s2.db.taxa, r.name ≠ y.name := by
          intro y hy r hr
          rw [hdbB] at hr
          rcases List.mem_append.mp hr with hr | hr
          · exact hdisj y (by simp [hy]) r hr
          · rw [List.mem_singleton] at hr
            subst hr
            intro hcontra
            exact hxname (List.mem_map.mpr ⟨y, hy, hcontra.symm⟩)
        obtain ⟨pairs, hacc, hmt, hge, hsnd, hrows, hfresh', hle⟩ :=
          import_taxa_pass1_new l (kv :: acc) hfresh2 hnames2 hdisj2 h
        refine ⟨kv :: pairs, ?_, ?_, ?_, ?_, ?_, hfresh', ?_⟩
        · rw [hacc]
          simp [List.reverse_cons]
        · rw [hmt, hmapsB]
          simp [List.reverse_cons, ← hkv1]
        · intro e he
          rcases List.mem_cons.mp he with rfl | he
          · rw [hkv2]
          · have h2 := hge e he
            rw [hs2n] at h2
            exact le_trans (Nat.le_succ _) h2
        · rw [List.map_cons, List.nodup_cons]
          refine ⟨?_, hsnd⟩
          intro hmem
          obtain ⟨e, he, hee⟩ := List.mem_map.mp hmem
          have h1 := hs2n ▸ hge e he
          rw [hee, hkv2] at h1
          exact Nat.not_succ_le_self _ h1
        · intro r hr
          rcases hrows r hr with hr2 | hnew
          · rw [hdbB] at hr2
            rcases List.mem_append.mp hr2 with hr2 | hr2
            · exact Or.inl hr2
            · rw [List.mem_singleton] at hr2
              subst hr2
              exact Or.inr ⟨rfl, rfl⟩
          · exact Or.inr hnew
        · have h2 := hle
          rw [hs2n] at h2
          exact le_trans (Nat.le_succ _) h2

/-- Over a store whose taxa carry no self references and an empty taxon id
map, an import of taxa with fresh pairwise-distinct names where no record
declares itself as its own parent or synonym leaves no self-referencing
taxon row. -/
theorem import_taxa_selfFree {taxa_data : List TaxonData} {project : Pk} {s s' : ImportState}
    (hfresh : ∀ r ∈ s.db.taxa, r.pk < s.db.nextPk)
    (hmaps : s.maps.taxon = [])
    (hnames : (taxa_data.map TaxonData.name).Nodup)
    (hdisj : ∀ x ∈ taxa_data, ∀ r ∈ s.db.taxa, r.name ≠ x.name)
    (hself : ∀ x ∈ taxa_data, x.parent_id ≠ some x.id ∧ x.synonym_of_id ≠ some x.id)
    (hold : ∀ r ∈ s.db.taxa, r.parent_id ≠ some r.pk ∧ r.synonym_of_id ≠ some r.pk)
    (h : import_taxa taxa_data project s = .ok s') :
    ∀ r ∈ s'.db.taxa, r.parent_id ≠ some r.pk ∧ r.synonym_of_id ≠ some r.pk := by
  unfold import_taxa at h
  split at h
  · simp at h
  · rename_i res tb s1 heq
    obtain ⟨pairs, hacc, hmt, hge, hsnd, hrows, hfresh1, hle⟩ :=
      import_taxa_pass1_new taxa_data [] hfresh hnames hdisj heq
    have htb : tb = pairs.reverse := by rw [hacc, List.append_nil]
    have hmt1 : s1.maps.taxon = pairs.reverse := by rw [hmt, hmaps, List.append_nil]
    have hsndrev : (pairs.reverse.map Prod.snd).Nodup := by
      rw [List.map_reverse]
      exact List.nodup_reverse.mpr hsnd
    have hsf1 : ∀ r ∈ s1.db.taxa, r.parent_id ≠ some r.pk ∧ r.synonym_of_id ≠ some r.pk := by
      intro r hr
      rcases hrows r hr with hr | ⟨hpn, hsn⟩
      · exact hold r hr
      · rw [hpn, hsn]
        exact ⟨fun hc => Option.noConfusion hc, fun hc => Option.noConfusion hc⟩
    refine (importLoop_inv_rel
      (fun t => t.maps.taxon = pairs.reverse ∧
        ∀ r ∈ t.db.taxa, r.parent_id ≠ some r.pk ∧ r.synonym_of_id ≠ some r.pk)
      (fun _ _ => True) (fun _ => trivial) (fun _ _ _ _ _ => trivial) taxa_data ?_
      s1 s' ⟨hmt1, hsf1⟩ h).2.2
    intro x hx t t' hI hb
    obtain ⟨hImt, hIsf⟩ := hI
    obtain ⟨taxonPk, hlk, hdb, hm⟩ := import_taxa_pass2_body_ok hb
    rw [htb] at hlk
    refine ⟨trivial, ?_, ?_⟩
    · rw [hm]
      exact hImt
    · intro r hr
      rw [hdb] at hr
      have hr2 : r ∈ pass2Apply pairs.reverse x taxonPk t.db.taxa := by
        rw [← hImt]
        exact hr
      refine pass2Apply_selfFree ?_ ?_ hIsf r hr2
      · intro p hp
        cases hxp : x.parent_id with
        | none =>
          rw [hxp] at hp
          simp [lookupId] at hp
        | some j =>
          rw [hxp] at hp
          have hjx : j ≠ x.id := fun hc => (hself x hx).1 (by rw [hxp, hc])
          exact lookupId_ne_of_ne hsndrev hjx hp hlk
      · intro p hp
        cases hxp : x.synonym_of_id with
        | none =>
          rw [hxp] at hp
          simp [lookupId] at hp
        | some j =>
          rw [hxp] at hp
          have hjx : j ≠ x.id := fun hc => (hself x hx).2 (by rw [hxp, hc])
          exact lookupId_ne_of_ne hsndrev hjx hp hlk

/-- C2 (amended): the second taxa pass has no self-reference guard, so
identity remapping can wire a dedup-collapsed row to itself (see the
counterexample); but when the document's taxa names are pairwise distinct and
all new to the store, and no document taxon declares itself as its own parent
or synonym, an import into a store without self-referencing taxa leaves no
taxon row whose parent or synonym edge points at the row itself. -/
theorem c2_no_self_parent (d : Document) (user : Pk) (options : Options)
    (w : Option Nat) (db : Db) (s' : ImportState) (hwf : db.WF)
    (hnames : (d.taxa.map TaxonData.name).Nodup)
    (hdisj : ∀ x ∈ d.taxa, ∀ r ∈ db.taxa, r.name ≠ x.name)
    (hself : ∀ x ∈ d.taxa, x.parent_id ≠ some x.id ∧ x.synonym_of_id ≠ some x.id)
    (hold : ∀ r ∈ db.taxa, r.parent_id ≠ some r.pk ∧ r.synonym_of_id ≠ some r.pk)
    (h : runImport d user options w db = .ok s') :
    ∀ r ∈ s'.db.taxa, r.parent_id ≠ some r.pk ∧ r.synonym_of_id ≠ some r.pk := by
  obtain ⟨pk, s1, s2, s3, s4, s5, s6, s7, s8, s9, s10, s11, s12, s13,
    hp, h2, h3, h4, h5, h6, h7, h8, h9, h10, h11, h12, h13, h14⟩ := runImport_stages h
  obtain ⟨hpk, hdb1, hmaps1⟩ :=
    import_project_ok (fun r hr => Nat.ne_of_lt (hwf.projects_lt r hr)) hp
  have f2 := import_sites_frame h2
  have f3 := import_devices_frame h3
  have f4 := import_storage_sources_frame h4
  have f5 := import_deployments_frame h5
  have f6 := import_events_frame h6
  have le1 : db.nextPk ≤ s1.db.nextPk := by rw [hdb1]; exact Nat.le_succ _
  have le2 := FrameRel_le (fun _ _ _ => rfl) f2
  have le3 := FrameRel_le (fun _ _ _ => rfl) f3
  have le4 := FrameRel_le (fun _ _ _ => rfl) f4
  have le5 := FrameRel_le (fun _ _ _ => rfl) f5
  have le6 := FrameRel_le (fun _ _ _ => rfl) f6
  have le16 : db.nextPk ≤ s6.db.nextPk :=
    le_trans le1 (le_trans le2 (le_trans le3 (le_trans le4 (le_trans le5 le6))))
  have etaxa6 : s6.db.taxa = db.taxa := by
    rw [FrameRel_proj f6 (fun db => db.taxa) (fun _ _ _ => rfl),
      FrameRel_proj f5 (fun db => db.taxa) (fun _ _ _ => rfl),
      FrameRel_proj f4 (fun db => db.taxa) (fun _ _ _ => rfl),
      FrameRel_proj f3 (fun db => db.taxa) (fun _ _ _ => rfl),
      FrameRel_proj f2 (fun db => db.taxa) (fun _ _ _ => rfl), hdb1]
  have emt6 : s6.maps.taxon = [] := by
    rw [FrameRel_mproj f6 (fun m => m.taxon) (fun _ _ => rfl),
      FrameRel_mproj f5 (fun m => m.taxon) (fun _ _ => rfl),
      FrameRel_mproj f4 (fun m => m.taxon) (fun _ _ => rfl),
      FrameRel_mproj f3 (fun m => m.taxon) (fun _ _ => rfl),
      FrameRel_mproj f2 (fun m => m.taxon) (fun _ _ => rfl), hmaps1]
    rfl
  have hsf7 := import_taxa_selfFree (pks_mono' etaxa6 le16 hwf.taxa_lt) emt6 hnames
    (fun x hx r hr => hdisj x hx r (etaxa6 ▸ hr))
    hself (fun r hr => hold r (etaxa6 ▸ hr)) h7
  obtain ⟨f7, taxaInv7⟩ :=
    import_taxa_frame (pks_mono' etaxa6 le16 hwf.taxa_lt) h7
  have le7 := FrameRel_le (fun _ _ _ => rfl) f7
  have le17 : db.nextPk ≤ s7.db.nextPk := le_trans le16 le7
  have etl7 : s7.db.taxa_lists = db.taxa_lists := by
    rw [FrameRel_proj f7 (fun db => db.taxa_lists) (fun _ _ _ => rfl),
      FrameRel_proj f6 (fun db => db.taxa_lists) (fun _ _ _ => rfl),
      FrameRel_proj f5 (fun db => db.taxa_lists) (fun _ _ _ => rfl),
      FrameRel_proj f4 (fun db => db.taxa_lists) (fun _ _ _ => rfl),
      FrameRel_proj f3 (fun db => db.taxa_lists) (fun _ _ _ => rfl),
      FrameRel_proj f2 (fun db => db.taxa_lists) (fun _ _ _ => rfl), hdb1]
  obtain ⟨f8, tlInv8⟩ :=
    import_taxa_lists_frame (pks_mono' etl7 le17 hwf.taxa_lists_lt) h8
  have le8 := FrameRel_le (fun _ _ _ => rfl) f8
  have le18 : db.nextPk ≤ s8.db.nextPk := le_trans le17 le8
  have etag8 : s8.db.tags = db.tags := by
    rw [FrameRel_proj f8 (fun db => db.tags) (fun _ _ _ => rfl),
      FrameRel_proj f7 (fun db => db.tags) (fun _ _ _ => rfl),
      FrameRel_proj f6 (fun db => db.tags) (fun _ _ _ => rfl),
      FrameRel_proj f5 (fun db => db.tags) (fun _ _ _ => rfl),
      FrameRel_proj f4 (fun db => db.tags) (fun _ _ _ => rfl),
      FrameRel_proj f3 (fun db => db.tags) (fun _ _ _ => rfl),
      FrameRel_proj f2 (fun db => db.tags) (fun _ _ _ => rfl), hdb1]
  obtain ⟨f9, tagInv9⟩ :=
    import_tags_frame (pks_mono' etag8 le18 hwf.tags_lt) h9
  have le9 := FrameRel_le (fun _ _ _ => rfl) f9
  have le19 : db.nextPk ≤ s9.db.nextPk := le_trans le18 le9
  have ecol9 : s9.db.collections = db.collections := by
    rw [FrameRel_proj f9 (fun db => db.collections) (fun _ _ _ => rfl),
      FrameRel_proj f8 (fun db => db.collections) (fun _ _ _ => rfl),
      FrameRel_proj f7 (fun db => db.collections) (fun _ _ _ => rfl),
      FrameRel_proj f6 (fun db => db.collections) (fun _ _ _ => rfl),
      FrameRel_proj f5 (fun db => db.collections) (fun _ _ _ => rfl),
      FrameRel_proj f4 (fun db => db.collections) (fun _ _ _ => rfl),
      FrameRel_proj f3 (fun db => db.collections) (fun _ _ _ => rfl),
      FrameRel_proj f2 (fun db => db.collections) (fun _ _ _ => rfl), hdb1]
  have f10 := images_block_frame (pks_mono' ecol9 le19 hwf.collections_lt) h10
  have f11 := ml_block_frame h11
  have le10 := FrameRel_le (fun _ _ _ => rfl) f10
  have le11 := FrameRel_le (fun _ _ _ => rfl) f11
  have le111 : db.nextPk ≤ s11.db.nextPk := le_trans le19 (le_trans le10 le11)
  have esvc11 : s11.db.processing_services = db.processing_services := by
    rw [FrameRel_proj f11 (fun db => db.processing_services) (fun _ _ _ => rfl),
      FrameRel_proj f10 (fun db => db.processing_services) (fun _ _ _ => rfl),
      FrameRel_proj f9 (fun db => db.processing_services) (fun _ _ _ => rfl),
      FrameRel_proj f8 (fun db => db.processing_services) (fun _ _ _ => rfl),
      FrameRel_proj f7 (fun db => db.processing_services) (fun _ _ _ => rfl),
      FrameRel_proj f6 (fun db => db.processing_services) (fun _ _ _ => rfl),
      FrameRel_proj f5 (fun db => db.processing_services) (fun _ _ _ => rfl),
      FrameRel_proj f4 (fun db => db.processing_services) (fun _ _ _ => rfl),
      FrameRel_proj f3 (fun db => db.processing_services) (fun _ _ _ => rfl),
      FrameRel_proj f2 (fun db => db.processing_services) (fun _ _ _ => rfl), hdb1]
  obtain ⟨f12, svcInv12⟩ :=
    import_processing_services_frame (pks_mono' esvc11 le111 hwf.processing_services_lt) h12
  have le12 := FrameRel_le (fun _ _ _ => rfl) f12
  have le112 : db.nextPk ≤ s12.db.nextPk := le_trans le111 le12
  have epl12 : s12.db.pipelines = db.pipelines := by
    rw [FrameRel_proj f12 (fun db => db.pipelines) (fun _ _ _ => rfl),
      FrameRel_proj f11 (fun db => db.pipelines) (fun _ _ _ => rfl),
      FrameRel_proj f10 (fun db => db.pipelines) (fun _ _ _ => rfl),
      FrameRel_proj f9 (fun db => db.pipelines) (fun _ _ _ => rfl),
      FrameRel_proj f8 (fun db => db.pipelines) (fun _ _ _ => rfl),
      FrameRel_proj f7 (fun db => db.pipelines) (fun _ _ _ => rfl),
      FrameRel_proj f6 (fun db => db.pipelines) (fun _ _ _ => rfl),
      FrameRel_proj f5 (fun db => db.pipelines) (fun _ _ _ => rfl),
      FrameRel_proj f4 (fun db => db.pipelines) (fun _ _ _ => rfl),
      FrameRel_proj f3 (fun db => db.pipelines) (fun _ _ _ => rfl),
      FrameRel_proj f2 (fun db => db.pipelines) (fun _ _ _ => rfl), hdb1]
  obtain ⟨f13, plInv13⟩ :=
    import_pipelines_frame (pks_mono' epl12 le112 hwf.pipelines_lt) h13
  have f14 := import_pipeline_configs_frame h14
  have etaxaF : s'.db.taxa = s7.db.taxa := by
    rw [FrameRel_proj f14 (fun db => db.taxa) (fun _ _ _ => rfl),
      FrameRel_proj f13 (fun db => db.taxa) (fun _ _ _ => rfl),
      FrameRel_proj f12 (fun db => db.taxa) (fun _ _ _ => rfl),
      FrameRel_proj f11 (fun db => db.taxa) (fun _ _ _ => rfl),
      FrameRel_proj f10 (fun db => db.taxa) (fun _ _ _ => rfl),
      FrameRel_proj f9 (fun db => db.taxa) (fun _ _ _ => rfl),
      FrameRel_proj f8 (fun db => db.taxa) (fun _ _ _ => rfl)]
  intro r hr
  rw [etaxaF] at hr
  exact hsf7 r hr

def c2doc : Document :=
  { emptyDoc with
    taxa := [{ id := 1, name := "A", rank := none, description := none,
               ordering := none, parent_id := none, synonym_of_id := none },
             { id := 2, name := "A", rank := none, description := none,
               ordering := none, parent_id := some 1, synonym_of_id := none }] }

def c2state : ImportState :=
  match runImport c2doc 7 defaultOptions none emptyDb with
  | .ok s => s
  | .error _ => ⟨emptyDb, emptyMaps, none⟩

/-- C2 counterexample: two document taxa share the name "A"; dedup-by-name
maps the second onto the first's row and the second pass, which has no guard,
wires that row's parent edge to the row itself. -/
theorem c2_self_parent_counterexample :
    c2state.db.taxa.any (fun r => r.parent_id == some r.pk) = true := by
  rfl

def c2wdoc : Document :=
  { emptyDoc with
    taxa := [{ id := 1, name := "A", rank := none, description := none,
               ordering := none, parent_id := none, synonym_of_id := none },
             { id := 2, name := "B", rank := none, description := none,
               ordering := none, parent_id := some 1, synonym_of_id := none }] }

def c2wstate : ImportState :=
  match runImport c2wdoc 7 defaultOptions none emptyDb with
  | .ok s => s
  | .error _ => ⟨emptyDb, emptyMaps, none⟩

/-- Witness for the amended C2 at a concrete run with two fresh distinctly
named taxa and one parent edge. -/
theorem c2_no_self_parent_witness :
    (∀ r ∈ c2wstate.db.taxa, r.parent_id ≠ some r.pk ∧ r.synonym_of_id ≠ some r.pk) ∧
    c2wstate.db.taxa.length = 2 :=
  ⟨c2_no_self_parent c2wdoc 7 defaultOptions none emptyDb c2wstate emptyDb_wf
    (by decide)
    (by intro x hx r hr; simp [emptyDb] at hr)
    (by decide)
    (by intro r hr; simp [emptyDb] at hr)
    rfl, rfl⟩

/-! ### Anatomy of a successful run: stage equations, project delta, frames -/

/-- A successful run over a sane store decomposes into its stages, the new
project pk is the store's pk counter, and each later stage satisfies its
frame relation. -/
theorem runImport_anatomy {d : Document} {user : Pk} {options : Options} {w : Option Nat}
    {db : Db} {s' : ImportState} (hwf : db.WF)
    (h : runImport d user options w db = .ok s') :
    ∃ (s1 s2 s3 s4 s5 s6 s7 s8 s9 s10 s11 s12 s13 : ImportState),
      (import_project d.project user options ⟨db, emptyMaps, w⟩ = .ok (db.nextPk, s1) ∧
       import_sites d.sites db.nextPk s1 = .ok s2 ∧
       import_devices d.devices db.nextPk s2 = .ok s3 ∧
       import_storage_sources d.storage_sources db.nextPk s3 = .ok s4 ∧
       import_deployments d.deployments db.nextPk s4 = .ok s5 ∧
       import_events d.events db.nextPk s5 = .ok s6 ∧
       import_taxa d.taxa db.nextPk s6 = .ok s7 ∧
       import_taxa_lists d.taxa_lists db.nextPk s7 = .ok s8 ∧
       import_tags d.tags db.nextPk s8 = .ok s9 ∧
       (if options.skip_images then Except.ok s9
         else Except.bind (import_source_images d.source_images db.nextPk s9)
           (fun s => import_collections d.collections db.nextPk s)) = .ok s10 ∧
       (if !options.skip_ml_data && !options.skip_images then
           Except.bind (import_algorithms d.algorithms db.nextPk s10) (fun s =>
           Except.bind (import_occurrences d.occurrences db.nextPk s) (fun s =>
           Except.bind (import_detections d.detections db.nextPk s) (fun s =>
           Except.bind (import_classifications d.classifications db.nextPk s) (fun s =>
           Except.bind (import_identifications d.identifications db.nextPk user s) (fun s =>
           update_occurrences db.nextPk s)))))
         else Except.ok s10) = .ok s11 ∧
       import_processing_services d.processing_services db.nextPk s11 = .ok s12 ∧
       import_pipelines d.pipelines db.nextPk s12 = .ok s13 ∧
       import_pipeline_configs d.pipeline_configs db.nextPk s13 = .ok s') ∧
      (s1.db = { db with
                 nextPk := db.nextPk + 1,
                 projects := db.projects ++
                   [projectRowOf (resolveProjectName db (requestedName options d.project))
                     d.project user db.nextPk] } ∧
       s1.maps = { emptyMaps with project := [(d.project.id, db.nextPk)] }) ∧
      (FrameRel updT_sites updM_sites s1 s2 ∧
       FrameRel updT_devices updM_devices s2 s3 ∧
       FrameRel updT_storage_sources updM_storage_sources s3 s4 ∧
       FrameRel updT_deployments updM_deployments s4 s5 ∧
       FrameRel updT_events updM_events s5 s6 ∧
       FrameRel updT_taxa updM_taxa s6 s7 ∧
       FrameRel updT_taxa_lists updM_taxa_lists s7 s8 ∧
       FrameRel updT_tags updM_tags s8 s9 ∧
       FrameRel updT_images updM_images s9 s10 ∧
       FrameRel updT_ml updM_ml s10 s11 ∧
       FrameRel updT_processing_services updM_processing_services s11 s12 ∧
       FrameRel updT_pipelines updM_pipelines s12 s13 ∧
       FrameRel updT_pipeline_configs updM_pipeline_configs s13 s') := by
  obtain ⟨pk, s1, s2, s3, s4, s5, s6, s7, s8, s9, s10, s11, s12, s13,
    hp, h2, h3, h4, h5, h6, h7, h8, h9, h10, h11, h12, h13, h14⟩ := runImport_stages h
  obtain ⟨hpk, hdb1, hmaps1⟩ :=
    import_project_ok (fun r hr => Nat.ne_of_lt (hwf.projects_lt r hr)) hp
  subst hpk
  have f2 := import_sites_frame h2
  have f3 := import_devices_frame h3
  have f4 := import_storage_sources_frame h4
  have f5 := import_deployments_frame h5
  have f6 := import_events_frame h6
  have le1 : db.nextPk ≤ s1.db.nextPk := by rw [hdb1]; exact Nat.le_succ _
  have le2 := FrameRel_le (fun _ _ _ => rfl) f2
  have le3 := FrameRel_le (fun _ _ _ => rfl) f3
  have le4 := FrameRel_le (fun _ _ _ => rfl) f4
  have le5 := FrameRel_le (fun _ _ _ => rfl) f5
  have le6 := FrameRel_le (fun _ _ _ => rfl) f6
  have le16 : db.nextPk ≤ s6.db.nextPk :=
    le_trans le1 (le_trans le2 (le_trans le3 (le_trans le4 (le_trans le5 le6))))
  have etaxa6 : s6.db.taxa = db.taxa := by
    rw [FrameRel_proj f6 (fun db => db.taxa) (fun _ _ _ => rfl),
      FrameRel_proj f5 (fun db => db.taxa) (fun _ _ _ => rfl),
      FrameRel_proj f4 (fun db => db.taxa) (fun _ _ _ => rfl),
      FrameRel_proj f3 (fun db => db.taxa) (fun _ _ _ => rfl),
      FrameRel_proj f2 (fun db => db.taxa) (fun _ _ _ => rfl), hdb1]
  obtain ⟨f7, taxaInv7⟩ :=
    import_taxa_frame (pks_mono' etaxa6 le16 hwf.taxa_lt) h7
  have le7 := FrameRel_le (fun _ _ _ => rfl) f7
  have le17 : db.nextPk ≤ s7.db.nextPk := le_trans le16 le7
  have etl7 : s7.db.taxa_lists = db.taxa_lists := by
    rw [FrameRel_proj f7 (fun db => db.taxa_lists) (fun _ _ _ => rfl),
      FrameRel_proj f6 (fun db => db.taxa_lists) (fun _ _ _ => rfl),
      FrameRel_proj f5 (fun db => db.taxa_lists) (fun _ _ _ => rfl),
      FrameRel_proj f4 (fun db => db.taxa_lists) (fun _ _ _ => rfl),
      FrameRel_proj f3 (fun db => db.taxa_lists) (fun _ _ _ => rfl),
      FrameRel_proj f2 (fun db => db.taxa_lists) (fun _ _ _ => rfl), hdb1]
  obtain ⟨f8, tlInv8⟩ :=
    import_taxa_lists_frame (pks_mono' etl7 le17 hwf.taxa_lists_lt) h8
  have le8 := FrameRel_le (fun _ _ _ => rfl) f8
  have le18 : db.nextPk ≤ s8.db.nextPk := le_trans le17 le8
  have etag8 : s8.db.tags = db.tags := by
    rw [FrameRel_proj f8 (fun db => db.tags) (fun _ _ _ => rfl),
      FrameRel_proj f7 (fun db => db.tags) (fun _ _ _ => rfl),
      FrameRel_proj f6 (fun db => db.tags) (fun _ _ _ => rfl),
      FrameRel_proj f5 (fun db => db.tags) (fun _ _ _ => rfl),
      FrameRel_proj f4 (fun db => db.tags) (fun _ _ _ => rfl),
      FrameRel_proj f3 (fun db => db.tags) (fun _ _ _ => rfl),
      FrameRel_proj f2 (fun db => db.tags) (fun _ _ _ => rfl), hdb1]
  obtain ⟨f9, tagInv9⟩ :=
    import_tags_frame (pks_mono' etag8 le18 hwf.tags_lt) h9
  have le9 := FrameRel_le (fun _ _ _ => rfl) f9
  have le19 : db.nextPk ≤ s9.db.nextPk := le_trans le18 le9
  have ecol9 : s9.db.collections = db.collections := by
    rw [FrameRel_proj f9 (fun db => db.collections) (fun _ _ _ => rfl),
      FrameRel_proj f8 (fun db => db.collections) (fun _ _ _ => rfl),
      FrameRel_proj f7 (fun db => db.collections) (fun _ _ _ => rfl),
      FrameRel_proj f6 (fun db => db.collections) (fun _ _ _ => rfl),
      FrameRel_proj f5 (fun db => db.collections) (fun _ _ _ => rfl),
      FrameRel_proj f4 (fun db => db.collections) (fun _ _ _ => rfl),
      FrameRel_proj f3 (fun db => db.collections) (fun _ _ _ => rfl),
      FrameRel_proj f2 (fun db => db.collections) (fun _ _ _ => rfl), hdb1]
  have f10 := images_block_frame (pks_mono' ecol9 le19 hwf.collections_lt) h10
  have f11 := ml_block_frame h11
  have le10 := FrameRel_le (fun _ _ _ => rfl) f10
  have le11 := FrameRel_le (fun _ _ _ => rfl) f11
  have le111 : db.nextPk ≤ s11.db.nextPk := le_trans le19 (le_trans le10 le11)
  have esvc11 : s11.db.processing_services = db.processing_services := by
    rw [FrameRel_proj f11 (fun db => db.processing_services) (fun _ _ _ => rfl),
      FrameRel_proj f10 (fun db => db.processing_services) (fun _ _ _ => rfl),
      FrameRel_proj f9 (fun db => db.processing_services) (fun _ _ _ => rfl),
      FrameRel_proj f8 (fun db => db.processing_services) (fun _ _ _ => rfl),
      FrameRel_proj f7 (fun db => db.processing_services) (fun _ _ _ => rfl),
      FrameRel_proj f6 (fun db => db.processing_services) (fun _ _ _ => rfl),
      FrameRel_proj f5 (fun db => db.processing_services) (fun _ _ _ => rfl),
      FrameRel_proj f4 (fun db => db.processing_services) (fun _ _ _ => rfl),
      FrameRel_proj f3 (fun db => db.processing_services) (fun _ _ _ => rfl),
      FrameRel_proj f2 (fun db => db.processing_services) (fun _ _ _ => rfl), hdb1]
  obtain ⟨f12, svcInv12⟩ :=
    import_processing_services_frame (pks_mono' esvc11 le111 hwf.processing_services_lt) h12
  have le12 := FrameRel_le (fun _ _ _ => rfl) f12
  have le112 : db.nextPk ≤ s12.db.nextPk := le_trans le111 le12
  have epl12 : s12.db.pipelines = db.pipelines := by
    rw [FrameRel_proj f12 (fun db => db.pipelines) (fun _ _ _ => rfl),
      FrameRel_proj f11 (fun db => db.pipelines) (fun _ _ _ => rfl),
      FrameRel_proj f10 (fun db => db.pipelines) (fun _ _ _ => rfl),
      FrameRel_proj f9 (fun db => db.pipelines) (fun _ _ _ => rfl),
      FrameRel_proj f8 (fun db => db.pipelines) (fun _ _ _ => rfl),
      FrameRel_proj f7 (fun db => db.pipelines) (fun _ _ _ => rfl),
      FrameRel_proj f6 (fun db => db.pipelines) (fun _ _ _ => rfl),
      FrameRel_proj f5 (fun db => db.pipelines) (fun _ _ _ => rfl),
      FrameRel_proj f4 (fun db => db.pipelines) (fun _ _ _ => rfl),
      FrameRel_proj f3 (fun db => db.pipelines) (fun _ _ _ => rfl),
      FrameRel_proj f2 (fun db => db.pipelines) (fun _ _ _ => rfl), hdb1]
  obtain ⟨f13, plInv13⟩ :=
    import_pipelines_frame (pks_mono' epl12 le112 hwf.pipelines_lt) h13
  have f14 := import_pipeline_configs_frame h14
  exact ⟨s1, s2, s3, s4, s5, s6, s7, s8, s9, s10, s11, s12, s13,
    ⟨hp, h2, h3, h4, h5, h6, h7, h8, h9, h10, h11, h12, h13, h14⟩,
    ⟨hdb1, hmaps1⟩,
    ⟨f2, f3, f4, f5, f6, f7, f8, f9, f10, f11, f12, f13, f14⟩⟩

/-! ### Document-determined resolvability of mandatory references -/

/-- Whether an optional external reference resolves against the ids the loop
registered (the id map of a stage that ran over the document holds exactly
the imported records' document ids). -/
def resolvesIn (ids : List DocId) : Option DocId → Bool
  | none => false
  | some i => ids.contains i

theorem truthy_lookup_not_mem {M : List (DocId × Pk)} {i : DocId}
    (hmem : i ∉ M.map Prod.fst) : truthy (lookupId M (some i)) = false := by
  have hfind : M.find? (fun kv => kv.1 == i) = none := by
    rw [List.find?_eq_none]
    intro kv hkv
    simp
    intro hc
    exact hmem (List.mem_map.mpr ⟨kv, hkv, hc⟩)
  show truthy ((M.find? (fun kv => kv.1 == i)).map (fun kv => kv.2)) = false
  rw [hfind]
  rfl

/-- Against an id map with the right key set and positive pks, Python
truthiness of a lookup is exactly document-level resolvability. -/
theorem truthy_lookup_eq_resolvesIn {M : List (DocId × Pk)} {ids : List DocId}
    (hdom : ∀ i, i ∈ M.map Prod.fst ↔ i ∈ ids)
    (hpos : ∀ e ∈ M, 0 < e.2) (o : Option DocId) :
    truthy (lookupId M o) = resolvesIn ids o := by
  cases o with
  | none => rfl
  | some i =>
    by_cases hmem : i ∈ ids
    · rw [truthy_lookup_of_mem_pos ((hdom i).mpr hmem) hpos]
      simp [resolvesIn, List.contains, hmem]
    · rw [truthy_lookup_not_mem (fun hc => hmem ((hdom i).mp hc))]
      simp [resolvesIn, List.contains, hmem]

/-- Complete description of the deployments stage: one row and one registered
id per record, unconditionally. -/
theorem import_deployments_spec {l : List DeploymentData} {project : Pk} {s s' : ImportState}
    (h : import_deployments l project s = .ok s') :
    ∃ rows, s'.db.deployments = s.db.deployments ++ rows ∧
      rows.length = l.length ∧
      s'.maps.deployment.map Prod.fst =
        (l.map DeploymentData.id).reverse ++ s.maps.deployment.map Prod.fst := by
  unfold import_deployments at h
  have hstep : ∀ (x : DeploymentData) (t t' : ImportState), True →
      import_deployment1 project x t = .ok t' → (fun _ _ => true) x t = true →
      ∃ row, t'.db.deployments = t.db.deployments ++ [row] ∧ True ∧
        t'.maps.deployment.map Prod.fst = x.id :: t.maps.deployment.map Prod.fst := by
    intro x t t' _ hb _
    obtain ⟨hdb, hmaps⟩ := import_deployment1_ok hb
    refine ⟨deploymentRowOf project x (lookupId t.maps.site x.research_site_id)
      (lookupId t.maps.device x.device_id)
      (lookupId t.maps.storage_source x.data_source_id) t.db.nextPk,
      by rw [hdb], trivial, by rw [hmaps]; rfl⟩
  obtain ⟨⟨rows, hg, hlen, hQ, hkeys⟩, _⟩ := importLoop_spec
    (fun db => db.deployments) (fun t => t.maps.deployment) DeploymentData.id
    (fun _ _ => true) (fun _ _ => True) (fun _ => True)
    (fun x y t t' _ hb => rfl)
    (fun x t t' _ hb hp => by simp at hp)
    hstep
    (fun _ _ _ _ _ => trivial)
    l s s' trivial h
  refine ⟨rows, hg, ?_, ?_⟩
  · rw [hlen]
    simp
  · rw [hkeys]
    simp

/-- Deployment-map positivity across the deployments stage. -/
theorem import_deployments_pos {l : List DeploymentData} {project : Pk} {s s' : ImportState}
    (hm : ∀ e ∈ s.maps.deployment, 0 < e.2) (hn : 0 < s.db.nextPk)
    (h : import_deployments l project s = .ok s') :
    ∀ e ∈ s'.maps.deployment, 0 < e.2 := by
  unfold import_deployments at h
  refine (importLoop_inv_rel
    (fun t => (∀ e ∈ t.maps.deployment, 0 < e.2) ∧ 0 < t.db.nextPk)
    (fun _ _ => True) (fun _ => trivial) (fun _ _ _ _ _ => trivial) l ?_
    s s' ⟨hm, hn⟩ h).2.1
  intro x hx t t' hI hb
  obtain ⟨hm1, hn1⟩ := hI
  obtain ⟨hdb, hmaps⟩ := import_deployment1_ok hb
  refine ⟨trivial, ?_, ?_⟩
  · rw [hmaps]
    intro e he
    rcases List.mem_cons.mp he with rfl | he
    · exact hn1
    · exact hm1 e he
  · rw [hdb]
    exact Nat.succ_pos _

/-- Complete description of the events stage: a record whose deployment
reference fails Python truthiness is skipped entirely (no row appended, no
identity registered); each resolvable record appends one row and registers
its document id. -/
theorem import_events_spec {l : List EventData} {project : Pk} {s s' : ImportState}
    (h : import_events l project s = .ok s') :
    ∃ rows, s'.db.events = s.db.events ++ rows ∧
      rows.length = l.countP
        (fun x => truthy (lookupId s.maps.deployment x.deployment_id)) ∧
      s'.maps.event.map Prod.fst =
        ((l.filter (fun x => truthy (lookupId s.maps.deployment x.deployment_id))).map
          EventData.id).reverse ++ s.maps.event.map Prod.fst := by
  unfold import_events at h
  have hpred : ∀ (x y : EventData) (t t' : ImportState), True →
      import_event1 project x t = .ok t' →
      truthy (lookupId t'.maps.deployment y.deployment_id) =
        truthy (lookupId t.maps.deployment y.deployment_id) := by
    intro x y t t' _ hb
    rcases import_event1_ok hb with ⟨_, rfl⟩ | ⟨_, _, hmaps⟩
    · rfl
    · rw [hmaps]
  have hskip : ∀ (x : EventData) (t t' : ImportState), True →
      import_event1 project x t = .ok t' →
      truthy (lookupId t.maps.deployment x.deployment_id) = false → t' = t := by
    intro x t t' _ hb hp
    rcases import_event1_ok hb with ⟨_, rfl⟩ | ⟨hp2, _, _⟩
    · rfl
    · rw [hp] at hp2
      simp at hp2
  have hstep : ∀ (x : EventData) (t t' : ImportState), True →
      import_event1 project x t = .ok t' →
      truthy (lookupId t.maps.deployment x.deployment_id) = true →
      ∃ row, t'.db.events = t.db.events ++ [row] ∧ True ∧
        t'.maps.event.map Prod.fst = x.id :: t.maps.event.map Prod.fst := by
    intro x t t' _ hb hp
    rcases import_event1_ok hb with ⟨hp2, _⟩ | ⟨_, hdb, hmaps⟩
    · rw [hp] at hp2
      simp at hp2
    · exact ⟨eventRowOf project x (lookupId t.maps.deployment x.deployment_id) t.db.nextPk,
        by rw [hdb], trivial, by rw [hmaps]; rfl⟩
  obtain ⟨⟨rows, hg, hlen, hQ, hkeys⟩, _⟩ := importLoop_spec
    (fun db => db.events) (fun t => t.maps.event) EventData.id
    (fun x t => truthy (lookupId t.maps.deployment x.deployment_id))
    (fun _ _ => True) (fun _ => True)
    hpred hskip hstep (fun _ _ _ _ _ => trivial) l s s' trivial h
  exact ⟨rows, hg, hlen, hkeys⟩

/-- Complete description of the source-images stage: a record whose
deployment reference fails truthiness is skipped entirely; each resolvable
record appends one row (owned by the destination project) and registers its
document id. -/
theorem import_source_images_spec {l : List SourceImageData} {project : Pk}
    {s s' : ImportState} (h : import_source_images l project s = .ok s') :
    ∃ rows, s'.db.source_images = s.db.source_images ++ rows ∧
      rows.length = l.countP
        (fun x => truthy (lookupId s.maps.deployment x.deployment_id)) ∧
      (∀ r ∈ rows, r.project = project) ∧
      s'.maps.source_image.map Prod.fst =
        ((l.filter (fun x => truthy (lookupId s.maps.deployment x.deployment_id))).map
          SourceImageData.id).reverse ++ s.maps.source_image.map Prod.fst := by
  unfold import_source_images at h
  have hpred : ∀ (x y : SourceImageData) (t t' : ImportState), True →
      import_source_image1 project x t = .ok t' →
      truthy (lookupId t'.maps.deployment y.deployment_id) =
        truthy (lookupId t.maps.deployment y.deployment_id) := by
    intro x y t t' _ hb
    rcases import_source_image1_ok hb with ⟨_, rfl⟩ | ⟨_, _, hmaps⟩
    · rfl
    · rw [hmaps]
  have hskip : ∀ (x : SourceImageData) (t t' : ImportState), True →
      import_source_image1 project x t = .ok t' →
      truthy (lookupId t.maps.deployment x.deployment_id) = false → t' = t := by
    intro x t t' _ hb hp
    rcases import_source_image1_ok hb with ⟨_, rfl⟩ | ⟨hp2, _, _⟩
    · rfl
    · rw [hp] at hp2
      simp at hp2
  have hstep : ∀ (x : SourceImageData) (t t' : ImportState), True →
      import_source_image1 project x t = .ok t' →
      truthy (lookupId t.maps.deployment x.deployment_id) = true →
      ∃ row, t'.db.source_images = t.db.source_images ++ [row] ∧ row.project = project ∧
        t'.maps.source_image.map Prod.fst = x.id :: t.maps.source_image.map Prod.fst := by
    intro x t t' _ hb hp
    rcases import_source_image1_ok hb with ⟨hp2, _⟩ | ⟨_, hdb, hmaps⟩
    · rw [hp] at hp2
      simp at hp2
    · exact ⟨sourceImageRowOf project x (lookupId t.maps.deployment x.deployment_id)
        (lookupId t.maps.event x.event_id) t.db.nextPk,
        by rw [hdb], rfl, by rw [hmaps]; rfl⟩
  obtain ⟨⟨rows, hg, hlen, hQ, hkeys⟩, _⟩ := importLoop_spec
    (fun db => db.source_images) (fun t => t.maps.source_image) SourceImageData.id
    (fun x t => truthy (lookupId t.maps.deployment x.deployment_id))
    (fun x row => row.project = project) (fun _ => True)
    hpred hskip hstep (fun _ _ _ _ _ => trivial) l s s' trivial h
  refine ⟨rows, hg, hlen, ?_, hkeys⟩
  intro r hr
  obtain ⟨x, hx, hq⟩ := hQ r hr
  exact hq

/-- C3 (amended): a record whose mandatory parent reference (here the
representative Event → Deployment edge) does not resolve is skipped entirely:
no row is created and no identity is registered; each resolvable record
creates exactly one row; and the final summary reports the number of
imported records of the kind (the id-map size) — the command keeps no drop
counter and surfaces no dropped-record count. -/
theorem c3_mandatory_ref_skip (d : Document) (user : Pk) (options : Options)
    (w : Option Nat) (db : Db) (s' : ImportState) (hwf : db.WF)
    (hids : (d.events.map EventData.id).Nodup)
    (h : runImport d user options w db = .ok s') :
    ∃ rows, s'.db.events = db.events ++ rows ∧
      rows.length = d.events.countP
        (fun x => resolvesIn (d.deployments.map DeploymentData.id) x.deployment_id) ∧
      s'.maps.event.map Prod.fst =
        ((d.events.filter (fun x =>
          resolvesIn (d.deployments.map DeploymentData.id) x.deployment_id)).map
            EventData.id).reverse ∧
      (print_summary s').events = rows.length := by
  obtain ⟨s1, s2, s3, s4, s5, s6, s7, s8, s9, s10, s11, s12, s13,
    ⟨hp, h2, h3, h4, h5, h6, h7, h8, h9, h10, h11, h12, h13, h14⟩,
    ⟨hdb1, hmaps1⟩,
    ⟨f2, f3, f4, f5, f6, f7, f8, f9, f10, f11, f12, f13, f14⟩⟩ := runImport_anatomy hwf h
  have emdep4 : s4.maps.deployment = [] := by
    rw [FrameRel_mproj f4 (fun m => m.deployment) (fun _ _ => rfl),
      FrameRel_mproj f3 (fun m => m.deployment) (fun _ _ => rfl),
      FrameRel_mproj f2 (fun m => m.deployment) (fun _ _ => rfl), hmaps1]
    rfl
  have le1 : db.nextPk ≤ s1.db.nextPk := by rw [hdb1]; exact Nat.le_succ _
  have le2 := FrameRel_le (fun _ _ _ => rfl) f2
  have le3 := FrameRel_le (fun _ _ _ => rfl) f3
  have le4 := FrameRel_le (fun _ _ _ => rfl) f4
  have hn4 : 0 < s4.db.nextPk :=
    lt_of_lt_of_le hwf.nextPk_pos (le_trans le1 (le_trans le2 (le_trans le3 le4)))
  obtain ⟨drows, hdg, hdlen, hdkeys⟩ := import_deployments_spec h5
  have hpos5 : ∀ e ∈ s5.maps.deployment, 0 < e.2 :=
    import_deployments_pos (by rw [emdep4]; intro e he; cases he) hn4 h5
  have hdom : ∀ i, i ∈ s5.maps.deployment.map Prod.fst ↔
      i ∈ d.deployments.map DeploymentData.id := by
    intro i
    rw [hdkeys, emdep4]
    simp
  have hpredeq : ∀ x : EventData,
      truthy (lookupId s5.maps.deployment x.deployment_id) =
        resolvesIn (d.deployments.map DeploymentData.id) x.deployment_id :=
    fun x => truthy_lookup_eq_resolvesIn hdom hpos5 x.deployment_id
  obtain ⟨rows, heg, helen, hekeys⟩ := import_events_spec h6
  have emev5 : s5.maps.event = [] := by
    rw [FrameRel_mproj f5 (fun m => m.event) (fun _ _ => rfl),
      FrameRel_mproj f4 (fun m => m.event) (fun _ _ => rfl),
      FrameRel_mproj f3 (fun m => m.event) (fun _ _ => rfl),
      FrameRel_mproj f2 (fun m => m.event) (fun _ _ => rfl), hmaps1]
    rfl
  have eev5 : s5.db.events = db.events := by
    rw [FrameRel_proj f5 (fun db => db.events) (fun _ _ _ => rfl),
      FrameRel_proj f4 (fun db => db.events) (fun _ _ _ => rfl),
      FrameRel_proj f3 (fun db => db.events) (fun _ _ _ => rfl),
      FrameRel_proj f2 (fun db => db.events) (fun _ _ _ => rfl), hdb1]
  have eevF : s'.db.events = s6.db.events := by
    rw [FrameRel_proj f14 (fun db => db.events) (fun _ _ _ => rfl),
      FrameRel_proj f13 (fun db => db.events) (fun _ _ _ => rfl),
      FrameRel_proj f12 (fun db => db.events) (fun _ _ _ => rfl),
      FrameRel_proj f11 (fun db => db.events) (fun _ _ _ => rfl),
      FrameRel_proj f10 (fun db => db.events) (fun _ _ _ => rfl),
      FrameRel_proj f9 (fun db => db.events) (fun _ _ _ => rfl),
      FrameRel_proj f8 (fun db => db.events) (fun _ _ _ => rfl),
      FrameRel_proj f7 (fun db => db.events) (fun _ _ _ => rfl)]
  have emevF : s'.maps.event = s6.maps.event := by
    rw [FrameRel_mproj f14 (fun m => m.event) (fun _ _ => rfl),
      FrameRel_mproj f13 (fun m => m.event) (fun _ _ => rfl),
      FrameRel_mproj f12 (fun m => m.event) (fun _ _ => rfl),
      FrameRel_mproj f11 (fun m => m.event) (fun _ _ => rfl),
      FrameRel_mproj f10 (fun m => m.event) (fun _ _ => rfl),
      FrameRel_mproj f9 (fun m => m.event) (fun _ _ => rfl),
      FrameRel_mproj f8 (fun m => m.event) (fun _ _ => rfl),
      FrameRel_mproj f7 (fun m => m.event) (fun _ _ => rfl)]
  refine ⟨rows, ?_, ?_, ?_, ?_⟩
  · rw [eevF, heg, eev5]
  · rw [helen]
    exact List.countP_congr (fun x _ => by rw [hpredeq x])
  · rw [emevF, hekeys, emev5]
    simp only [List.map_nil, List.append_nil]
    rw [List.filter_congr (fun x _ => by rw [hpredeq x])]
  · show (s'.maps.event.map Prod.fst).dedup.length = rows.length
    rw [emevF, hekeys, emev5]
    simp only [List.map_nil, List.append_nil]
    have hsub : List.Sublist ((d.events.filter
        (fun x => truthy (lookupId s5.maps.deployment x.deployment_id))).map EventData.id)
        (d.events.map EventData.id) :=
      List.Sublist.map EventData.id (List.filter_sublist _)
    have hnd := List.nodup_reverse.mpr (hids.sublist hsub)
    rw [List.dedup_eq_self.mpr hnd, List.length_reverse, List.length_map, helen,
      List.countP_eq_length_filter]

def c3cdoc : Document :=
  { emptyDoc with
    deployments := [{ id := 10, name := "D", description := none,
                      research_site_id := none, device_id := none,
                      data_source_id := none, data_source_subdir := none,
                      data_source_regex := none, latitude := none,
                      longitude := none }],
    events := [{ id := 20, deployment_id := some 10, group_by := "a",
                 start := none, end_ := none },
               { id := 21, deployment_id := some 10, group_by := "b",
                 start := none, end_ := none },
               { id := 22, deployment_id := none, group_by := "c",
                 start := none, end_ := none }] }

def c3cstate : ImportState :=
  match runImport c3cdoc 7 defaultOptions none emptyDb with
  | .ok s => s
  | .error _ => ⟨emptyDb, emptyMaps, none⟩

/-- C3 counterexample: of three document events one has no deployment
reference and is dropped, yet the summary's figure for events is 2 — the
count of imported events — and every summary figure is an id-map size; no
figure reports the one dropped record. -/
theorem c3_no_drop_count_counterexample :
    c3cdoc.events.length = 3 ∧
    c3cstate.db.events.length = 2 ∧
    (print_summary c3cstate).events = 2 ∧
    (print_summary c3cstate).deployments = 1 :=
  ⟨rfl, rfl, rfl, rfl⟩

/-- Witness for the amended C3 at a concrete run with one dangling event. -/
theorem c3_mandatory_ref_skip_witness :
    emptyDb.WF ∧ (c3cdoc.events.map EventData.id).Nodup ∧
    ∃ rows, c3cstate.db.events = emptyDb.events ++ rows ∧
      rows.length = c3cdoc.events.countP
        (fun x => resolvesIn (c3cdoc.deployments.map DeploymentData.id) x.deployment_id) ∧
      c3cstate.maps.event.map Prod.fst =
        ((c3cdoc.events.filter (fun x =>
          resolvesIn (c3cdoc.deployments.map DeploymentData.id) x.deployment_id)).map
            EventData.id).reverse ∧
      (print_summary c3cstate).events = rows.length :=
  ⟨emptyDb_wf, by decide,
    c3_mandatory_ref_skip c3cdoc 7 defaultOptions none emptyDb c3cstate emptyDb_wf
      (by decide) rfl⟩

/-! ### C5 -/

theorem filter_project_nil {ρ : Type} {l : List ρ} {f : ρ → Nat} {n : Nat}
    (hl : ∀ r ∈ l, f r < n) : l.filter (fun r => f r == n) = [] := by
  rw [List.filter_eq_nil_iff]
  intro r hr
  simp
  exact Nat.ne_of_lt (hl r hr)

/-- C5 (amended): with skip-images the SourceImage, Detection and Occurrence
tables are untouched and the destination project has zero SourceImage and
zero Occurrence rows; with skip-ml-data the Occurrence, Detection and
Classification tables are untouched; and when images are not skipped, a
document source image whose deployment reference resolves guarantees a
nonzero number of destination-project SourceImage rows (merely containing
source images does not — see the counterexample). -/
theorem c5_skip_flags (d : Document) (user : Pk) (options : Options)
    (w : Option Nat) (db : Db) (s' : ImportState) (hwf : db.WF)
    (h : runImport d user options w db = .ok s') :
    (options.skip_images = true →
      s'.db.source_images = db.source_images ∧
      s'.db.detections = db.detections ∧
      s'.db.occurrences = db.occurrences ∧
      s'.db.source_images.filter (fun r => r.project == db.nextPk) = [] ∧
      s'.db.occurrences.filter (fun r => r.project == db.nextPk) = []) ∧
    (options.skip_ml_data = true →
      s'.db.occurrences = db.occurrences ∧
      s'.db.detections = db.detections ∧
      s'.db.classifications = db.classifications) ∧
    (options.skip_images = false →
      (∃ x ∈ d.source_images,
        resolvesIn (d.deployments.map DeploymentData.id) x.deployment_id = true) →
      0 < (s'.db.source_images.filter (fun r => r.project == db.nextPk)).length) := by
  obtain ⟨s1, s2, s3, s4, s5, s6, s7, s8, s9, s10, s11, s12, s13,
    ⟨hp, h2, h3, h4, h5, h6, h7, h8, h9, h10, h11, h12, h13, h14⟩,
    ⟨hdb1, hmaps1⟩,
    ⟨f2, f3, f4, f5, f6, f7, f8, f9, f10, f11, f12, f13, f14⟩⟩ := runImport_anatomy hwf h
  have esrc9 : s9.db.source_images = db.source_images := by
    rw [FrameRel_proj f9 (fun db => db.source_images) (fun _ _ _ => rfl),
      FrameRel_proj f8 (fun db => db.source_images) (fun _ _ _ => rfl),
      FrameRel_proj f7 (fun db => db.source_images) (fun _ _ _ => rfl),
      FrameRel_proj f6 (fun db => db.source_images) (fun _ _ _ => rfl),
      FrameRel_proj f5 (fun db => db.source_images) (fun _ _ _ => rfl),
      FrameRel_proj f4 (fun db => db.source_images) (fun _ _ _ => rfl),
      FrameRel_proj f3 (fun db => db.source_images) (fun _ _ _ => rfl),
      FrameRel_proj f2 (fun db => db.source_images) (fun _ _ _ => rfl), hdb1]
  have eocc9 : s9.db.occurrences = db.occurrences := by
    rw [FrameRel_proj f9 (fun db => db.occurrences) (fun _ _ _ => rfl),
      FrameRel_proj f8 (fun db => db.occurrences) (fun _ _ _ => rfl),
      FrameRel_proj f7 (fun db => db.occurrences) (fun _ _ _ => rfl),
      FrameRel_proj f6 (fun db => db.occurrences) (fun _ _ _ => rfl),
      FrameRel_proj f5 (fun db => db.occurrences) (fun _ _ _ => rfl),
      FrameRel_proj f4 (fun db => db.occurrences) (fun _ _ _ => rfl),
      FrameRel_proj f3 (fun db => db.occurrences) (fun _ _ _ => rfl),
      FrameRel_proj f2 (fun db => db.occurrences) (fun _ _ _ => rfl), hdb1]
  have edet9 : s9.db.detections = db.detections := by
    rw [FrameRel_proj f9 (fun db => db.detections) (fun _ _ _ => rfl),
      FrameRel_proj f8 (fun db => db.detections) (fun _ _ _ => rfl),
      FrameRel_proj f7 (fun db => db.detections) (fun _ _ _ => rfl),
      FrameRel_proj f6 (fun db => db.detections) (fun _ _ _ => rfl),
      FrameRel_proj f5 (fun db => db.detections) (fun _ _ _ => rfl),
      FrameRel_proj f4 (fun db => db.detections) (fun _ _ _ => rfl),
      FrameRel_proj f3 (fun db => db.detections) (fun _ _ _ => rfl),
      FrameRel_proj f2 (fun db => db.detections) (fun _ _ _ => rfl), hdb1]
  have ecls9 : s9.db.classifications = db.classifications := by
    rw [FrameRel_proj f9 (fun db => db.classifications) (fun _ _ _ => rfl),
      FrameRel_proj f8 (fun db => db.classifications) (fun _ _ _ => rfl),
      FrameRel_proj f7 (fun db => db.classifications) (fun _ _ _ => rfl),
      FrameRel_proj f6 (fun db => db.classifications) (fun _ _ _ => rfl),
      FrameRel_proj f5 (fun db => db.classifications) (fun _ _ _ => rfl),
      FrameRel_proj f4 (fun db => db.classifications) (fun _ _ _ => rfl),
      FrameRel_proj f3 (fun db => db.classifications) (fun _ _ _ => rfl),
      FrameRel_proj f2 (fun db => db.classifications) (fun _ _ _ => rfl), hdb1]
  refine ⟨?_, ?_, ?_⟩
  · intro hA
    rw [hA] at h10
    simp only [if_true, Except.ok.injEq] at h10
    subst h10
    have hcond : (!options.skip_ml_data && !options.skip_images) = false := by
      rw [hA]
      simp
    rw [hcond] at h11
    simp only [Bool.false_eq_true, if_false, Except.ok.injEq] at h11
    subst h11
    have esrcF : s'.db.source_images = db.source_images := by
      rw [FrameRel_proj f14 (fun db => db.source_images) (fun _ _ _ => rfl),
        FrameRel_proj f13 (fun db => db.source_images) (fun _ _ _ => rfl),
        FrameRel_proj f12 (fun db => db.source_images) (fun _ _ _ => rfl), esrc9]
    have edetF : s'.db.detections = db.detections := by
      rw [FrameRel_proj f14 (fun db => db.detections) (fun _ _ _ => rfl),
        FrameRel_proj f13 (fun db => db.detections) (fun _ _ _ => rfl),
        FrameRel_proj f12 (fun db => db.detections) (fun _ _ _ => rfl), edet9]
    have eoccF : s'.db.occurrences = db.occurrences := by
      rw [FrameRel_proj f14 (fun db => db.occurrences) (fun _ _ _ => rfl),
        FrameRel_proj f13 (fun db => db.occurrences) (fun _ _ _ => rfl),
        FrameRel_proj f12 (fun db => db.occurrences) (fun _ _ _ => rfl), eocc9]
    refine ⟨esrcF, edetF, eoccF, ?_, ?_⟩
    · rw [esrcF]
      exact filter_project_nil hwf.source_images_project_lt
    · rw [eoccF]
      exact filter_project_nil hwf.occurrences_project_lt
  · intro hB
    have hcond : (!options.skip_ml_data && !options.skip_images) = false := by
      rw [hB]
      simp
    rw [hcond] at h11
    simp only [Bool.false_eq_true, if_false, Except.ok.injEq] at h11
    subst h11
    refine ⟨?_, ?_, ?_⟩
    · rw [FrameRel_proj f14 (fun db => db.occurrences) (fun _ _ _ => rfl),
        FrameRel_proj f13 (fun db => db.occurrences) (fun _ _ _ => rfl),
        FrameRel_proj f12 (fun db => db.occurrences) (fun _ _ _ => rfl),
        FrameRel_proj f10 (fun db => db.occurrences) (fun _ _ _ => rfl), eocc9]
    · rw [FrameRel_proj f14 (fun db => db.detections) (fun _ _ _ => rfl),
        FrameRel_proj f13 (fun db => db.detections) (fun _ _ _ => rfl),
        FrameRel_proj f12 (fun db => db.detections) (fun _ _ _ => rfl),
        FrameRel_proj f10 (fun db => db.detections) (fun _ _ _ => rfl), edet9]
    · rw [FrameRel_proj f14 (fun db => db.classifications) (fun _ _ _ => rfl),
        FrameRel_proj f13 (fun db => db.classifications) (fun _ _ _ => rfl),
        FrameRel_proj f12 (fun db => db.classifications) (fun _ _ _ => rfl),
        FrameRel_proj f10 (fun db => db.classifications) (fun _ _ _ => rfl), ecls9]
  · intro hC hEx
    rw [hC] at h10
    simp only [Bool.false_eq_true, if_false] at h10
    obtain ⟨sa, himg, hcol⟩ := bind_ok h10
    have emdep4 : s4.maps.deployment = [] := by
      rw [FrameRel_mproj f4 (fun m => m.deployment) (fun _ _ => rfl),
        FrameRel_mproj f3 (fun m => m.deployment) (fun _ _ => rfl),
        FrameRel_mproj f2 (fun m => m.deployment) (fun _ _ => rfl), hmaps1]
      rfl
    have le1 : db.nextPk ≤ s1.db.nextPk := by rw [hdb1]; exact Nat.le_succ _
    have le2 := FrameRel_le (fun _ _ _ => rfl) f2
    have le3 := FrameRel_le (fun _ _ _ => rfl) f3
    have le4 := FrameRel_le (fun _ _ _ => rfl) f4
    have le5 := FrameRel_le (fun _ _ _ => rfl) f5
    have le6 := FrameRel_le (fun _ _ _ => rfl) f6
    have le7 := FrameRel_le (fun _ _ _ => rfl) f7
    have le8 := FrameRel_le (fun _ _ _ => rfl) f8
    have le9 := FrameRel_le (fun _ _ _ => rfl) f9
    have hn4 : 0 < s4.db.nextPk :=
      lt_of_lt_of_le hwf.nextPk_pos (le_trans le1 (le_trans le2 (le_trans le3 le4)))
    obtain ⟨drows, hdg, hdlen, hdkeys⟩ := import_deployments_spec h5
    have hpos5 : ∀ e ∈ s5.maps.deployment, 0 < e.2 :=
      import_deployments_pos (by rw [emdep4]; intro e he; cases he) hn4 h5
    have hdom : ∀ i, i ∈ s5.maps.deployment.map Prod.fst ↔
        i ∈ d.deployments.map DeploymentData.id := by
      intro i
      rw [hdkeys, emdep4]
      simp
    have emdep9 : s9.maps.deployment = s5.maps.deployment := by
      rw [FrameRel_mproj f9 (fun m => m.deployment) (fun _ _ => rfl),
        FrameRel_mproj f8 (fun m => m.deployment) (fun _ _ => rfl),
        FrameRel_mproj f7 (fun m => m.deployment) (fun _ _ => rfl),
        FrameRel_mproj f6 (fun m => m.deployment) (fun _ _ => rfl)]
    obtain ⟨irows, hig, hilen, hiQ, hikeys⟩ := import_source_images_spec himg
    have hirows_pos : 0 < irows.length := by
      rw [hilen]
      rw [List.countP_pos_iff]
      obtain ⟨x0, hx0, hres⟩ := hEx
      refine ⟨x0, hx0, ?_⟩
      rw [emdep9, truthy_lookup_eq_resolvesIn hdom hpos5 x0.deployment_id]
      exact hres
    have ecol9 : s9.db.collections = db.collections := by
      rw [FrameRel_proj f9 (fun db => db.collections) (fun _ _ _ => rfl),
        FrameRel_proj f8 (fun db => db.collections) (fun _ _ _ => rfl),
        FrameRel_proj f7 (fun db => db.collections) (fun _ _ _ => rfl),
        FrameRel_proj f6 (fun db => db.collections) (fun _ _ _ => rfl),
        FrameRel_proj f5 (fun db => db.collections) (fun _ _ _ => rfl),
        FrameRel_proj f4 (fun db => db.collections) (fun _ _ _ => rfl),
        FrameRel_proj f3 (fun db => db.collections) (fun _ _ _ => rfl),
        FrameRel_proj f2 (fun db => db.collections) (fun _ _ _ => rfl), hdb1]
    have fimg := import_source_images_frame himg
    have lea := FrameRel_le (fun _ _ _ => rfl) fimg
    have ecola : sa.db.collections = db.collections := by
      rw [FrameRel_proj fimg (fun db => db.collections) (fun _ _ _ => rfl), ecol9]
    have le19 : db.nextPk ≤ s9.db.nextPk :=
      le_trans le1 (le_trans le2 (le_trans le3 (le_trans le4 (le_trans le5
        (le_trans le6 (le_trans le7 (le_trans le8 le9)))))))
    obtain ⟨fcol, _⟩ := import_collections_frame
      (pks_mono' ecola (le_trans le19 lea) hwf.collections_lt) hcol
    have esrcF : s'.db.source_images = sa.db.source_images := by
      rw [FrameRel_proj f14 (fun db => db.source_images) (fun _ _ _ => rfl),
        FrameRel_proj f13 (fun db => db.source_images) (fun _ _ _ => rfl),
        FrameRel_proj f12 (fun db => db.source_images) (fun _ _ _ => rfl),
        FrameRel_proj f11 (fun db => db.source_images) (fun _ _ _ => rfl),
        FrameRel_proj fcol (fun db => db.source_images) (fun _ _ _ => rfl)]
    rw [esrcF, hig, List.filter_append, List.length_append]
    have hfull : irows.filter (fun r => r.project == db.nextPk) = irows := by
      rw [List.filter_eq_self]
      intro r hr
      rw [hiQ r hr]
      simp
    rw [hfull]
    omega

def c5coptions : Options :=
  { project_name := none, skip_images := false, skip_ml_data := true }

def c5cdoc : Document :=
  { emptyDoc with
    source_images := [{ id := 30, deployment_id := none, event_id := none,
                        path := "p.jpg", timestamp := none, width := none,
                        height := none, size := none, checksum := none }] }

def c5cstate : ImportState :=
  match runImport c5cdoc 7 c5coptions none emptyDb with
  | .ok s => s
  | .error _ => ⟨emptyDb, emptyMaps, none⟩

/-- C5 counterexample: a skip-ml run (images not skipped) over a document
containing a source image whose deployment reference dangles ends with zero
SourceImage rows, not a nonzero number. -/
theorem c5_dangling_images_counterexample :
    c5coptions.skip_ml_data = true ∧ c5coptions.skip_images = false ∧
    c5cdoc.source_images.length = 1 ∧
    c5cstate.db.source_images.length = 0 :=
  ⟨rfl, rfl, rfl, rfl⟩

def c5wdoc : Document :=
  { emptyDoc with
    deployments := [{ id := 10, name := "D", description := none,
                      research_site_id := none, device_id := none,
                      data_source_id := none, data_source_subdir := none,
                      data_source_regex := none, latitude := none,
                      longitude := none }],
    source_images := [{ id := 30, deployment_id := some 10, event_id := none,
                        path := "p.jpg", timestamp := none, width := none,
                        height := none, size := none, checksum := none }] }

def c5wstate : ImportState :=
  match runImport c5wdoc 7 c5coptions none emptyDb with
  | .ok s => s
  | .error _ => ⟨emptyDb, emptyMaps, none⟩

/-- Witness for the amended C5 at a concrete skip-ml run with one resolvable
source image. -/
theorem c5_skip_flags_witness :
    emptyDb.WF ∧
    c5wstate.db.source_images.length = 1 ∧
    ((c5coptions.skip_images = true →
      c5wstate.db.source_images = emptyDb.source_images ∧
      c5wstate.db.detections = emptyDb.detections ∧
      c5wstate.db.occurrences = emptyDb.occurrences ∧
      c5wstate.db.source_images.filter (fun r => r.project == emptyDb.nextPk) = [] ∧
      c5wstate.db.occurrences.filter (fun r => r.project == emptyDb.nextPk) = []) ∧
     (c5coptions.skip_ml_data = true →
      c5wstate.db.occurrences = emptyDb.occurrences ∧
      c5wstate.db.detections = emptyDb.detections ∧
      c5wstate.db.classifications = emptyDb.classifications) ∧
     (c5coptions.skip_images = false →
      (∃ x ∈ c5wdoc.source_images,
        resolvesIn (c5wdoc.deployments.map DeploymentData.id) x.deployment_id = true) →
      0 < (c5wstate.db.source_images.filter
        (fun r => r.project == emptyDb.nextPk)).length)) :=
  ⟨emptyDb_wf, rfl,
    c5_skip_flags c5wdoc 7 c5coptions none emptyDb c5wstate emptyDb_wf rfl⟩

/-! ### C8 -/

theorem pass2Apply_nodecl {M : List (DocId × Pk)} {x : TaxonData} {taxonPk : Pk}
    {taxa : List TaxonRow} (hp : x.parent_id = none) (hs : x.synonym_of_id = none) :
    pass2Apply M x taxonPk taxa = taxa := by
  unfold pass2Apply
  simp [hp, hs, truthy]

theorem pass2Apply_both {M : List (DocId × Pk)} {x : TaxonData} {taxonPk : Pk}
    {taxa : List TaxonRow} {p : Pk}
    (hpar : truthy x.parent_id = true)
    (hsyn : truthy x.synonym_of_id = true)
    (hlp : lookupId M x.parent_id = some p)
    (hls : lookupId M x.synonym_of_id = some p)
    (hppos : p ≠ 0) :
    pass2Apply M x taxonPk taxa =
      (taxa.map (fun t => if t.pk == taxonPk then { t with parent_id := some p } else t)).map
        (fun t => if t.pk == taxonPk then { t with synonym_of_id := some p } else t) := by
  have htp : truthy (lookupId M x.parent_id) = true := by
    rw [hlp]
    simp [truthy, hppos]
  have hts : truthy (lookupId M x.synonym_of_id) = true := by
    rw [hls]
    simp [truthy, hppos]
  unfold pass2Apply
  simp only
  rw [if_pos hsyn, if_pos hts, if_pos hpar, if_pos htp, hlp, hls]

/-- C8: when dedup-by-name matches a document taxon to a pre-existing row
(not created by this import), the import still mutates that shared row: the
first pass adds the destination project to its memberships and the second
pass overwrites its parent and synonym edges with the resolved document
values — here both edges are rewired to the row newly created for the other
document taxon, an identity no pre-existing row carries. -/
theorem c8_dedup_mutates_shared_row {pdata tdata : TaxonData} {project : Pk}
    {r : TaxonRow} {s s' : ImportState}
    (hfresh : ∀ t ∈ s.db.taxa, t.pk < s.db.nextPk)
    (hmaps : s.maps.taxon = [])
    (hnpos : 0 < s.db.nextPk)
    (hpfind : s.db.taxa.find? (fun t => t.name == pdata.name) = none)
    (htfind : s.db.taxa.find? (fun t => t.name == tdata.name) = some r)
    (hne : tdata.id ≠ pdata.id)
    (hpid : pdata.id ≠ 0)
    (hppar : pdata.parent_id = none) (hpsyn : pdata.synonym_of_id = none)
    (htpar : tdata.parent_id = some pdata.id)
    (htsyn : tdata.synonym_of_id = some pdata.id)
    (h : import_taxa [pdata, tdata] project s = .ok s') :
    r ∈ s.db.taxa ∧
    (∀ t ∈ s.db.taxa, t.pk ≠ s.db.nextPk) ∧
    ∃ t ∈ s'.db.taxa, t.pk = r.pk ∧
      t.parent_id = some s.db.nextPk ∧
      t.synonym_of_id = some s.db.nextPk ∧
      project ∈ t.projects ∧ t.name = r.name := by
  have hrmem : r ∈ s.db.taxa := List.mem_of_find?_eq_some htfind
  have hfresh' : ∀ t ∈ s.db.taxa, t.pk ≠ s.db.nextPk :=
    fun t ht => Nat.ne_of_lt (hfresh t ht)
  refine ⟨hrmem, hfresh', ?_⟩
  unfold import_taxa at h
  split at h
  · simp at h
  · rename_i res tb s1 heq
    -- first pass, record pdata: create
    unfold import_taxa_pass1 at heq
    split at heq
    · simp at heq
    · rename_i kv1 sA hbA
      obtain ⟨hkA, hmA, hcA⟩ := import_taxa_pass1_body_ok hfresh' hbA
      rcases hcA with ⟨t0, hft0, _, _⟩ | ⟨_, hkvA, hdbA⟩
      · rw [hft0] at hpfind
        simp at hpfind
      -- first pass, record tdata: found (dedup)
      unfold import_taxa_pass1 at heq
      split at heq
      · simp at heq
      · rename_i kv2 sB hbB
        have hfreshA : ∀ t ∈ sA.db.taxa, t.pk ≠ sA.db.nextPk := by
          rw [hdbA]
          intro t ht
          rcases List.mem_append.mp ht with ht | ht
          · exact Nat.ne_of_lt (Nat.lt_succ_of_lt (hfresh t ht))
          · rw [List.mem_singleton] at ht
            subst ht
            exact Nat.ne_of_lt (Nat.lt_succ_self _)
        obtain ⟨hkB, hmB, hcB⟩ := import_taxa_pass1_body_ok hfreshA hbB
        rcases hcB with ⟨t1, hft1, hkvB, hdbB⟩ | ⟨hft1, _, _⟩
        · -- the found row is r
          have ht1r : r = t1 := by
            rw [hdbA] at hft1
            simp only [List.find?_append, htfind] at hft1
            simpa using hft1
          subst ht1r
          obtain ⟨htb, hsB⟩ : kv2 :: [kv1] = tb ∧ sB = s1 := by
            simpa [import_taxa_pass1] using heq
          rw [← htb, ← hsB] at h
          have hkv1 : kv1 = (pdata.id, s.db.nextPk) := by
            rcases kv1 with ⟨a, b⟩
            exact Prod.ext hkA hkvA
          have hkv2 : kv2 = (tdata.id, r.pk) := by
            rcases kv2 with ⟨a, b⟩
            exact Prod.ext hkB hkvB
          rw [hkv1, hkv2] at h
          -- the taxon id map after the first pass
          have hmt : sB.maps.taxon = [(tdata.id, r.pk), (pdata.id, s.db.nextPk)] := by
            rw [hmB, hkvB, hmA, hkvA, hmaps]
          -- second pass
          obtain ⟨u1, hb1, hrest⟩ := importLoop_cons_ok h
          obtain ⟨u2, hb2, hrest2⟩ := importLoop_cons_ok hrest
          obtain rfl : s' = u2 := by
            have hx : u2 = s' := by simpa [importLoop] using hrest2
            exact hx.symm
          obtain ⟨pk1, hlk1, hdbP1, hmP1⟩ := import_taxa_pass2_body_ok hb1
          obtain ⟨pk2, hlk2, hdbP2, hmP2⟩ := import_taxa_pass2_body_ok hb2
          -- pdata declares nothing: its pass-2 step leaves the store unchanged
          have hu1taxa : u1.db.taxa = sB.db.taxa := by
            rw [hdbP1, pass2Apply_nodecl hppar hpsyn]
          have hu1m : u1.maps.taxon = sB.maps.taxon := by rw [hmP1]
          -- tdata's own pk resolves to the shared row
          have hpk2 : pk2 = r.pk := by
            simp [lookupId] at hlk2
            exact hlk2.symm
          subst hpk2
          have hMtaxa : u1.maps.taxon = [(tdata.id, r.pk), (pdata.id, s.db.nextPk)] := by
            rw [hu1m, hmt]
          have hlp : lookupId u1.maps.taxon tdata.parent_id = some s.db.nextPk := by
            rw [hMtaxa, htpar]
            simp [lookupId, hne]
          have hls : lookupId u1.maps.taxon tdata.synonym_of_id = some s.db.nextPk := by
            rw [hMtaxa, htsyn]
            simp [lookupId, hne]
          have htrp : truthy tdata.parent_id = true := by
            rw [htpar]
            simp [truthy, hpid]
          have htrs : truthy tdata.synonym_of_id = true := by
            rw [htsyn]
            simp [truthy, hpid]
          have hP0 : s.db.nextPk ≠ 0 := Nat.pos_iff_ne_zero.mp hnpos
          have hfinal : s'.db.taxa =
              (sB.db.taxa.map (fun t => if t.pk == r.pk then
                  { t with parent_id := some s.db.nextPk } else t)).map
                (fun t => if t.pk == r.pk then
                  { t with synonym_of_id := some s.db.nextPk } else t) := by
            rw [hdbP2]
            show pass2Apply u1.maps.taxon tdata r.pk u1.db.taxa = _
            rw [pass2Apply_both htrp htrs hlp hls hP0, hu1taxa]
          have hmem0 : r ∈ sA.db.taxa := by
            rw [hdbA]
            exact List.mem_append_left _ hrmem
          rw [hfinal, hdbB]
          refine ⟨_, List.mem_map_of_mem _ (List.mem_map_of_mem _
            (List.mem_map_of_mem _ hmem0)), ?_, ?_, ?_, ?_, ?_⟩
          · simp
          · simp
          · simp
          · simp
            by_cases hc : project ∈ r.projects
            · simp [hc]
            · simp [hc]
          · simp
        · rw [hdbA] at hft1
          simp only [List.find?_append, htfind] at hft1
          simp at hft1

def c8row : TaxonRow :=
  { pk := 1, name := "Old", rank := "", description := "", ordering := 0,
    parent_id := none, synonym_of_id := none, projects := [9] }

def c8db : Db := { emptyDb with nextPk := 2, taxa := [c8row] }

def c8s : ImportState := ⟨c8db, emptyMaps, none⟩

def c8p : TaxonData :=
  { id := 1, name := "New", rank := none, description := none,
    ordering := none, parent_id := none, synonym_of_id := none }

def c8t : TaxonData :=
  { id := 2, name := "Old", rank := none, description := none,
    ordering := none, parent_id := some 1, synonym_of_id := some 1 }

def c8sF : ImportState :=
  match import_taxa [c8p, c8t] 5 c8s with
  | .ok s => s
  | .error _ => c8s

/-- Witness for C8: a pre-existing row "Old" of another project is matched by
name, gains the destination project, and has its parent and synonym edges
rewired to the freshly created "New" row. -/
theorem c8_dedup_mutates_shared_row_witness :
    c8row ∈ c8s.db.taxa ∧
    (∀ t ∈ c8s.db.taxa, t.pk ≠ c8s.db.nextPk) ∧
    ∃ t ∈ c8sF.db.taxa, t.pk = c8row.pk ∧
      t.parent_id = some c8s.db.nextPk ∧
      t.synonym_of_id = some c8s.db.nextPk ∧
      5 ∈ t.projects ∧ t.name = c8row.name :=
  @c8_dedup_mutates_shared_row c8p c8t 5 c8row c8s c8sF
    (by decide) rfl (by decide) rfl rfl (by decide) (by decide)
    rfl rfl rfl rfl rfl

/-! ### C7 -/

/-- The decimal digit list of `n`, most significant digit first (what
`Nat.toDigits 10` produces). -/
def decDigits (n : Nat) : List Char :=
  if h : n / 10 = 0 then [Nat.digitChar (n % 10)]
  else decDigits (n / 10) ++ [Nat.digitChar (n % 10)]
termination_by n
decreasing_by
  omega

theorem toDigitsCore_eq : ∀ (fuel n : Nat) (acc : List Char), n < fuel →
    Nat.toDigitsCore 10 fuel n acc = decDigits n ++ acc
  | 0, n, acc, h => by omega
  | fuel + 1, n, acc, h => by
    show (if n / 10 = 0 then Nat.digitChar (n % 10) :: acc
      else Nat.toDigitsCore 10 fuel (n / 10) (Nat.digitChar (n % 10) :: acc)) =
        decDigits n ++ acc
    by_cases h0 : n / 10 = 0
    · rw [if_pos h0, decDigits, dif_pos h0]
      rfl
    · rw [if_neg h0,
        toDigitsCore_eq fuel (n / 10) (Nat.digitChar (n % 10) :: acc) (by omega)]
      conv_rhs => rw [decDigits]
      rw [dif_neg h0, List.append_assoc]
      rfl

theorem digitChar_val : ∀ k, k < 10 → (Nat.digitChar k).toNat - 48 = k := by decide

/-- Decoding of a most-significant-first decimal digit list. -/
def decodeDigits (l : List Char) : Nat :=
  l.foldl (fun a c => 10 * a + (c.toNat - 48)) 0

theorem decodeDigits_append_singleton (l : List Char) (c : Char) :
    decodeDigits (l ++ [c]) = 10 * decodeDigits l + (c.toNat - 48) := by
  unfold decodeDigits
  rw [List.foldl_append]
  rfl

theorem decode_decDigits (n : Nat) : decodeDigits (decDigits n) = n := by
  induction n using Nat.strong_induction_on with
  | _ n ih =>
    rw [decDigits]
    by_cases h0 : n / 10 = 0
    · rw [dif_pos h0]
      have h1 : decodeDigits [Nat.digitChar (n % 10)] =
          (Nat.digitChar (n % 10)).toNat - 48 := by
        unfold decodeDigits
        simp
      rw [h1, digitChar_val (n % 10) (by omega)]
      omega
    · rw [dif_neg h0, decodeDigits_append_singleton, ih (n / 10) (by omega),
        digitChar_val (n % 10) (by omega)]
      omega

theorem decDigits_injective {n m : Nat} (h : decDigits n = decDigits m) : n = m := by
  have h1 := decode_decDigits n
  rw [h, decode_decDigits m] at h1
  exact h1.symm

/-- Distinct counters give distinct disambiguated names. -/
theorem candidateName_injective {base : String} {n m : Nat}
    (h : candidateName base n = candidateName base m) : n = m := by
  have hd := congrArg String.data h
  simp only [candidateName, String.data_append, List.append_assoc,
    List.append_cancel_left_eq, List.append_cancel_right_eq] at hd
  have h2 : Nat.toDigits 10 n = Nat.toDigits 10 m := hd
  rw [Nat.toDigits, Nat.toDigits, toDigitsCore_eq (n + 1) n [] (Nat.lt_succ_self n),
    toDigitsCore_eq (m + 1) m [] (Nat.lt_succ_self m)] at h2
  simp at h2
  exact decDigits_injective h2

theorem projectNameExists_iff {db : Db} {nm : String} :
    projectNameExists db nm = true ↔ nm ∈ db.projects.map (fun p => p.name) := by
  unfold projectNameExists
  rw [List.any_eq_true]
  constructor
  · rintro ⟨p, hp, hpe⟩
    exact List.mem_map.mpr ⟨p, hp, (by simpa using hpe : p.name = nm)⟩
  · intro h
    obtain ⟨p, hp, hpe⟩ := List.mem_map.mp h
    exact ⟨p, hp, by simp [hpe]⟩

/-- Pigeonhole: among the first `length + 1` counters some candidate name is
free. -/
theorem exists_free_candidate (db : Db) (base : String) :
    ∃ k, 1 ≤ k ∧ k < 1 + (db.projects.length + 1) ∧
      projectNameExists db (candidateName base k) = false := by
  by_contra hcon
  push_neg at hcon
  have hall : ∀ k, 1 ≤ k → k < db.projects.length + 2 →
      candidateName base k ∈ db.projects.map (fun p => p.name) := by
    intro k h1 h2
    have hne := hcon k h1 (by omega)
    have ht : projectNameExists db (candidateName base k) = true := by
      cases hb : projectNameExists db (candidateName base k)
      · exact absurd hb hne
      · rfl
    exact projectNameExists_iff.mp ht
  have hlen : ((List.range (db.projects.length + 1)).map
      (fun i => candidateName base (i + 1))).length = db.projects.length + 1 := by
    simp
  have hnd : ((List.range (db.projects.length + 1)).map
      (fun i => candidateName base (i + 1))).Nodup := by
    refine List.Nodup.map_on ?_ (List.nodup_range _)
    intro a ha b hb hab
    have := candidateName_injective hab
    omega
  have hsubset : ∀ x ∈ (List.range (db.projects.length + 1)).map
      (fun i => candidateName base (i + 1)), x ∈ db.projects.map (fun p => p.name) := by
    intro x hx
    obtain ⟨i, hi, rfl⟩ := List.mem_map.mp hx
    rw [List.mem_range] at hi
    exact hall (i + 1) (by omega) (by omega)
  have hcard1 : ((List.range (db.projects.length + 1)).map
      (fun i => candidateName base (i + 1))).toFinset.card = db.projects.length + 1 := by
    rw [List.toFinset_card_of_nodup hnd, hlen]
  have hcard2 : ((List.range (db.projects.length + 1)).map
      (fun i => candidateName base (i + 1))).toFinset ⊆
      (db.projects.map (fun p => p.name)).toFinset := by
    intro x hx
    rw [List.mem_toFinset] at hx ⊢
    exact hsubset x hx
  have h4 := Finset.card_le_card hcard2
  have h3 := List.toFinset_card_le (db.projects.map (fun p => p.name))
  rw [hcard1] at h4
  simp at h3
  omega

/-- The collision loop run with enough fuel to meet a free counter returns
the candidate of the first free counter. -/
theorem uniqueNameLoop_spec (db : Db) (base : String) :
    ∀ (fuel counter : Nat),
      (∃ k, counter ≤ k ∧ k < counter + fuel ∧
        projectNameExists db (candidateName base k) = false) →
      ∃ n, counter ≤ n ∧
        uniqueNameLoop db base counter fuel = candidateName base n ∧
        projectNameExists db (candidateName base n) = false ∧
        ∀ m, counter ≤ m → m < n → projectNameExists db (candidateName base m) = true
  | 0, counter, h => by
    obtain ⟨k, hk1, hk2, _⟩ := h
    omega
  | fuel + 1, counter, h => by
    by_cases hex : projectNameExists db (candidateName base counter) = true
    · obtain ⟨k, hk1, hk2, hkfree⟩ := h
      have hk1' : counter + 1 ≤ k := by
        rcases Nat.eq_or_lt_of_le hk1 with rfl | hlt
        · rw [hkfree] at hex
          simp at hex
        · omega
      obtain ⟨n, hn1, hn2, hn3, hn4⟩ := uniqueNameLoop_spec db base fuel (counter + 1)
        ⟨k, hk1', by omega, hkfree⟩
      refine ⟨n, by omega, ?_, hn3, ?_⟩
      · show (if projectNameExists db (candidateName base counter) then
          uniqueNameLoop db base (counter + 1) fuel else candidateName base counter) = _
        rw [if_pos hex]
        exact hn2
      · intro m hm1 hm2
        rcases Nat.eq_or_lt_of_le hm1 with rfl | hlt
        · exact hex
        · exact hn4 m hlt hm2
    · have hfree : projectNameExists db (candidateName base counter) = false := by
        cases hb : projectNameExists db (candidateName base counter)
        · rfl
        · exact absurd hb hex
      refine ⟨counter, le_refl _, ?_, hfree, ?_⟩
      · show (if projectNameExists db (candidateName base counter) then
          uniqueNameLoop db base (counter + 1) fuel else candidateName base counter) = _
        rw [if_neg hex]
      · intro m hm1 hm2
        omega

theorem projectNameExists_congr {db db2 : Db}
    (hsame : db2.projects.map (fun p => p.name) = db.projects.map (fun p => p.name))
    (nm : String) : projectNameExists db2 nm = projectNameExists db nm := by
  have h1 : (projectNameExists db2 nm = true) ↔ (projectNameExists db nm = true) := by
    rw [projectNameExists_iff, projectNameExists_iff, hsame]
  cases hb : projectNameExists db nm
  · cases hb2 : projectNameExists db2 nm
    · rfl
    · rw [hb2, hb] at h1
      simp at h1
  · cases hb2 : projectNameExists db2 nm
    · rw [hb2, hb] at h1
      simp at h1
    · rfl

theorem uniqueNameLoop_congr {db db2 : Db} (base : String)
    (hex : ∀ nm, projectNameExists db2 nm = projectNameExists db nm) :
    ∀ fuel counter, uniqueNameLoop db2 base counter fuel = uniqueNameLoop db base counter fuel
  | 0, counter => rfl
  | fuel + 1, counter => by
    show (if projectNameExists db2 (candidateName base counter) then
      uniqueNameLoop db2 base (counter + 1) fuel else candidateName base counter) =
      (if projectNameExists db (candidateName base counter) then
      uniqueNameLoop db base (counter + 1) fuel else candidateName base counter)
    rw [hex]
    by_cases hb : projectNameExists db (candidateName base counter) = true
    · rw [if_pos hb, if_pos hb]
      exact uniqueNameLoop_congr base hex fuel (counter + 1)
    · rw [if_neg hb, if_neg hb]

/-- C7: for a requested name colliding with an existing project name, the
disambiguation loop terminates within its fuel on an actual free name of the
form `base ++ " (n)"; the counter runs from 1 and the returned `n` is the
first free counter; and the outcome is deterministic — it depends only on
the set of pre-existing project names. -/
theorem c7_name_disambiguation (db db2 : Db) (requested : String)
    (hcoll : projectNameExists db requested = true)
    (hsame : db2.projects.map (fun p => p.name) = db.projects.map (fun p => p.name)) :
    (∃ n, 1 ≤ n ∧
      resolveProjectName db requested = candidateName requested n ∧
      projectNameExists db (candidateName requested n) = false ∧
      (∀ m, 1 ≤ m → m < n → projectNameExists db (candidateName requested m) = true)) ∧
    resolveProjectName db2 requested = resolveProjectName db requested := by
  obtain ⟨k, hk1, hk2, hkf⟩ := exists_free_candidate db requested
  obtain ⟨n, hn1, hn2, hn3, hn4⟩ := uniqueNameLoop_spec db requested
    (db.projects.length + 1) 1 ⟨k, hk1, by omega, hkf⟩
  constructor
  · refine ⟨n, hn1, ?_, hn3, fun m hm1 hm2 => hn4 m hm1 hm2⟩
    unfold resolveProjectName
    rw [if_pos hcoll]
    exact hn2
  · have hex := projectNameExists_congr hsame
    have hlen : db2.projects.length = db.projects.length := by
      have h5 := congrArg List.length hsame
      simpa using h5
    unfold resolveProjectName
    rw [hex requested]
    by_cases hb : projectNameExists db requested = true
    · rw [if_pos hb, if_pos hb, hlen]
      exact uniqueNameLoop_congr requested hex _ _
    · rw [if_neg hb, if_neg hb]

def c7row1 : ProjectRow :=
  { pk := 1, name := "P", description := "", owner := 9, is_draft := true,
    priority := 0, image_base_url := "", default_event_method := none,
    default_event_time_threshold := none, summary := "", details := "",
    default_filters := none, members := [9] }

def c7row2 : ProjectRow :=
  { c7row1 with pk := 2, name := "P (1)" }

def c7db : Db :=
  { emptyDb with nextPk := 3, projects := [c7row1, c7row2] }

/-- Witness for C7: with "P" and "P (1)" taken, the requested name "P"
resolves to "P (2)". -/
theorem c7_name_disambiguation_witness :
    projectNameExists c7db "P" = true ∧
    resolveProjectName c7db "P" = "P (2)" ∧
    ((∃ n, 1 ≤ n ∧
      resolveProjectName c7db "P" = candidateName "P" n ∧
      projectNameExists c7db (candidateName "P" n) = false ∧
      (∀ m, 1 ≤ m → m < n → projectNameExists c7db (candidateName "P" m) = true)) ∧
     resolveProjectName c7db "P" = resolveProjectName c7db "P") :=
  ⟨rfl, rfl, c7_name_disambiguation c7db c7db "P" rfl rfl⟩

/-! ### C4 -/

/-- A loop whose every body appends exactly one row adds `l.length` rows. -/
theorem importLoop_len {α : Type} {body : α → ImportState → Except ImportError ImportState}
    (g : Db → Nat)
    (hbody : ∀ x s s', body x s = .ok s' → g s'.db = g s.db + 1) :
    ∀ (l : List α) (s s' : ImportState), importLoop body l s = .ok s' →
      g s'.db = g s.db + l.length
  | [], s, s', h => by
    obtain rfl : s = s' := by simpa [importLoop] using h
    simp
  | x :: l, s, s', h => by
    obtain ⟨s1, hb, hrest⟩ := importLoop_cons_ok h
    rw [importLoop_len g hbody l s1 s' hrest, hbody x s s1 hb]
    simp only [List.length_cons]
    omega

/-- `importLoop_establishes` with an invariant threaded through the loop. -/
theorem importLoop_establishes_inv {α : Type}
    {body : α → ImportState → Except ImportError ImportState}
    (I : ImportState → Prop) (R : α → ImportState → Prop)
    (hinv : ∀ x s s', I s → body x s = .ok s' → I s')
    (hmono : ∀ x y s s', I s → body x s = .ok s' → R y s → R y s')
    (hest : ∀ x s s', I s → body x s = .ok s' → R x s') :
    ∀ (l : List α) (s s' : ImportState), I s → importLoop body l s = .ok s' →
      ∀ x ∈ l, R x s'
  | [], s, s', hI, h, x, hx => by simp at hx
  | y :: l, s, s', hI, h, x, hx => by
    obtain ⟨s1, hb, hrest⟩ := importLoop_cons_ok h
    have hI1 := hinv y s s1 hI hb
    rcases List.mem_cons.mp hx with rfl | hx
    · have h1 : R x s1 := hest x s s1 hI hb
      exact (importLoop_inv_rel (fun t => I t ∧ R x t) (fun _ _ => True)
        (fun _ => trivial) (fun _ _ _ _ _ => trivial) l
        (fun z hz t t' hIt hb2 =>
          ⟨trivial, hinv z t t' hIt.1 hb2, hmono z x t t' hIt.1 hb2 hIt.2⟩)
        s1 s' ⟨hI1, h1⟩ hrest).2.2
    · exact importLoop_establishes_inv I R hinv hmono hest l s1 s' hI1 hrest x hx

/-- The second taxa pass does not change the stored taxa names. -/
theorem import_taxa_pass2_names {tb : List (DocId × Pk)} {l : List TaxonData}
    {s s' : ImportState}
    (h : importLoop (import_taxa_pass2_body tb) l s = .ok s') :
    s'.db.taxa.map (fun r => r.name) = s.db.taxa.map (fun r => r.name) :=
  @importLoop_rel TaxonData (import_taxa_pass2_body tb)
    (fun a b => b.db.taxa.map (fun r => r.name) = a.db.taxa.map (fun r => r.name))
    (fun t => rfl)
    (fun a b c h1 h2 => h2.trans h1)
    l
    (fun x hx t t' hb => by
      obtain ⟨pkT, hlk, hdb, hm⟩ := import_taxa_pass2_body_ok hb
      rw [hdb]
      exact pass2Apply_map_field (fun r => r.name) (fun r v => rfl) (fun r v => rfl)
        t.maps.taxon x pkT t.db.taxa)
    s s' h

/-- The first taxa pass keeps every stored name present and makes every
processed record's name present. -/
theorem import_taxa_pass1_names {project : Pk} :
    ∀ (l : List TaxonData) (acc : List (DocId × Pk)) {acc' : List (DocId × Pk)}
      {s s' : ImportState},
      (∀ r ∈ s.db.taxa, r.pk < s.db.nextPk) →
      import_taxa_pass1 project l acc s = .ok (acc', s') →
      (∀ N, N ∈ s.db.taxa.map (fun r => r.name) → N ∈ s'.db.taxa.map (fun r => r.name)) ∧
      (∀ x ∈ l, x.name ∈ s'.db.taxa.map (fun r => r.name)) ∧
      (∀ r ∈ s'.db.taxa, r.pk < s'.db.nextPk)
  | [], acc, acc', s, s', hI, h => by
    obtain ⟨rfl, rfl⟩ : acc = acc' ∧ s = s' := by simpa [import_taxa_pass1] using h
    exact ⟨fun N hN => hN, by simp, hI⟩
  | x :: l, acc, acc', s, s', hI, h => by
    unfold import_taxa_pass1 at h
    split at h
    · simp at h
    · rename_i kv s2 heq
      obtain ⟨hk, hm, hcase⟩ := import_taxa_pass1_body_ok
        (fun r hr => Nat.ne_of_lt (hI r hr)) heq
      have key : (∀ N, N ∈ s.db.taxa.map (fun r => r.name) →
            N ∈ s2.db.taxa.map (fun r => r.name)) ∧
          x.name ∈ s2.db.taxa.map (fun r => r.name) ∧
          (∀ r ∈ s2.db.taxa, r.pk < s2.db.nextPk) := by
        rcases hcase with ⟨t, hft, hkv, hdb⟩ | ⟨hft, hkv, hdb⟩
        · have hnm : s2.db.taxa.map (fun r => r.name) = s.db.taxa.map (fun r => r.name) := by
            rw [hdb]
            show (s.db.taxa.map _).map _ = _
            rw [List.map_map]
            refine List.map_congr_left (fun r _ => ?_)
            simp only [Function.comp]
            split
            · rfl
            · rfl
          refine ⟨fun N hN => by rw [hnm]; exact hN, ?_, ?_⟩
          · rw [hnm]
            have hteq : t.name = x.name := by simpa using List.find?_some hft
            exact List.mem_map.mpr ⟨t, List.mem_of_find?_eq_some hft, hteq⟩
          · intro r hr
            rw [hdb] at hr ⊢
            simp only [List.mem_map] at hr
            obtain ⟨r0, h0, rfl⟩ := hr
            split
            · exact hI r0 h0
            · exact hI r0 h0
        · have hnm : s2.db.taxa.map (fun r => r.name) =
              s.db.taxa.map (fun r => r.name) ++ [x.name] := by
            rw [hdb]
            simp [taxonRowOf]
          refine ⟨fun N hN => by rw [hnm]; exact List.mem_append_left _ hN,
            by rw [hnm]; simp, ?_⟩
          intro r hr
          rw [hdb] at hr ⊢
          rcases List.mem_append.mp hr with hr | hr
          · exact Nat.lt_succ_of_lt (hI r hr)
          · rw [List.mem_singleton] at hr
            subst hr
            exact Nat.lt_succ_self _
      obtain ⟨pres2, estx, hI2⟩ := key
      obtain ⟨presR, estR, invR⟩ := import_taxa_pass1_names l (kv :: acc) hI2 h
      refine ⟨fun N hN => presR N (pres2 N hN), ?_, invR⟩
      intro y hy
      rcases List.mem_cons.mp hy with rfl | hy
      · exact presR y.name estx
      · exact estR y hy

/-- After an import of taxa, every document taxon's name is present in the
store. -/
theorem import_taxa_establishes_names {l : List TaxonData} {project : Pk} {s s' : ImportState}
    (hI : ∀ r ∈ s.db.taxa, r.pk < s.db.nextPk)
    (h : import_taxa l project s = .ok s') :
    ∀ x ∈ l, x.name ∈ s'.db.taxa.map (fun r => r.name) := by
  unfold import_taxa at h
  split at h
  · simp at h
  · rename_i res tb s1 heq
    obtain ⟨pres, est, hI1⟩ := import_taxa_pass1_names l [] hI heq
    have hnm := import_taxa_pass2_names h
    intro x hx
    rw [hnm]
    exact est x hx

/-- When every document taxon's name is already stored, the first taxa pass
always reuses and the stored name list is unchanged. -/
theorem import_taxa_pass1_found_names {project : Pk} {names : List String} :
    ∀ (l : List TaxonData) (acc : List (DocId × Pk)) {acc' : List (DocId × Pk)}
      {s s' : ImportState},
      (∀ r ∈ s.db.taxa, r.pk < s.db.nextPk) →
      s.db.taxa.map (fun r => r.name) = names →
      (∀ x ∈ l, x.name ∈ names) →
      import_taxa_pass1 project l acc s = .ok (acc', s') →
      s'.db.taxa.map (fun r => r.name) = names
  | [], acc, acc', s, s', hI, hnm, hall, h => by
    obtain ⟨rfl, rfl⟩ : acc = acc' ∧ s = s' := by simpa [import_taxa_pass1] using h
    exact hnm
  | x :: l, acc, acc', s, s', hI, hnm, hall, h => by
    unfold import_taxa_pass1 at h
    split at h
    · simp at h
    · rename_i kv s2 heq
      obtain ⟨hk, hm, hcase⟩ := import_taxa_pass1_body_ok
        (fun r hr => Nat.ne_of_lt (hI r hr)) heq
      rcases hcase with ⟨t, hft, hkv, hdb⟩ | ⟨hft, _, _⟩
      · have hnm2 : s2.db.taxa.map (fun r => r.name) = names := by
          rw [hdb]
          show (s.db.taxa.map _).map _ = _
          rw [List.map_map]
          rw [← hnm]
          refine List.map_congr_left (fun r _ => ?_)
          simp only [Function.comp]
          split
          · rfl
          · rfl
        have hI2 : ∀ r ∈ s2.db.taxa, r.pk < s2.db.nextPk := by
          intro r hr
          rw [hdb] at hr ⊢
          simp only [List.mem_map] at hr
          obtain ⟨r0, h0, rfl⟩ := hr
          split
          · exact hI r0 h0
          · exact hI r0 h0
        exact import_taxa_pass1_found_names l (kv :: acc) hI2 hnm2
          (fun y hy => hall y (List.mem_cons_of_mem _ hy)) h
      · exfalso
        have hx : x.name ∈ names := hall x (by simp)
        rw [← hnm] at hx
        obtain ⟨r0, h0, he⟩ := List.mem_map.mp hx
        rw [List.find?_eq_none] at hft
        exact hft r0 h0 (by simp [he])

/-- An import of taxa whose names are all already stored creates no taxon
row. -/
theorem import_taxa_noNew {l : List TaxonData} {project : Pk} {s s' : ImportState}
    (hI : ∀ r ∈ s.db.taxa, r.pk < s.db.nextPk)
    (hall : ∀ x ∈ l, x.name ∈ s.db.taxa.map (fun r => r.name))
    (h : import_taxa l project s = .ok s') :
    s'.db.taxa.length = s.db.taxa.length := by
  unfold import_taxa at h
  split at h
  · simp at h
  · rename_i res tb s1 heq
    have hnm1 := import_taxa_pass1_found_names l [] hI rfl hall heq
    have hnm2 := import_taxa_pass2_names h
    have hlen := congrArg List.length (hnm2.trans hnm1)
    simpa using hlen

/-- After an import of algorithms, every document algorithm's key and
version pair is present. -/
theorem import_algorithms_establishes {l : List AlgorithmData} {project : Pk}
    {s s' : ImportState} (h : import_algorithms l project s = .ok s') :
    ∀ x ∈ l, ∃ r ∈ s'.db.algorithms, r.key = x.key ∧ r.version = x.version := by
  unfold import_algorithms at h
  exact @importLoop_establishes AlgorithmData import_algorithm1
    (fun x t => ∃ r ∈ t.db.algorithms, r.key = x.key ∧ r.version = x.version)
    (fun x y t t' hb hy => by
      obtain ⟨r, hr, hkv⟩ := hy
      rcases import_algorithm1_ok hb with ⟨a, hfind, hdb, _⟩ |
        ⟨hfind, newCms, row, n2, hdb, _, _, _, _, _⟩
      · exact ⟨r, by rw [hdb]; exact hr, hkv⟩
      · exact ⟨r, by rw [hdb]; exact List.mem_append_left _ hr, hkv⟩)
    (fun x t t' hb => by
      rcases import_algorithm1_ok hb with ⟨a, hfind, hdb, _⟩ |
        ⟨hfind, newCms, row, n2, hdb, hkey, hver, _, _, _⟩
      · have hp := List.find?_some hfind
        simp at hp
        exact ⟨a, by rw [hdb]; exact List.mem_of_find?_eq_some hfind, hp.1, hp.2⟩
      · exact ⟨row, by rw [hdb]; exact List.mem_append_right _ (List.mem_singleton.mpr rfl),
          hkey, hver⟩)
    l s s' h

/-- An import of algorithms whose key and version pairs are all already
stored leaves the Algorithm table untouched. -/
theorem import_algorithms_noNew {l : List AlgorithmData} {project : Pk} {s s' : ImportState}
    (hall : ∀ x ∈ l, ∃ r ∈ s.db.algorithms, r.key = x.key ∧ r.version = x.version)
    (h : import_algorithms l project s = .ok s') :
    s'.db.algorithms = s.db.algorithms := by
  unfold import_algorithms at h
  exact (importLoop_inv_rel
    (fun t => t.db.algorithms = s.db.algorithms)
    (fun _ _ => True) (fun _ => trivial) (fun _ _ _ _ _ => trivial) l
    (fun x hx t t' hIt hb => by
      refine ⟨trivial, ?_⟩
      rcases import_algorithm1_ok hb with ⟨a, hfind, hdb, _⟩ |
        ⟨hfind, _, _, _, _, _, _, _, _, _⟩
      · rw [hdb, hIt]
      · exfalso
        obtain ⟨r, hr, hkey, hver⟩ := hall x hx
        have hr2 : r ∈ t.db.algorithms := by
          rw [hIt]
          exact hr
        rw [List.find?_eq_none] at hfind
        exact hfind r hr2 (by simp [hkey, hver]))
    s s' rfl h).2

/-- After an import of processing services, every document service's
endpoint URL is present. -/
theorem import_processing_services_establishes {l : List ProcessingServiceData} {project : Pk}
    {s s' : ImportState}
    (hI : ∀ r ∈ s.db.processing_services, r.pk < s.db.nextPk)
    (h : import_processing_services l project s = .ok s') :
    ∀ x ∈ l, ∃ r ∈ s'.db.processing_services, r.endpoint_url = x.endpoint_url := by
  unfold import_processing_services at h
  exact importLoop_establishes_inv
    (fun t => ∀ r ∈ t.db.processing_services, r.pk < t.db.nextPk)
    (fun x t => ∃ r ∈ t.db.processing_services, r.endpoint_url = x.endpoint_url)
    (fun x t t' hIt hb => by
      rcases import_processing_service1_ok (fun r hr => Nat.ne_of_lt (hIt r hr)) hb with
        ⟨sv, hfind, hdb, _⟩ | ⟨hfind, hdb, _⟩
      · intro r hr
        rw [hdb] at hr ⊢
        simp only [List.mem_map] at hr
        obtain ⟨r0, h0, rfl⟩ := hr
        split
        · exact hIt r0 h0
        · exact hIt r0 h0
      · intro r hr
        rw [hdb] at hr ⊢
        rcases List.mem_append.mp hr with hr | hr
        · exact Nat.lt_succ_of_lt (hIt r hr)
        · rw [List.mem_singleton] at hr
          subst hr
          exact Nat.lt_succ_self _)
    (fun x y t t' hIt hb hy => by
      obtain ⟨r, hr, he⟩ := hy
      rcases import_processing_service1_ok (fun r hr => Nat.ne_of_lt (hIt r hr)) hb with
        ⟨sv, hfind, hdb, _⟩ | ⟨hfind, hdb, _⟩
      · rw [hdb]
        refine ⟨if r.pk == sv.pk then
            { r with projects :=
                if r.projects.contains project then r.projects
                else r.projects ++ [project] }
          else r, List.mem_map_of_mem _ hr, ?_⟩
        split
        · exact he
        · exact he
      · rw [hdb]
        exact ⟨r, List.mem_append_left _ hr, he⟩)
    (fun x t t' hIt hb => by
      rcases import_processing_service1_ok (fun r hr => Nat.ne_of_lt (hIt r hr)) hb with
        ⟨sv, hfind, hdb, _⟩ | ⟨hfind, hdb, _⟩
      · have he : sv.endpoint_url = x.endpoint_url := by simpa using List.find?_some hfind
        rw [hdb]
        refine ⟨if sv.pk == sv.pk then
            { sv with projects :=
                if sv.projects.contains project then sv.projects
                else sv.projects ++ [project] }
          else sv, List.mem_map_of_mem _ (List.mem_of_find?_eq_some hfind), ?_⟩
        split
        · exact he
        · exact he
      · rw [hdb]
        exact ⟨serviceRowOf project x t.db.nextPk,
          List.mem_append_right _ (List.mem_singleton.mpr rfl), rfl⟩)
    l s s' hI h

/-- An import of processing services whose endpoint URLs are all already
stored creates no new ProcessingService row. -/
theorem import_processing_services_noNew {l : List ProcessingServiceData} {project : Pk}
    {s s' : ImportState}
    (hI : ∀ r ∈ s.db.processing_services, r.pk < s.db.nextPk)
    (hall : ∀ x ∈ l, ∃ r ∈ s.db.processing_services, r.endpoint_url = x.endpoint_url)
    (h : import_processing_services l project s = .ok s') :
    s'.db.processing_services.length = s.db.processing_services.length := by
  unfold import_processing_services at h
  have key := (importLoop_inv_rel
    (fun t => t.db.processing_services.map (fun r => r.endpoint_url) =
        s.db.processing_services.map (fun r => r.endpoint_url) ∧
      ∀ r ∈ t.db.processing_services, r.pk < t.db.nextPk)
    (fun _ _ => True) (fun _ => trivial) (fun _ _ _ _ _ => trivial) l
    (fun x hx t t' hIt hb => by
      obtain ⟨hep, hbound⟩ := hIt
      refine ⟨trivial, ?_, ?_⟩
      · rcases import_processing_service1_ok (fun r hr => Nat.ne_of_lt (hbound r hr)) hb with
          ⟨sv, hfind, hdb, _⟩ | ⟨hfind, hdb, _⟩
        · rw [hdb]
          show (t.db.processing_services.map _).map _ = _
          rw [List.map_map, ← hep]
          refine List.map_congr_left (fun r _ => ?_)
          simp only [Function.comp]
          split
          · rfl
          · rfl
        · exfalso
          obtain ⟨r, hr, he⟩ := hall x hx
          have hr2 : x.endpoint_url ∈ t.db.processing_services.map
              (fun r => r.endpoint_url) := by
            rw [hep]
            exact List.mem_map.mpr ⟨r, hr, he⟩
          obtain ⟨r0, h0, he0⟩ := List.mem_map.mp hr2
          rw [List.find?_eq_none] at hfind
          exact hfind r0 h0 (by simp [he0])
      · rcases import_processing_service1_ok (fun r hr => Nat.ne_of_lt (hbound r hr)) hb with
          ⟨sv, hfind, hdb, _⟩ | ⟨hfind, hdb, _⟩
        · intro r hr
          rw [hdb] at hr ⊢
          simp only [List.mem_map] at hr
          obtain ⟨r0, h0, rfl⟩ := hr
          split
          · exact hbound r0 h0
          · exact hbound r0 h0
        · intro r hr
          rw [hdb] at hr ⊢
          rcases List.mem_append.mp hr with hr | hr
          · exact Nat.lt_succ_of_lt (hbound r hr)
          · rw [List.mem_singleton] at hr
            subst hr
            exact Nat.lt_succ_self _)
    s s' ⟨rfl, hI⟩ h).2.1
  have hlen := congrArg List.length key
  simpa using hlen

/-- After an import of pipelines, every document pipeline's name and version
pair is present. -/
theorem import_pipelines_establishes {l : List PipelineData} {project : Pk}
    {s s' : ImportState}
    (hI : ∀ r ∈ s.db.pipelines, r.pk < s.db.nextPk)
    (h : import_pipelines l project s = .ok s') :
    ∀ x ∈ l, ∃ r ∈ s'.db.pipelines, r.name = x.name ∧ r.version = x.version := by
  unfold import_pipelines at h
  exact importLoop_establishes_inv
    (fun t => ∀ r ∈ t.db.pipelines, r.pk < t.db.nextPk)
    (fun x t => ∃ r ∈ t.db.pipelines, r.name = x.name ∧ r.version = x.version)
    (fun x t t' hIt hb => by
      rcases import_pipeline1_ok (fun r hr => Nat.ne_of_lt (hIt r hr)) hb with
        ⟨p, hfind, hdb, _⟩ | ⟨hfind, hdb, _⟩
      · intro r hr
        rw [hdb] at hr ⊢
        exact hIt r hr
      · intro r hr
        rw [hdb] at hr ⊢
        rcases List.mem_append.mp hr with hr | hr
        · exact Nat.lt_succ_of_lt (hIt r hr)
        · rw [List.mem_singleton] at hr
          subst hr
          exact Nat.lt_succ_self _)
    (fun x y t t' hIt hb hy => by
      obtain ⟨r, hr, hkv⟩ := hy
      rcases import_pipeline1_ok (fun r hr => Nat.ne_of_lt (hIt r hr)) hb with
        ⟨p, hfind, hdb, _⟩ | ⟨hfind, hdb, _⟩
      · exact ⟨r, by rw [hdb]; exact hr, hkv⟩
      · exact ⟨r, by rw [hdb]; exact List.mem_append_left _ hr, hkv⟩)
    (fun x t t' hIt hb => by
      rcases import_pipeline1_ok (fun r hr => Nat.ne_of_lt (hIt r hr)) hb with
        ⟨p, hfind, hdb, _⟩ | ⟨hfind, hdb, _⟩
      · have hp := List.find?_some hfind
        simp at hp
        exact ⟨p, by rw [hdb]; exact List.mem_of_find?_eq_some hfind, hp.1, hp.2⟩
      · exact ⟨pipelineRowOf x (resolveIds t.maps.algorithm x.algorithm_ids) t.db.nextPk,
          by rw [hdb]; exact List.mem_append_right _ (List.mem_singleton.mpr rfl),
          rfl, rfl⟩)
    l s s' hI h

/-- An import of pipelines whose name and version pairs are all already
stored leaves the Pipeline table untouched. -/
theorem import_pipelines_noNew {l : List PipelineData} {project : Pk} {s s' : ImportState}
    (hI : ∀ r ∈ s.db.pipelines, r.pk < s.db.nextPk)
    (hall : ∀ x ∈ l, ∃ r ∈ s.db.pipelines, r.name = x.name ∧ r.version = x.version)
    (h : import_pipelines l project s = .ok s') :
    s'.db.pipelines = s.db.pipelines := by
  unfold import_pipelines at h
  exact (importLoop_inv_rel
    (fun t => t.db.pipelines = s.db.pipelines ∧ t.db.nextPk = s.db.nextPk)
    (fun _ _ => True) (fun _ => trivial) (fun _ _ _ _ _ => trivial) l
    (fun x hx t t' hIt hb => by
      obtain ⟨htab, hnext⟩ := hIt
      have hbound : ∀ r ∈ t.db.pipelines, r.pk ≠ t.db.nextPk := by
        intro r hr
        rw [htab] at hr
        rw [hnext]
        exact Nat.ne_of_lt (hI r hr)
      rcases import_pipeline1_ok hbound hb with
        ⟨p, hfind, hdb, _⟩ | ⟨hfind, _, _⟩
      · exact ⟨trivial, by rw [hdb, htab], by rw [hdb, hnext]⟩
      · exfalso
        obtain ⟨r, hr, hnm, hver⟩ := hall x hx
        have hr2 : r ∈ t.db.pipelines := by
          rw [htab]
          exact hr
        rw [List.find?_eq_none] at hfind
        exact hfind r hr2 (by simp [hnm, hver]))
    s s' ⟨rfl, rfl⟩ h).2.1

/-- C4: a second import of the same document into the store left by a
first import deduplicates every dedup-by-natural-key kind — the Taxon table gains
no row (every document taxon name is already present, lines 313-327), the
Algorithm table is bit-for-bit unchanged (key+version dedup, lines 437-447),
the ProcessingService table gains no row (endpoint-URL dedup) and the
Pipeline table is unchanged (name+version dedup, lines 594-600) — while a
fresh Project row and fresh rows of every always-create kind (sites,
devices, storage sources, deployments) are created again in full. -/
theorem c4_second_import_dedups {d : Document} {user : Pk} {options : Options}
    {w1 w2 : Option Nat} {db : Db} {sM sF : ImportState}
    (hwf : db.WF) (hwfM : sM.db.WF)
    (h1 : runImport d user options w1 db = .ok sM)
    (h2 : runImport d user options w2 sM.db = .ok sF) :
    sF.db.taxa.length = sM.db.taxa.length ∧
    sF.db.algorithms = sM.db.algorithms ∧
    sF.db.processing_services.length = sM.db.processing_services.length ∧
    sF.db.pipelines = sM.db.pipelines ∧
    sF.db.projects.length = sM.db.projects.length + 1 ∧
    sF.db.sites.length = sM.db.sites.length + d.sites.length ∧
    sF.db.devices.length = sM.db.devices.length + d.devices.length ∧
    sF.db.storage_sources.length = sM.db.storage_sources.length +
      d.storage_sources.length ∧
    sF.db.deployments.length = sM.db.deployments.length + d.deployments.length := by
  obtain ⟨t1, t2, t3, t4, t5, t6, t7, t8, t9, t10, t11, t12, t13,
    ⟨hq1, hq2, hq3, hq4, hq5, hq6, hq7, hq8, hq9, hq10, hq11, hq12, hq13, hq14⟩,
    ⟨hdbA, hmapsA⟩,
    fA2, fA3, fA4, fA5, fA6, fA7, fA8, fA9, fA10, fA11, fA12, fA13, fA14⟩ :=
    runImport_anatomy hwf h1
  obtain ⟨u1, u2, u3, u4, u5, u6, u7, u8, u9, u10, u11, u12, u13,
    ⟨hr1, hr2, hr3, hr4, hr5, hr6, hr7, hr8, hr9, hr10, hr11, hr12, hr13, hr14⟩,
    ⟨hdbB, hmapsB⟩,
    kB2, kB3, kB4, kB5, kB6, kB7, kB8, kB9, kB10, kB11, kB12, kB13, kB14⟩ :=
    runImport_anatomy hwfM h2
  -- nextPk monotonicity along the first run
  have le1A : db.nextPk ≤ t1.db.nextPk := by rw [hdbA]; exact Nat.le_succ _
  have le2A := FrameRel_le (fun _ _ _ => rfl) fA2
  have le3A := FrameRel_le (fun _ _ _ => rfl) fA3
  have le4A := FrameRel_le (fun _ _ _ => rfl) fA4
  have le5A := FrameRel_le (fun _ _ _ => rfl) fA5
  have le6A := FrameRel_le (fun _ _ _ => rfl) fA6
  have le7A := FrameRel_le (fun _ _ _ => rfl) fA7
  have le8A := FrameRel_le (fun _ _ _ => rfl) fA8
  have le9A := FrameRel_le (fun _ _ _ => rfl) fA9
  have le10A := FrameRel_le (fun _ _ _ => rfl) fA10
  have le11A := FrameRel_le (fun _ _ _ => rfl) fA11
  have le12A := FrameRel_le (fun _ _ _ => rfl) fA12
  have le16A : db.nextPk ≤ t6.db.nextPk :=
    le_trans le1A (le_trans le2A (le_trans le3A (le_trans le4A (le_trans le5A le6A))))
  have le111A : db.nextPk ≤ t11.db.nextPk :=
    le_trans le16A (le_trans le7A (le_trans le8A (le_trans le9A (le_trans le10A le11A))))
  have le112A : db.nextPk ≤ t12.db.nextPk := le_trans le111A le12A
  -- first run establishes every dedup key in the store
  have etaxa6A : t6.db.taxa = db.taxa := by
    rw [FrameRel_proj fA6 (fun db => db.taxa) (fun _ _ _ => rfl),
      FrameRel_proj fA5 (fun db => db.taxa) (fun _ _ _ => rfl),
      FrameRel_proj fA4 (fun db => db.taxa) (fun _ _ _ => rfl),
      FrameRel_proj fA3 (fun db => db.taxa) (fun _ _ _ => rfl),
      FrameRel_proj fA2 (fun db => db.taxa) (fun _ _ _ => rfl), hdbA]
  have boundT6A : ∀ r ∈ t6.db.taxa, r.pk < t6.db.nextPk :=
    pks_mono' etaxa6A le16A hwf.taxa_lt
  have Etaxa7 := import_taxa_establishes_names boundT6A hq7
  have etaxaMA : sM.db.taxa = t7.db.taxa := by
    rw [FrameRel_proj fA14 (fun db => db.taxa) (fun _ _ _ => rfl),
      FrameRel_proj fA13 (fun db => db.taxa) (fun _ _ _ => rfl),
      FrameRel_proj fA12 (fun db => db.taxa) (fun _ _ _ => rfl),
      FrameRel_proj fA11 (fun db => db.taxa) (fun _ _ _ => rfl),
      FrameRel_proj fA10 (fun db => db.taxa) (fun _ _ _ => rfl),
      FrameRel_proj fA9 (fun db => db.taxa) (fun _ _ _ => rfl),
      FrameRel_proj fA8 (fun db => db.taxa) (fun _ _ _ => rfl)]
  have Etaxa : ∀ x ∈ d.taxa, x.name ∈ sM.db.taxa.map (fun r => r.name) := by
    intro x hx
    rw [etaxaMA]
    exact Etaxa7 x hx
  have esvc11A : t11.db.processing_services = db.processing_services := by
    rw [FrameRel_proj fA11 (fun db => db.processing_services) (fun _ _ _ => rfl),
      FrameRel_proj fA10 (fun db => db.processing_services) (fun _ _ _ => rfl),
      FrameRel_proj fA9 (fun db => db.processing_services) (fun _ _ _ => rfl),
      FrameRel_proj fA8 (fun db => db.processing_services) (fun _ _ _ => rfl),
      FrameRel_proj fA7 (fun db => db.processing_services) (fun _ _ _ => rfl),
      FrameRel_proj fA6 (fun db => db.processing_services) (fun _ _ _ => rfl),
      FrameRel_proj fA5 (fun db => db.processing_services) (fun _ _ _ => rfl),
      FrameRel_proj fA4 (fun db => db.processing_services) (fun _ _ _ => rfl),
      FrameRel_proj fA3 (fun db => db.processing_services) (fun _ _ _ => rfl),
      FrameRel_proj fA2 (fun db => db.processing_services) (fun _ _ _ => rfl), hdbA]
  have boundS11A : ∀ r ∈ t11.db.processing_services, r.pk < t11.db.nextPk :=
    pks_mono' esvc11A le111A hwf.processing_services_lt
  have Esvc12 := import_processing_services_establishes boundS11A hq12
  have esvcMA : sM.db.processing_services = t12.db.processing_services := by
    rw [FrameRel_proj fA14 (fun db => db.processing_services) (fun _ _ _ => rfl),
      FrameRel_proj fA13 (fun db => db.processing_services) (fun _ _ _ => rfl)]
  have Esvc : ∀ x ∈ d.processing_services,
      ∃ r ∈ sM.db.processing_services, r.endpoint_url = x.endpoint_url := by
    intro x hx
    rw [esvcMA]
    exact Esvc12 x hx
  have epl12A : t12.db.pipelines = db.pipelines := by
    rw [FrameRel_proj fA12 (fun db => db.pipelines) (fun _ _ _ => rfl),
      FrameRel_proj fA11 (fun db => db.pipelines) (fun _ _ _ => rfl),
      FrameRel_proj fA10 (fun db => db.pipelines) (fun _ _ _ => rfl),
      FrameRel_proj fA9 (fun db => db.pipelines) (fun _ _ _ => rfl),
      FrameRel_proj fA8 (fun db => db.pipelines) (fun _ _ _ => rfl),
      FrameRel_proj fA7 (fun db => db.pipelines) (fun _ _ _ => rfl),
      FrameRel_proj fA6 (fun db => db.pipelines) (fun _ _ _ => rfl),
      FrameRel_proj fA5 (fun db => db.pipelines) (fun _ _ _ => rfl),
      FrameRel_proj fA4 (fun db => db.pipelines) (fun _ _ _ => rfl),
      FrameRel_proj fA3 (fun db => db.pipelines) (fun _ _ _ => rfl),
      FrameRel_proj fA2 (fun db => db.pipelines) (fun _ _ _ => rfl), hdbA]
  have boundP12A : ∀ r ∈ t12.db.pipelines, r.pk < t12.db.nextPk :=
    pks_mono' epl12A le112A hwf.pipelines_lt
  have Epl13 := import_pipelines_establishes boundP12A hq13
  have eplMA : sM.db.pipelines = t13.db.pipelines :=
    FrameRel_proj fA14 (fun db => db.pipelines) (fun _ _ _ => rfl)
  have Epl : ∀ x ∈ d.pipelines,
      ∃ r ∈ sM.db.pipelines, r.name = x.name ∧ r.version = x.version := by
    intro x hx
    rw [eplMA]
    exact Epl13 x hx
  -- nextPk monotonicity along the second run
  have le1B : sM.db.nextPk ≤ u1.db.nextPk := by rw [hdbB]; exact Nat.le_succ _
  have le2B := FrameRel_le (fun _ _ _ => rfl) kB2
  have le3B := FrameRel_le (fun _ _ _ => rfl) kB3
  have le4B := FrameRel_le (fun _ _ _ => rfl) kB4
  have le5B := FrameRel_le (fun _ _ _ => rfl) kB5
  have le6B := FrameRel_le (fun _ _ _ => rfl) kB6
  have le7B := FrameRel_le (fun _ _ _ => rfl) kB7
  have le8B := FrameRel_le (fun _ _ _ => rfl) kB8
  have le9B := FrameRel_le (fun _ _ _ => rfl) kB9
  have le10B := FrameRel_le (fun _ _ _ => rfl) kB10
  have le11B := FrameRel_le (fun _ _ _ => rfl) kB11
  have le12B := FrameRel_le (fun _ _ _ => rfl) kB12
  have le16B : sM.db.nextPk ≤ u6.db.nextPk :=
    le_trans le1B (le_trans le2B (le_trans le3B (le_trans le4B (le_trans le5B le6B))))
  have le111B : sM.db.nextPk ≤ u11.db.nextPk :=
    le_trans le16B (le_trans le7B (le_trans le8B (le_trans le9B (le_trans le10B le11B))))
  have le112B : sM.db.nextPk ≤ u12.db.nextPk := le_trans le111B le12B
  -- taxa: every name found, no row created
  have etaxa6B : u6.db.taxa = sM.db.taxa := by
    rw [FrameRel_proj kB6 (fun db => db.taxa) (fun _ _ _ => rfl),
      FrameRel_proj kB5 (fun db => db.taxa) (fun _ _ _ => rfl),
      FrameRel_proj kB4 (fun db => db.taxa) (fun _ _ _ => rfl),
      FrameRel_proj kB3 (fun db => db.taxa) (fun _ _ _ => rfl),
      FrameRel_proj kB2 (fun db => db.taxa) (fun _ _ _ => rfl), hdbB]
  have boundT6B : ∀ r ∈ u6.db.taxa, r.pk < u6.db.nextPk :=
    pks_mono' etaxa6B le16B hwfM.taxa_lt
  have hallT : ∀ x ∈ d.taxa, x.name ∈ u6.db.taxa.map (fun r => r.name) := by
    intro x hx
    rw [etaxa6B]
    exact Etaxa x hx
  have hlenT := import_taxa_noNew boundT6B hallT hr7
  have etaxaFB : sF.db.taxa = u7.db.taxa := by
    rw [FrameRel_proj kB14 (fun db => db.taxa) (fun _ _ _ => rfl),
      FrameRel_proj kB13 (fun db => db.taxa) (fun _ _ _ => rfl),
      FrameRel_proj kB12 (fun db => db.taxa) (fun _ _ _ => rfl),
      FrameRel_proj kB11 (fun db => db.taxa) (fun _ _ _ => rfl),
      FrameRel_proj kB10 (fun db => db.taxa) (fun _ _ _ => rfl),
      FrameRel_proj kB9 (fun db => db.taxa) (fun _ _ _ => rfl),
      FrameRel_proj kB8 (fun db => db.taxa) (fun _ _ _ => rfl)]
  have cTaxa : sF.db.taxa.length = sM.db.taxa.length := by
    rw [etaxaFB, hlenT, etaxa6B]
  -- processing services: every endpoint found, no row created
  have esvc11B : u11.db.processing_services = sM.db.processing_services := by
    rw [FrameRel_proj kB11 (fun db => db.processing_services) (fun _ _ _ => rfl),
      FrameRel_proj kB10 (fun db => db.processing_services) (fun _ _ _ => rfl),
      FrameRel_proj kB9 (fun db => db.processing_services) (fun _ _ _ => rfl),
      FrameRel_proj kB8 (fun db => db.processing_services) (fun _ _ _ => rfl),
      FrameRel_proj kB7 (fun db => db.processing_services) (fun _ _ _ => rfl),
      FrameRel_proj kB6 (fun db => db.processing_services) (fun _ _ _ => rfl),
      FrameRel_proj kB5 (fun db => db.processing_services) (fun _ _ _ => rfl),
      FrameRel_proj kB4 (fun db => db.processing_services) (fun _ _ _ => rfl),
      FrameRel_proj kB3 (fun db => db.processing_services) (fun _ _ _ => rfl),
      FrameRel_proj kB2 (fun db => db.processing_services) (fun _ _ _ => rfl), hdbB]
  have boundS11B : ∀ r ∈ u11.db.processing_services, r.pk < u11.db.nextPk :=
    pks_mono' esvc11B le111B hwfM.processing_services_lt
  have hallS : ∀ x ∈ d.processing_services,
      ∃ r ∈ u11.db.processing_services, r.endpoint_url = x.endpoint_url := by
    rw [esvc11B]
    exact Esvc
  have hlenS := import_processing_services_noNew boundS11B hallS hr12
  have esvcFB : sF.db.processing_services = u12.db.processing_services := by
    rw [FrameRel_proj kB14 (fun db => db.processing_services) (fun _ _ _ => rfl),
      FrameRel_proj kB13 (fun db => db.processing_services) (fun _ _ _ => rfl)]
  have cSvc : sF.db.processing_services.length = sM.db.processing_services.length := by
    rw [esvcFB, hlenS, esvc11B]
  -- pipelines: every name+version found, table untouched
  have epl12B : u12.db.pipelines = sM.db.pipelines := by
    rw [FrameRel_proj kB12 (fun db => db.pipelines) (fun _ _ _ => rfl),
      FrameRel_proj kB11 (fun db => db.pipelines) (fun _ _ _ => rfl),
      FrameRel_proj kB10 (fun db => db.pipelines) (fun _ _ _ => rfl),
      FrameRel_proj kB9 (fun db => db.pipelines) (fun _ _ _ => rfl),
      FrameRel_proj kB8 (fun db => db.pipelines) (fun _ _ _ => rfl),
      FrameRel_proj kB7 (fun db => db.pipelines) (fun _ _ _ => rfl),
      FrameRel_proj kB6 (fun db => db.pipelines) (fun _ _ _ => rfl),
      FrameRel_proj kB5 (fun db => db.pipelines) (fun _ _ _ => rfl),
      FrameRel_proj kB4 (fun db => db.pipelines) (fun _ _ _ => rfl),
      FrameRel_proj kB3 (fun db => db.pipelines) (fun _ _ _ => rfl),
      FrameRel_proj kB2 (fun db => db.pipelines) (fun _ _ _ => rfl), hdbB]
  have boundP12B : ∀ r ∈ u12.db.pipelines, r.pk < u12.db.nextPk :=
    pks_mono' epl12B le112B hwfM.pipelines_lt
  have hallP : ∀ x ∈ d.pipelines,
      ∃ r ∈ u12.db.pipelines, r.name = x.name ∧ r.version = x.version := by
    rw [epl12B]
    exact Epl
  have heqP := import_pipelines_noNew boundP12B hallP hr13
  have eplFB : sF.db.pipelines = u13.db.pipelines :=
    FrameRel_proj kB14 (fun db => db.pipelines) (fun _ _ _ => rfl)
  have cPl : sF.db.pipelines = sM.db.pipelines := by
    rw [eplFB, heqP, epl12B]
  -- algorithms: either the block reuses every key+version, or it is skipped
  have ealg10B : u10.db.algorithms = sM.db.algorithms := by
    rw [FrameRel_proj kB10 (fun db => db.algorithms) (fun _ _ _ => rfl),
      FrameRel_proj kB9 (fun db => db.algorithms) (fun _ _ _ => rfl),
      FrameRel_proj kB8 (fun db => db.algorithms) (fun _ _ _ => rfl),
      FrameRel_proj kB7 (fun db => db.algorithms) (fun _ _ _ => rfl),
      FrameRel_proj kB6 (fun db => db.algorithms) (fun _ _ _ => rfl),
      FrameRel_proj kB5 (fun db => db.algorithms) (fun _ _ _ => rfl),
      FrameRel_proj kB4 (fun db => db.algorithms) (fun _ _ _ => rfl),
      FrameRel_proj kB3 (fun db => db.algorithms) (fun _ _ _ => rfl),
      FrameRel_proj kB2 (fun db => db.algorithms) (fun _ _ _ => rfl), hdbB]
  have ealgFB : sF.db.algorithms = u11.db.algorithms := by
    rw [FrameRel_proj kB14 (fun db => db.algorithms) (fun _ _ _ => rfl),
      FrameRel_proj kB13 (fun db => db.algorithms) (fun _ _ _ => rfl),
      FrameRel_proj kB12 (fun db => db.algorithms) (fun _ _ _ => rfl)]
  have cAlg : sF.db.algorithms = sM.db.algorithms := by
    by_cases hml : (!options.skip_ml_data && !options.skip_images) = true
    · rw [if_pos hml] at hq11 hr11
      obtain ⟨ta, hqa, hq11b⟩ := bind_ok hq11
      obtain ⟨tb, hqb, hq11c⟩ := bind_ok hq11b
      obtain ⟨tc, hqc, hq11d⟩ := bind_ok hq11c
      obtain ⟨te, hqe, hq11e⟩ := bind_ok hq11d
      obtain ⟨tf, hqf, hq11f⟩ := bind_ok hq11e
      have EalgA := import_algorithms_establishes hqa
      have ealg11A : t11.db.algorithms = ta.db.algorithms := by
        rw [FrameRel_proj (update_occurrences_frame hq11f)
            (fun db => db.algorithms) (fun _ _ _ => rfl),
          FrameRel_proj (import_identifications_frame hqf)
            (fun db => db.algorithms) (fun _ _ _ => rfl),
          FrameRel_proj (import_classifications_frame hqe)
            (fun db => db.algorithms) (fun _ _ _ => rfl),
          FrameRel_proj (import_detections_frame hqc)
            (fun db => db.algorithms) (fun _ _ _ => rfl),
          FrameRel_proj (import_occurrences_frame hqb)
            (fun db => db.algorithms) (fun _ _ _ => rfl)]
      have ealgMA : sM.db.algorithms = ta.db.algorithms := by
        rw [FrameRel_proj fA14 (fun db => db.algorithms) (fun _ _ _ => rfl),
          FrameRel_proj fA13 (fun db => db.algorithms) (fun _ _ _ => rfl),
          FrameRel_proj fA12 (fun db => db.algorithms) (fun _ _ _ => rfl), ealg11A]
      obtain ⟨ua, hra, hr11b⟩ := bind_ok hr11
      obtain ⟨ub, hrb, hr11c⟩ := bind_ok hr11b
      obtain ⟨uc, hrc, hr11d⟩ := bind_ok hr11c
      obtain ⟨ue, hre, hr11e⟩ := bind_ok hr11d
      obtain ⟨uf, hrf, hr11f⟩ := bind_ok hr11e
      have hallA : ∀ x ∈ d.algorithms,
          ∃ r ∈ u10.db.algorithms, r.key = x.key ∧ r.version = x.version := by
        rw [ealg10B, ealgMA]
        exact EalgA
      have healg := import_algorithms_noNew hallA hra
      have ealg11B : u11.db.algorithms = ua.db.algorithms := by
        rw [FrameRel_proj (update_occurrences_frame hr11f)
            (fun db => db.algorithms) (fun _ _ _ => rfl),
          FrameRel_proj (import_identifications_frame hrf)
            (fun db => db.algorithms) (fun _ _ _ => rfl),
          FrameRel_proj (import_classifications_frame hre)
            (fun db => db.algorithms) (fun _ _ _ => rfl),
          FrameRel_proj (import_detections_frame hrc)
            (fun db => db.algorithms) (fun _ _ _ => rfl),
          FrameRel_proj (import_occurrences_frame hrb)
            (fun db => db.algorithms) (fun _ _ _ => rfl)]
      rw [ealgFB, ealg11B, healg, ealg10B]
    · rw [if_neg hml] at hr11
      obtain rfl : u10 = u11 := by simpa using hr11
      rw [ealgFB, ealg10B]
  -- projects: one fresh row
  have eprojFB : sF.db.projects = u1.db.projects := by
    rw [FrameRel_proj kB14 (fun db => db.projects) (fun _ _ _ => rfl),
      FrameRel_proj kB13 (fun db => db.projects) (fun _ _ _ => rfl),
      FrameRel_proj kB12 (fun db => db.projects) (fun _ _ _ => rfl),
      FrameRel_proj kB11 (fun db => db.projects) (fun _ _ _ => rfl),
      FrameRel_proj kB10 (fun db => db.projects) (fun _ _ _ => rfl),
      FrameRel_proj kB9 (fun db => db.projects) (fun _ _ _ => rfl),
      FrameRel_proj kB8 (fun db => db.projects) (fun _ _ _ => rfl),
      FrameRel_proj kB7 (fun db => db.projects) (fun _ _ _ => rfl),
      FrameRel_proj kB6 (fun db => db.projects) (fun _ _ _ => rfl),
      FrameRel_proj kB5 (fun db => db.projects) (fun _ _ _ => rfl),
      FrameRel_proj kB4 (fun db => db.projects) (fun _ _ _ => rfl),
      FrameRel_proj kB3 (fun db => db.projects) (fun _ _ _ => rfl),
      FrameRel_proj kB2 (fun db => db.projects) (fun _ _ _ => rfl)]
  have cProj : sF.db.projects.length = sM.db.projects.length + 1 := by
    rw [eprojFB, hdbB]
    simp
  -- sites: one fresh row per document site
  have hsites2B : u2.db.sites.length = u1.db.sites.length + d.sites.length :=
    @importLoop_len SiteData (import_site1 sM.db.nextPk) (fun db => db.sites.length)
      (fun x s s' hb => by rw [(import_site1_ok hb).1]; simp) d.sites u1 u2 hr2
  have esites1B : u1.db.sites = sM.db.sites := by rw [hdbB]
  have esitesFB : sF.db.sites = u2.db.sites := by
    rw [FrameRel_proj kB14 (fun db => db.sites) (fun _ _ _ => rfl),
      FrameRel_proj kB13 (fun db => db.sites) (fun _ _ _ => rfl),
      FrameRel_proj kB12 (fun db => db.sites) (fun _ _ _ => rfl),
      FrameRel_proj kB11 (fun db => db.sites) (fun _ _ _ => rfl),
      FrameRel_proj kB10 (fun db => db.sites) (fun _ _ _ => rfl),
      FrameRel_proj kB9 (fun db => db.sites) (fun _ _ _ => rfl),
      FrameRel_proj kB8 (fun db => db.sites) (fun _ _ _ => rfl),
      FrameRel_proj kB7 (fun db => db.sites) (fun _ _ _ => rfl),
      FrameRel_proj kB6 (fun db => db.sites) (fun _ _ _ => rfl),
      FrameRel_proj kB5 (fun db => db.sites) (fun _ _ _ => rfl),
      FrameRel_proj kB4 (fun db => db.sites) (fun _ _ _ => rfl),
      FrameRel_proj kB3 (fun db => db.sites) (fun _ _ _ => rfl)]
  have cSites : sF.db.sites.length = sM.db.sites.length + d.sites.length := by
    rw [esitesFB, hsites2B, esites1B]
  -- devices
  have hdev3B : u3.db.devices.length = u2.db.devices.length + d.devices.length :=
    @importLoop_len DeviceData (import_device1 sM.db.nextPk) (fun db => db.devices.length)
      (fun x s s' hb => by rw [(import_device1_ok hb).1]; simp) d.devices u2 u3 hr3
  have edev2B : u2.db.devices = sM.db.devices := by
    rw [FrameRel_proj kB2 (fun db => db.devices) (fun _ _ _ => rfl), hdbB]
  have edevFB : sF.db.devices = u3.db.devices := by
    rw [FrameRel_proj kB14 (fun db => db.devices) (fun _ _ _ => rfl),
      FrameRel_proj kB13 (fun db => db.devices) (fun _ _ _ => rfl),
      FrameRel_proj kB12 (fun db => db.devices) (fun _ _ _ => rfl),
      FrameRel_proj kB11 (fun db => db.devices) (fun _ _ _ => rfl),
      FrameRel_proj kB10 (fun db => db.devices) (fun _ _ _ => rfl),
      FrameRel_proj kB9 (fun db => db.devices) (fun _ _ _ => rfl),
      FrameRel_proj kB8 (fun db => db.devices) (fun _ _ _ => rfl),
      FrameRel_proj kB7 (fun db => db.devices) (fun _ _ _ => rfl),
      FrameRel_proj kB6 (fun db => db.devices) (fun _ _ _ => rfl),
      FrameRel_proj kB5 (fun db => db.devices) (fun _ _ _ => rfl),
      FrameRel_proj kB4 (fun db => db.devices) (fun _ _ _ => rfl)]
  have cDev : sF.db.devices.length = sM.db.devices.length + d.devices.length := by
    rw [edevFB, hdev3B, edev2B]
  -- storage sources
  have hstor4B : u4.db.storage_sources.length =
      u3.db.storage_sources.length + d.storage_sources.length :=
    @importLoop_len StorageSourceData (import_storage_source1 sM.db.nextPk)
      (fun db => db.storage_sources.length)
      (fun x s s' hb => by rw [(import_storage_source1_ok hb).1]; simp)
      d.storage_sources u3 u4 hr4
  have estor3B : u3.db.storage_sources = sM.db.storage_sources := by
    rw [FrameRel_proj kB3 (fun db => db.storage_sources) (fun _ _ _ => rfl),
      FrameRel_proj kB2 (fun db => db.storage_sources) (fun _ _ _ => rfl), hdbB]
  have estorFB : sF.db.storage_sources = u4.db.storage_sources := by
    rw [FrameRel_proj kB14 (fun db => db.storage_sources) (fun _ _ _ => rfl),
      FrameRel_proj kB13 (fun db => db.storage_sources) (fun _ _ _ => rfl),
      FrameRel_proj kB12 (fun db => db.storage_sources) (fun _ _ _ => rfl),
      FrameRel_proj kB11 (fun db => db.storage_sources) (fun _ _ _ => rfl),
      FrameRel_proj kB10 (fun db => db.storage_sources) (fun _ _ _ => rfl),
      FrameRel_proj kB9 (fun db => db.storage_sources) (fun _ _ _ => rfl),
      FrameRel_proj kB8 (fun db => db.storage_sources) (fun _ _ _ => rfl),
      FrameRel_proj kB7 (fun db => db.storage_sources) (fun _ _ _ => rfl),
      FrameRel_proj kB6 (fun db => db.storage_sources) (fun _ _ _ => rfl),
      FrameRel_proj kB5 (fun db => db.storage_sources) (fun _ _ _ => rfl)]
  have cStor : sF.db.storage_sources.length =
      sM.db.storage_sources.length + d.storage_sources.length := by
    rw [estorFB, hstor4B, estor3B]
  -- deployments
  have hdep5B : u5.db.deployments.length = u4.db.deployments.length + d.deployments.length :=
    @importLoop_len DeploymentData (import_deployment1 sM.db.nextPk)
      (fun db => db.deployments.length)
      (fun x s s' hb => by rw [(import_deployment1_ok hb).1]; simp)
      d.deployments u4 u5 hr5
  have edep4B : u4.db.deployments = sM.db.deployments := by
    rw [FrameRel_proj kB4 (fun db => db.deployments) (fun _ _ _ => rfl),
      FrameRel_proj kB3 (fun db => db.deployments) (fun _ _ _ => rfl),
      FrameRel_proj kB2 (fun db => db.deployments) (fun _ _ _ => rfl), hdbB]
  have edepFB : sF.db.deployments = u5.db.deployments := by
    rw [FrameRel_proj kB14 (fun db => db.deployments) (fun _ _ _ => rfl),
      FrameRel_proj kB13 (fun db => db.deployments) (fun _ _ _ => rfl),
      FrameRel_proj kB12 (fun db => db.deployments) (fun _ _ _ => rfl),
      FrameRel_proj kB11 (fun db => db.deployments) (fun _ _ _ => rfl),
      FrameRel_proj kB10 (fun db => db.deployments) (fun _ _ _ => rfl),
      FrameRel_proj kB9 (fun db => db.deployments) (fun _ _ _ => rfl),
      FrameRel_proj kB8 (fun db => db.deployments) (fun _ _ _ => rfl),
      FrameRel_proj kB7 (fun db => db.deployments) (fun _ _ _ => rfl),
      FrameRel_proj kB6 (fun db => db.deployments) (fun _ _ _ => rfl)]
  have cDep : sF.db.deployments.length = sM.db.deployments.length + d.deployments.length := by
    rw [edepFB, hdep5B, edep4B]
  exact ⟨cTaxa, cAlg, cSvc, cPl, cProj, cSites, cDev, cStor, cDep⟩

/-- A document with one record of each dedup-by-natural-key kind and one of
each always-create infrastructure kind, for the C4 witness run. -/
def c4doc : Document :=
  { emptyDoc with
    sites := [{ id := 11, name := "S", description := none, latitude := none,
                longitude := none, elevation := none }],
    devices := [{ id := 12, name := "D", description := none,
                  hardware_version := none, software_version := none }],
    storage_sources := [{ id := 13, name := "B", endpoint_url := none, bucket := none,
                          prefix_val := none, access_key := none, secret_key := none,
                          public_base_url := none }],
    deployments := [{ id := 14, name := "Dep", description := none,
                      research_site_id := some 11, device_id := some 12,
                      data_source_id := some 13, data_source_subdir := none,
                      data_source_regex := none, latitude := none, longitude := none }],
    taxa := [{ id := 21, name := "Moth", rank := none, description := none,
               ordering := none, parent_id := none, synonym_of_id := none }],
    algorithms := [{ id := 31, name := "Detector", key := "det", version := 1,
                     task_type := none, category_map_data := none,
                     category_map_labels := [] }],
    processing_services := [{ id := 41, name := "Svc", endpoint_url := "svc.example" }],
    pipelines := [{ id := 51, name := "Pipe", slug := none, version := 1,
                    default_config := none, algorithm_ids := [31] }] }

/-- The store state after the first witness import. -/
def c4mid : ImportState :=
  match runImport c4doc 7 defaultOptions none emptyDb with
  | .ok s => s
  | .error _ => ⟨emptyDb, emptyMaps, none⟩

/-- The store state after the second witness import of the same document. -/
def c4fin : ImportState :=
  match runImport c4doc 7 defaultOptions none c4mid.db with
  | .ok s => s
  | .error _ => ⟨emptyDb, emptyMaps, none⟩

/-- Witness for C4: the same document imported twice from the empty store;
the second run adds no taxon, algorithm, service or pipeline row but a
second project and a second row of each always-create kind. -/
theorem c4_second_import_dedups_witness :
    emptyDb.WF ∧ c4mid.db.WF ∧
    runImport c4doc 7 defaultOptions none emptyDb = .ok c4mid ∧
    runImport c4doc 7 defaultOptions none c4mid.db = .ok c4fin ∧
    (c4fin.db.taxa.length = c4mid.db.taxa.length ∧
     c4fin.db.algorithms = c4mid.db.algorithms ∧
     c4fin.db.processing_services.length = c4mid.db.processing_services.length ∧
     c4fin.db.pipelines = c4mid.db.pipelines ∧
     c4fin.db.projects.length = c4mid.db.projects.length + 1 ∧
     c4fin.db.sites.length = c4mid.db.sites.length + c4doc.sites.length ∧
     c4fin.db.devices.length = c4mid.db.devices.length + c4doc.devices.length ∧
     c4fin.db.storage_sources.length = c4mid.db.storage_sources.length +
       c4doc.storage_sources.length ∧
     c4fin.db.deployments.length = c4mid.db.deployments.length +
       c4doc.deployments.length) ∧
    c4mid.db.taxa.length = 1 ∧ c4fin.db.projects.length = 2 ∧
    c4fin.db.sites.length = 2 :=
  ⟨emptyDb_wf, by constructor <;> decide, rfl, rfl,
   @c4_second_import_dedups c4doc 7 defaultOptions none none emptyDb c4mid c4fin
     emptyDb_wf (by constructor <;> decide) rfl rfl,
   rfl, rfl, rfl⟩

end AntennaImport
